import Mathlib

/-!
# CoSphere: group-priority channel selection

A shallow embedding of `service/channel_select.go` (the channel selector) together
with the parts of the token model it reads.  Go functions become Lean functions of
the same name.  The per-request `gin.Context` is a finite key/value map; a call
returns, next to its Go results, the context after the call and the list of
effects it performed (store queries, configuration reads, context writes) in the
order they happened.
-/

set_option autoImplicit false

namespace CoSphere

/-! ## Data model -/

/-- An upstream channel as returned by the channel store (`model.Channel`); only
its presence matters to the selector. -/
structure Channel where
  Id : Int
  Name : String
deriving DecidableEq

/-- The pair `model.GroupPriority`: a group name and its rank. -/
structure GroupPriority where
  Group : String
  Priority : Int
deriving DecidableEq

/-- The fields of `model.Token` that the controller and the selector touch. -/
structure Token where
  Id : Int := 0
  UserId : Int := 0
  Key : String := ""
  Status : Int := 0
  Name : String := ""
  CreatedTime : Int := 0
  AccessedTime : Int := 0
  ExpiredTime : Int := 0
  RemainQuota : Int := 0
  UnlimitedQuota : Bool := false
  ModelLimitsEnabled : Bool := false
  ModelLimits : String := ""
  AllowIps : Option String := none
  Group : String := ""
  GroupPriorities : String := ""
  AutoSmartGroup : Bool := false
deriving DecidableEq

/-- Go `error` values that the selector can return: its two package-level
sentinels, the error built in the `auto` branch when no auto groups are
configured, and an error handed up from the channel store. -/
inductive Error where
  | ErrAllGroupsFailed
  | ErrNoAvailableGroup
  | autoGroupsNotEnabled
  | store (msg : String)
deriving DecidableEq

/-- Errors of the priority-list codec. -/
inductive TokenError where
  | MalformedPriorityList
  | InvalidPriorityList (reason : String)
deriving DecidableEq

/-- A value stored under a context key. -/
inductive CtxValue where
  | str (s : String)
  | bool (b : Bool)
  | int (n : Int)
deriving DecidableEq

/-- The key/value part of a `gin.Context`. -/
abbrev Context := String → Option CtxValue

/-- An effect performed by the selector on one of its collaborators. -/
inductive Event where
  | storeQuery (group : String) (modelName : String) (retry : Int)
  | getAutoGroups
  | getUserAutoGroup (userGroup : String)
  | getUserUsableGroups (userGroup : String)
  | getGroupRatioCopy
  | ctxSet (key : String) (value : CtxValue)
deriving DecidableEq

/-- The collaborators of the core, fixed for one invocation.

* `randomChannelSelector` is the package variable of the same name (by default
  `model.GetRandomSatisfiedChannel`): the Go pair `(*Channel, error)` is a pair of
  options, `none` standing for `nil`.
* `GetAutoGroups` is `setting.GetAutoGroups()`, `GetUserAutoGroup` the service
  function of that name.
* `GetUserUsableGroups` gives the keys of the map returned by
  `service.GetUserUsableGroups`, in the order in which a `range` over the map
  visits them in this invocation (Go leaves that order unspecified, so it is
  arbitrary here).
* `GetGroupRatioCopy` is the lookup in the map returned by
  `ratio_setting.GetGroupRatioCopy()`; a finite `float64` ratio is the rational
  number it denotes.
* `Unmarshal` / `Marshal` are the JSON decoding and encoding of a priority list,
  `MaxGroupPriorities` the configured bound `model.MaxGroupPriorities`. -/
structure Env where
  randomChannelSelector : String → String → Int → Option Channel × Option String
  GetAutoGroups : List String
  GetUserAutoGroup : String → List String
  GetUserUsableGroups : String → List String
  GetGroupRatioCopy : String → Option ℚ
  Unmarshal : String → Option (List GroupPriority)
  Marshal : List GroupPriority → String
  MaxGroupPriorities : Nat

/-! ## Request context -/

/-- Modelled from the spec: the context key constants of package `constant`
(`ContextKeyUserGroup` and the three keys the selector writes), which are not
part of the sources; the spec names them `user_group`, `using_group`,
`selected_group` and `auto_smart_group_used`. -/
def ContextKeyUserGroup : String := "user_group"

/-- Modelled from the spec: the constant `constant.ContextKeyUsingGroup`. -/
def ContextKeyUsingGroup : String := "using_group"

/-- Modelled from the spec: the constant `constant.ContextKeySelectedGroup`. -/
def ContextKeySelectedGroup : String := "selected_group"

/-- Modelled from the spec: the constant `constant.ContextKeyAutoSmartGroupUsed`. -/
def ContextKeyAutoSmartGroupUsed : String := "auto_smart_group_used"

/-- The context with no key set. -/
def Context.empty : Context := fun _ => none

/-- The map update behind `c.Set(key, value)`. -/
def Context.Set (c : Context) (key : String) (value : CtxValue) : Context :=
  fun k => if k = key then some value else c k

/-- Modelled from the spec: `common.GetContextKeyString`, the string stored under
the key, or the empty string when the key is absent or holds no string. -/
def GetContextKeyString (c : Context) (key : String) : String :=
  match c key with
  | some (CtxValue.str s) => s
  | _ => ""

/-- Modelled from the spec: `common.GetContextKeyBool`, the boolean stored under
the key, or `false` when the key is absent or holds no boolean. -/
def GetContextKeyBool (c : Context) (key : String) : Bool :=
  match c key with
  | some (CtxValue.bool b) => b
  | _ => false

/-- Modelled from the spec: `common.SetContextKey`, a write of one key; returns
the new context and the write as an effect. -/
def SetContextKey (c : Context) (key : String) (value : CtxValue) : Context × List Event :=
  (c.Set key value, [Event.ctxSet key value])

/-! ## Priority list codec (read side) -/

/-- The order used to sort a priority list: ascending by `Priority`. -/
def priorityLE (a b : GroupPriority) : Prop := a.Priority ≤ b.Priority

instance : DecidableRel priorityLE := fun a b => inferInstanceAs (Decidable
    (a.Priority ≤ b.Priority))

/-- Modelled from the spec: `Token.GetGroupPriorities` of `model/token.go`, which
is not part of the sources.  An empty `group_priorities` falls back to
`[(token.group, 1)]`, or to the empty list when `token.group` is empty too; a
non-empty one is decoded, failing with `MalformedPriorityList` (and no list) when
it is not parseable, and the decoded list is returned stable-sorted ascending by
priority. -/
def Token.GetGroupPriorities (env : Env) (t : Token) : Except TokenError (List GroupPriority) :=
  if t.GroupPriorities = "" then
    if t.Group ≠ "" then Except.ok [{ Group := t.Group, Priority := 1 }]
    else Except.ok []
  else
    match env.Unmarshal t.GroupPriorities with
    | none => Except.error TokenError.MalformedPriorityList
    | some l => Except.ok (l.insertionSort priorityLE)

/-! ## Channel selector (`service/channel_select.go`) -/

/-- What a selector function hands back: the Go triple
`(*model.Channel, string, error)`, the request context after the call, and the
effects the call performed, oldest first. -/
structure Result where
  channel : Option Channel
  group : String
  err : Option Error
  ctx : Context
  trace : List Event

/-- The same result, preceded by the effects `t`. -/
def Result.after (t : List Event) (r : Result) : Result :=
  { r with trace := t ++ r.trace }

/-- Writes the selection into the context: nothing for the empty group, otherwise
`selected_group`, `using_group` and the `auto_smart_group_used` flag. -/
def setGroupSelectionContext (c : Context) (group : String) (autoSmart : Bool) :
    Context × List Event :=
  if group = "" then (c, [])
  else
    let s1 := SetContextKey c ContextKeySelectedGroup (CtxValue.str group)
    let s2 := SetContextKey s1.1 ContextKeyUsingGroup (CtxValue.str group)
    let s3 :=
      if autoSmart then SetContextKey s2.1 ContextKeyAutoSmartGroupUsed (CtxValue.bool true)
      else SetContextKey s2.1 ContextKeyAutoSmartGroupUsed (CtxValue.bool false)
    (s3.1, s1.2 ++ s2.2 ++ s3.2)

/-- The `for _, autoGroup := range GetUserAutoGroup(userGroup)` loop of
`CacheGetRandomSatisfiedChannel`: the store is asked group by group, its error is
dropped, and the first channel ends the loop after `auto_group` is written.  When
the loop runs out, `channel` is still `nil` and `selectGroup` still `"auto"`. -/
def autoGroupLoop (env : Env) (c : Context) (modelName : String) (retry : Int) :
    List String → Result
  | [] => { channel := none, group := "auto", err := none, ctx := c, trace := [] }
  | autoGroup :: rest =>
    match (env.randomChannelSelector autoGroup modelName retry).1 with
    | none =>
      (autoGroupLoop env c modelName retry rest).after
        [Event.storeQuery autoGroup modelName retry]
    | some ch =>
      { channel := some ch, group := autoGroup, err := none
        ctx := c.Set "auto_group" (CtxValue.str autoGroup)
        trace := [Event.storeQuery autoGroup modelName retry,
                  Event.ctxSet "auto_group" (CtxValue.str autoGroup)] }

/-- The function `CacheGetRandomSatisfiedChannel`. -/
def CacheGetRandomSatisfiedChannel (env : Env) (c : Context) (group : String)
    (modelName : String) (retry : Int) : Result :=
  let userGroup := GetContextKeyString c ContextKeyUserGroup
  if group = "auto" then
    if env.GetAutoGroups.length = 0 then
      { channel := none, group := group,
        err := some Error.autoGroupsNotEnabled, ctx := c, trace := [Event.getAutoGroups] }
    else
      (autoGroupLoop env c modelName retry (env.GetUserAutoGroup userGroup)).after
        [Event.getAutoGroups, Event.getUserAutoGroup userGroup]
  else
    match env.randomChannelSelector group modelName retry with
    | (_, some e) =>
      { channel := none, group := group, err := some (Error.store e), ctx := c,
        trace := [Event.storeQuery group modelName retry] }
    | (channel, none) =>
      { channel := channel, group := group, err := none, ctx := c,
        trace := [Event.storeQuery group modelName retry] }

/-- The function `selectChannelFromSingleGroup`. -/
def selectChannelFromSingleGroup (env : Env) (c : Context) (group : String)
    (modelName : String) (retry : Int) : Result :=
  let r := CacheGetRandomSatisfiedChannel env c group modelName retry
  if r.err = none ∧ r.channel ≠ none then
    let s := setGroupSelectionContext r.ctx r.group false
    { r with ctx := s.1, trace := r.trace ++ s.2 }
  else r

/-- How a `for` loop over groups ends: by a `return` from its body, or by
running out of entries (with the context and the effects so far). -/
inductive LoopExit where
  | returned (r : Result)
  | exhausted (ctx : Context) (trace : List Event)

/-- The body shared by the two group loops: one call of
`CacheGetRandomSatisfiedChannel`, `continue` on an error, `return` after
`setGroupSelectionContext` on a channel, and the next iteration otherwise. -/
def groupLoop (env : Env) (modelName : String) (retry : Int) (autoSmart : Bool) :
    Context → List String → LoopExit
  | c, [] => LoopExit.exhausted c []
  | c, g :: rest =>
    let r := CacheGetRandomSatisfiedChannel env c g modelName retry
    let continued : LoopExit :=
      match groupLoop env modelName retry autoSmart r.ctx rest with
      | LoopExit.returned r2 => LoopExit.returned (r2.after r.trace)
      | LoopExit.exhausted c2 t2 => LoopExit.exhausted c2 (r.trace ++ t2)
    if r.err ≠ none then continued
    else
      match r.channel with
      | some ch =>
        let s := setGroupSelectionContext r.ctx r.group autoSmart
        LoopExit.returned
          { channel := some ch, group := r.group, err := none, ctx := s.1,
            trace := r.trace ++ s.2 }
      | none => continued

/-- One fallback candidate of `selectChannelByRatio` (the local type
`groupWithRatio`). -/
structure groupWithRatio where
  group : String
  ratio : ℚ
deriving DecidableEq

/-- The order of the `sort.Slice` call: ascending by ratio. -/
def ratioLE (a b : groupWithRatio) : Prop := a.ratio ≤ b.ratio

instance : DecidableRel ratioLE := fun a b => inferInstanceAs (Decidable (a.ratio ≤ b.ratio))

instance : IsTotal groupWithRatio ratioLE := ⟨fun a b => le_total a.ratio b.ratio⟩

instance : IsTrans groupWithRatio ratioLE := ⟨fun _ _ _ hab hbc => le_trans hab hbc⟩

/-- The candidate-collecting loop of `selectChannelByRatio`: the usable groups in
the order the `range` visits them, without the excluded ones and without those
that have no ratio. -/
def collectCandidates (env : Env) (excludePriorities : List GroupPriority) :
    List String → List groupWithRatio
  | [] => []
  | group :: rest =>
    if group ∈ excludePriorities.map GroupPriority.Group then
      collectCandidates env excludePriorities rest
    else
      match env.GetGroupRatioCopy group with
      | none => collectCandidates env excludePriorities rest
      | some ratio => { group := group, ratio :=
          ratio } :: collectCandidates env excludePriorities rest

/-- The candidates of the ratio fallback after `sort.Slice`.  `sort.Slice` is not
stable and the map order is arbitrary; a stable sort of the arbitrary visiting
order `Env.GetUserUsableGroups` yields every ratio-sorted arrangement of the
candidates, so nothing is lost. -/
def sortedCandidates (env : Env) (userGroup : String) (excludePriorities : List GroupPriority) :
    List groupWithRatio :=
  (collectCandidates env excludePriorities
      (env.GetUserUsableGroups userGroup)).insertionSort ratioLE

/-- The function `selectChannelByRatio`. -/
def selectChannelByRatio (env : Env) (c : Context) (modelName : String) (retry : Int)
    (excludePriorities : List GroupPriority) : Result :=
  let userGroup := GetContextKeyString c ContextKeyUserGroup
  let reads := [Event.getUserUsableGroups userGroup, Event.getGroupRatioCopy]
  let candidates := sortedCandidates env userGroup excludePriorities
  if candidates.length = 0 then
    { channel := none, group := "", err := some Error.ErrNoAvailableGroup, ctx := c,
      trace := reads }
  else
    match groupLoop env modelName retry true c (candidates.map groupWithRatio.group) with
    | LoopExit.returned r => r.after reads
    | LoopExit.exhausted c2 t2 =>
      { channel := none, group := "", err := some Error.ErrAllGroupsFailed, ctx := c2,
        trace := reads ++ t2 }

/-- The function `SelectChannelWithPriority`. -/
def SelectChannelWithPriority (env : Env) (c : Context) (token : Token)
    (modelName : String) (retry : Int) : Result :=
  match token.GetGroupPriorities env with
  | Except.error _ =>
    let fallbackGroup := GetContextKeyString c ContextKeyUsingGroup
    let fallbackGroup := if fallbackGroup = "" then token.Group else fallbackGroup
    selectChannelFromSingleGroup env c fallbackGroup modelName retry
  | Except.ok priorities =>
    let baseGroup := GetContextKeyString c ContextKeyUsingGroup
    let baseGroup := if baseGroup = "" then token.Group else baseGroup
    let baseGroup :=
      if baseGroup = "" then GetContextKeyString c ContextKeyUserGroup else baseGroup
    if priorities.length = 0 then
      selectChannelFromSingleGroup env c baseGroup modelName retry
    else
      match groupLoop env modelName retry false c (priorities.map GroupPriority.Group) with
      | LoopExit.returned r => r
      | LoopExit.exhausted c2 t2 =>
        if token.AutoSmartGroup then
          (selectChannelByRatio env c2 modelName retry priorities).after t2
        else
          { channel := none, group := "", err := some Error.ErrAllGroupsFailed, ctx := c2,
            trace := t2 }

/-! ## Vocabulary of the statements -/


/-- A call produced a channel and no error. -/
def Result.succeeded (r : Result) : Prop := r.err = none ∧ r.channel ≠ none

instance (r : Result) : Decidable r.succeeded := inferInstanceAs (Decidable (_ ∧ _))

/-- The groups for which the store was queried, in order. -/
def storeGroups (t : List Event) : List String :=
  t.filterMap fun e =>
    match e with
    | Event.storeQuery g _ _ => some g
    | _ => none

/-- The effects of attempting the groups `gs` one after the other from context `c`. -/
def attemptsTrace (env : Env) (c : Context) (modelName : String) (retry : Int)
    (gs : List String) : List Event :=
  gs.flatMap fun g => (CacheGetRandomSatisfiedChannel env c g modelName retry).trace

/-- The result with which a group loop returns when its attempt `r` produced a
channel: the attempt's channel and group, no error, and the selection written to
the context. -/
def selected (r : Result) (autoSmart : Bool) : Result :=
  { channel := r.channel, group := r.group, err := none,
    ctx := (setGroupSelectionContext r.ctx r.group autoSmart).1,
    trace := r.trace ++ (setGroupSelectionContext r.ctx r.group autoSmart).2 }

/-- The first non-empty string of a list, or the empty string when it has none
(the "first non-empty of" of the spec's base-group rule). -/
def firstNonEmpty : List String → String
  | [] => ""
  | s :: rest => if s = "" then firstNonEmpty rest else s

/-- The group `g` is a candidate of the ratio fallback: usable by the user group
`ug`, not in the priority list `ps`, and with an entry in the ratio table. -/
def isCandidate (env : Env) (ug : String) (ps : List GroupPriority) (g : String) : Prop :=
  g ∈ env.GetUserUsableGroups ug ∧ g ∉ ps.map GroupPriority.Group ∧
    env.GetGroupRatioCopy g ≠ none

instance (env : Env) (ug : String) (ps : List GroupPriority) (g : String) :
    Decidable (isCandidate env ug ps g) := inferInstanceAs (Decidable (_ ∧ _ ∧ _))

/-! ## Example collaborators -/

/-- A channel store for the examples: `vip` and `standard` have a channel, `idle`
answers with neither a channel nor an error, every other group with an error. -/
def demoStore : String → String → Int → Option Channel × Option String :=
  fun g _ _ =>
    if g = "vip" then (some { Id := 1, Name := "vip-channel" }, none)
    else if g = "standard" then (some { Id := 2, Name := "standard-channel" }, none)
    else if g = "idle" then (none, none)
    else (none, some "no channel")

/-- A decoder for the examples, given by a table of stored strings. -/
def demoUnmarshal (s : String) : Option (List GroupPriority) :=
  if s = "[primary:1,vip:2,standard:3]" then
    some [{ Group := "primary", Priority := 1 }, { Group := "vip", Priority := 2 },
          { Group := "standard", Priority := 3 }]
  else if s = "[primary:1]" then some [{ Group := "primary", Priority := 1 }]
  else if s = "[auto:1,vip:2]" then
    some [{ Group := "auto", Priority := 1 }, { Group := "vip", Priority := 2 }]
  else if s = "[basic:1]" then some [{ Group := "basic", Priority := 1 }]
  else if s = "[]" then some []
  else none

/-- The collaborators used in the examples.  The user group `default` may use
`primary`, `vip`, `standard` and `basic`; `guest` and `trial` may use the `auto`
sentinel. -/
def demoEnv : Env where
  randomChannelSelector := demoStore
  GetAutoGroups := ["basic", "standard", "vip"]
  GetUserAutoGroup := fun ug =>
    if ug = "default" then ["basic", "standard", "vip"]
    else if ug = "guest" then ["basic"]
    else if ug = "trial" then ["vip"]
    else []
  GetUserUsableGroups := fun ug =>
    if ug = "default" then ["primary", "vip", "standard", "basic"]
    else if ug = "guest" then ["auto", "basic"]
    else if ug = "trial" then ["auto"]
    else []
  GetGroupRatioCopy := fun g =>
    if g = "vip" then some 2
    else if g = "standard" then some 1
    else if g = "basic" then some 4
    else if g = "auto" then some 3
    else none
  Unmarshal := demoUnmarshal
  Marshal := fun _ => ""
  MaxGroupPriorities := 32

/-- The request context of a user of group `ug` before selection. -/
def demoCtx (ug : String) : Context :=
  Context.empty.Set ContextKeyUserGroup (CtxValue.str ug)

/-- The example collaborators with no auto groups configured. -/
def demoEnvNoAuto : Env := { demoEnv with GetAutoGroups := [] }

/-- The request context of a user of group `default` before selection. -/
def demoUser : Context := demoCtx "default"

/-- The example context of a user of group `ug` whose `using_group` is already
set to `g`. -/
def demoCtxUsing (ug g : String) : Context :=
  (demoCtx ug).Set ContextKeyUsingGroup (CtxValue.str g)

/-- The priority list of the examples: `primary`, `vip`, `standard`. -/
def demoList : List GroupPriority :=
  [{ Group := "primary", Priority := 1 }, { Group := "vip", Priority := 2 },
   { Group := "standard", Priority := 3 }]

/-- The token of the walk examples: the stored list `primary, vip, standard`. -/
def demoToken : Token := { GroupPriorities := "[primary:1,vip:2,standard:3]" }

/-- The token of the `auto` examples: the stored list `auto, vip`. -/
def demoAutoToken : Token := { GroupPriorities := "[auto:1,vip:2]" }

/-- The token of the fallback examples: the list `primary` alone, with
`auto_smart_group` set. -/
def demoSmartToken : Token := { GroupPriorities := "[primary:1]", AutoSmartGroup := true }

/-! ## Priority list codec (write side) -/

instance : IsTotal GroupPriority priorityLE := ⟨fun a b => le_total a.Priority b.Priority⟩

instance : IsTrans GroupPriority priorityLE := ⟨fun _ _ _ hab hbc => le_trans hab hbc⟩

/-- The predicate `unicode.IsSpace` of the Go library, by code point. -/
def isSpace (ch : Char) : Bool :=
  ch.toNat = 0x09 || ch.toNat = 0x0A || ch.toNat = 0x0B || ch.toNat = 0x0C ||
  ch.toNat = 0x0D || ch.toNat = 0x20 || ch.toNat = 0x85 || ch.toNat = 0xA0 ||
  ch.toNat = 0x1680 || (0x2000 ≤ ch.toNat && ch.toNat ≤ 0x200A) ||
  ch.toNat = 0x2028 || ch.toNat = 0x2029 || ch.toNat = 0x202F || ch.toNat = 0x205F ||
  ch.toNat = 0x3000

/-- The function `strings.TrimSpace`: the string without its leading and trailing
white space. -/
def TrimSpace (s : String) : String :=
  String.mk ((s.data.dropWhile isSpace).rdropWhile isSpace)

/-- Every group name trimmed, priorities kept (the spec's `trim_each`). -/
def trimEach (l : List GroupPriority) : List GroupPriority :=
  l.map fun p => { Group := TrimSpace p.Group, Priority := p.Priority }

/-- The normal form of a priority list: names trimmed, then stable-sorted ascending
by priority (the spec's `sort_stable(trim_each(L))`). -/
def normalizePriorities (l : List GroupPriority) : List GroupPriority :=
  (trimEach l).insertionSort priorityLE

/-- Modelled from the spec: the validation of `Token.SetGroupPriorities`, which is
not part of the sources.  It gives the sub-reason of `InvalidPriorityList`, if
any: more than `MaxGroupPriorities` entries, a group empty after trimming, a
priority below 1, or a group named twice (after trimming). -/
def validatePriorities (env : Env) (priorities : List GroupPriority) : Option String :=
  if priorities.length > env.MaxGroupPriorities then some "too many groups"
  else if priorities.any (fun p => TrimSpace p.Group = "") then some "empty group"
  else if priorities.any (fun p => p.Priority < 1) then some "priority below 1"
  else if ¬ (priorities.map fun p => TrimSpace p.Group).Nodup then some "duplicate group"
  else none

/-- Modelled from the spec: `Token.SetGroupPriorities` of `model/token.go`, which is
not part of the sources.  The result is the token after the call and the error,
if any.  The empty list clears `group_priorities` and leaves `group` as it is; an
invalid list is rejected and the token is left unchanged; a valid list is stored
in normal form (serialized) and `group` becomes the group of its first entry. -/
def Token.SetGroupPriorities (env : Env) (t : Token) (priorities : List GroupPriority) :
    Token × Option TokenError :=
  if priorities.length = 0 then ({ t with GroupPriorities := "" }, none)
  else
    match validatePriorities env priorities with
    | some reason => (t, some (TokenError.InvalidPriorityList reason))
    | none =>
      match normalizePriorities priorities with
      | [] => ({ t with GroupPriorities := "" }, none)
      | first :: rest =>
        ({ t with GroupPriorities := env.Marshal (first :: rest), Group := first.Group }, none)

/-- Modelled from the spec: the text of a codec error (`err.Error()`); the wording
is not given by the spec. -/
def TokenError.Error : TokenError → String
  | TokenError.MalformedPriorityList => "malformed priority list"
  | TokenError.InvalidPriorityList reason => "invalid priority list: " ++ reason

/-- An encoder for the examples, the inverse of `codecUnmarshal` on its table. -/
def codecMarshal (l : List GroupPriority) : String :=
  if l = [{ Group := "vip", Priority := 1 }, { Group := "basic", Priority := 2 },
          { Group := "standard", Priority := 3 }] then "[vip:1,basic:2,standard:3]"
  else if l = [{ Group := "vip", Priority := 1 }] then "[vip:1]"
  else if l = [] then "[]"
  else "?"

/-- A decoder for the examples, given by a table of stored strings. -/
def codecUnmarshal (s : String) : Option (List GroupPriority) :=
  if s = "[vip:1,basic:2,standard:3]" then
    some [{ Group := "vip", Priority := 1 }, { Group := "basic", Priority := 2 },
          { Group := "standard", Priority := 3 }]
  else if s = "[vip:1]" then some [{ Group := "vip", Priority := 1 }]
  else if s = "[]" then some []
  else none

/-- The example collaborators with an encoder and a decoder that agree on the
lists of the codec examples. -/
def codecEnv : Env := { demoEnv with Marshal := codecMarshal, Unmarshal := codecUnmarshal }

/-- The list of the spec's round-trip scenario: `standard` (3), `vip` (1) with
surrounding blanks, `basic` (2). -/
def scenarioList : List GroupPriority :=
  [{ Group := "standard", Priority := 3 }, { Group := " vip ", Priority := 1 },
   { Group := "basic", Priority := 2 }]

/-- A list of 33 distinct groups `g0` … `g32` with priorities 1 … 33, one more
than the bound of the examples. -/
def tooLongList : List GroupPriority :=
  (List.range 33).map fun i => { Group := "g" ++ toString i, Priority := (i : Int) + 1 }

/-! ## Token write path (`controller/token.go`) -/

/-- The request body `TokenRequest`: a token document with the structured priority
array next to it. -/
structure TokenRequest extends Token where
  GroupPrioritiesArray : List GroupPriority := []
deriving DecidableEq

/-- The JSON response envelope `gin.H` of the handlers: `success`, `message` and
the optional `data`. -/
structure Response where
  success : Bool
  message : String
  data : Option Token := none
deriving DecidableEq

/-- A call that reaches the token store: `Insert` or `Update` on a token. -/
inductive WriteEvent where
  | Insert (t : Token)
  | Update (t : Token)
deriving DecidableEq

/-- What a handler does: the response it sends and the store writes it issued, in
order. -/
structure Outcome where
  response : Response
  writes : List WriteEvent
deriving DecidableEq

/-- The collaborators of the write path, fixed for one request: `common.GenerateKey`,
`common.GetTimestamp`, `model.GetTokenByIds`, and the methods `Insert` and `Update`
of a token (an error is its text, `none` stands for `nil`). -/
structure TokenStore where
  GenerateKey : Except String String
  GetTimestamp : Int
  GetTokenByIds : Int → Int → Except String Token
  Insert : Token → Option String
  Update : Token → Option String

/-- Modelled from the spec: the status constants `common.TokenStatusEnabled`,
`…Disabled`, `…Expired` and `…Exhausted`, which are not part of the sources; the
spec lists the four states in this order. -/
def TokenStatusEnabled : Int := 1

/-- Modelled from the spec: the constant `common.TokenStatusDisabled`. -/
def TokenStatusDisabled : Int := 2

/-- Modelled from the spec: the constant `common.TokenStatusExpired`. -/
def TokenStatusExpired : Int := 3

/-- Modelled from the spec: the constant `common.TokenStatusExhausted`. -/
def TokenStatusExhausted : Int := 4

/-- The method `c.GetString` of a `gin.Context`. -/
def Context.GetString (c : Context) (key : String) : String :=
  match c key with
  | some (CtxValue.str s) => s
  | _ => ""

/-- The method `c.GetInt` of a `gin.Context`. -/
def Context.GetInt (c : Context) (key : String) : Int :=
  match c key with
  | some (CtxValue.int n) => n
  | _ => 0

/-- Go's `len` of a string: its number of bytes (in UTF-8). -/
def len (s : String) : Nat := s.utf8ByteSize

/-- A rejection: HTTP 200 with `success = false` and a message. -/
def reject (message : String) : Outcome :=
  { response := { success := false, message := message }, writes := [] }

/-- Modelled from the spec: `common.ApiError`, the response envelope with
`success = false` and the error's text as message. -/
def ApiError (err : String) : Response :=
  { success := false, message := err }

/-- The loop of `collectGroupsFromPriorities`, with the groups collected so far;
the map `seen` holds exactly the names already in `result`. -/
def collectLoop : List GroupPriority → List String → List String
  | [], result => result
  | priority :: rest, result =>
    let groupName := TrimSpace priority.Group
    if groupName = "" then collectLoop rest result
    else if groupName ∈ result then collectLoop rest result
    else collectLoop rest (result ++ [groupName])

/-- The function `collectGroupsFromPriorities`. -/
def collectGroupsFromPriorities (priorities : List GroupPriority) : List String :=
  collectLoop priorities []

/-- The function `getRequestUserGroup`. -/
def getRequestUserGroup (c : Context) : String :=
  if GetContextKeyString c ContextKeyUserGroup ≠ "" then
    GetContextKeyString c ContextKeyUserGroup
  else c.GetString ContextKeyUserGroup

/-- The loop of `ensureUserGroupsAccessible` over the groups; the result is the
text of the error, if any. -/
def ensureLoop (usableGroups : List String) : List String → Option String
  | [] => none
  | group :: rest =>
    if group = "" then ensureLoop usableGroups rest
    else if group ∉ usableGroups then some ("无权访问分组: " ++ group)
    else ensureLoop usableGroups rest

/-- The function `ensureUserGroupsAccessible`; the result is the text of the
error, if any. -/
def ensureUserGroupsAccessible (env : Env) (c : Context) (groups : List String) :
    Option String :=
  if groups.length = 0 then none
  else
    let userGroup := getRequestUserGroup c
    let usableGroups := env.GetUserUsableGroups userGroup
    ensureLoop usableGroups groups

/-- The end of `AddToken`: the call of `Insert` and the response after it. -/
def callInsert (st : TokenStore) (cleanToken : Token) : Outcome :=
  match st.Insert cleanToken with
  | some err => { response := ApiError err, writes := [WriteEvent.Insert cleanToken] }
  | none =>
    { response := { success := true, message := "" },
      writes := [WriteEvent.Insert cleanToken] }

/-- The part of `AddToken` after the name check: key generation, the clean token,
the group-priority handling and the insert. -/
def addTokenBody (env : Env) (st : TokenStore) (c : Context) (tokenReq : TokenRequest) :
    Outcome :=
  match st.GenerateKey with
  | Except.error _ => reject "生成令牌失败"
  | Except.ok key =>
    let trimmedGroup := TrimSpace tokenReq.Group
    let cleanToken : Token :=
      { UserId := c.GetInt "id"
        Name := tokenReq.Name
        Key := key
        CreatedTime := st.GetTimestamp
        AccessedTime := st.GetTimestamp
        ExpiredTime := tokenReq.ExpiredTime
        RemainQuota := tokenReq.RemainQuota
        UnlimitedQuota := tokenReq.UnlimitedQuota
        ModelLimitsEnabled := tokenReq.ModelLimitsEnabled
        ModelLimits := tokenReq.ModelLimits
        AllowIps := tokenReq.AllowIps
        Group := trimmedGroup
        AutoSmartGroup := tokenReq.AutoSmartGroup }
    if tokenReq.GroupPrioritiesArray.length > 0 then
      match ensureUserGroupsAccessible env c
          (collectGroupsFromPriorities tokenReq.GroupPrioritiesArray) with
      | some err => reject err
      | none =>
        match cleanToken.SetGroupPriorities env tokenReq.GroupPrioritiesArray with
        | (_, some err) => reject ("分组优先级设置失败: " ++ err.Error)
        | (cleanToken, none) => callInsert st cleanToken
    else if trimmedGroup ≠ "" then
      match ensureUserGroupsAccessible env c [trimmedGroup] with
      | some err => reject err
      | none => callInsert st cleanToken
    else callInsert st cleanToken

/-- The handler `AddToken`; `body` is the outcome of `c.ShouldBindJSON`. -/
def AddToken (env : Env) (st : TokenStore) (c : Context) (body : Except String TokenRequest) :
    Outcome :=
  match body with
  | Except.error err => { response := ApiError err, writes := [] }
  | Except.ok tokenReq =>
    if len tokenReq.Name > 30 then reject "令牌名称过长"
    else addTokenBody env st c tokenReq

/-- The enable-transition guards of `UpdateToken`: the message of the rejection,
if any, for the requested status, the stored token and the current time. -/
def enableGuards (now : Int) (status : Int) (cleanToken : Token) : Option String :=
  if status = TokenStatusEnabled then
    if cleanToken.Status = TokenStatusExpired ∧ cleanToken.ExpiredTime ≤ now ∧
        cleanToken.ExpiredTime ≠ -1 then
      some "令牌已过期，无法启用，请先修改令牌过期时间，或者设置为永不过期"
    else if cleanToken.Status = TokenStatusExhausted ∧ cleanToken.RemainQuota ≤ 0 ∧
        ¬ cleanToken.UnlimitedQuota then
      some "令牌可用额度已用尽，无法启用，请先修改令牌剩余额度，或者设置为无限额度"
    else none
  else none

/-- The end of `UpdateToken`: the call of `Update` and the response after it. -/
def callUpdate (st : TokenStore) (cleanToken : Token) : Outcome :=
  match st.Update cleanToken with
  | some err => { response := ApiError err, writes := [WriteEvent.Update cleanToken] }
  | none =>
    { response := { success := true, message := "", data := some cleanToken },
      writes := [WriteEvent.Update cleanToken] }

/-- The part of `UpdateToken` after the guards: the status-only update, or the
copy of the request's fields with the group-priority handling, and the update. -/
def updateTokenBody (env : Env) (st : TokenStore) (c : Context) (statusOnly : String)
    (tokenReq : TokenRequest) (cleanToken : Token) : Outcome :=
  if statusOnly ≠ "" then callUpdate st { cleanToken with Status := tokenReq.Status }
  else
    let cleanToken : Token :=
      { cleanToken with
        Name := tokenReq.Name
        ExpiredTime := tokenReq.ExpiredTime
        RemainQuota := tokenReq.RemainQuota
        UnlimitedQuota := tokenReq.UnlimitedQuota
        ModelLimitsEnabled := tokenReq.ModelLimitsEnabled
        ModelLimits := tokenReq.ModelLimits
        AllowIps := tokenReq.AllowIps
        Group := TrimSpace tokenReq.Group
        AutoSmartGroup := tokenReq.AutoSmartGroup }
    if tokenReq.GroupPrioritiesArray.length > 0 then
      match ensureUserGroupsAccessible env c
          (collectGroupsFromPriorities tokenReq.GroupPrioritiesArray) with
      | some err => reject err
      | none =>
        match cleanToken.SetGroupPriorities env tokenReq.GroupPrioritiesArray with
        | (_, some err) => reject ("分组优先级设置失败: " ++ err.Error)
        | (cleanToken, none) => callUpdate st cleanToken
    else if tokenReq.GroupPriorities = "" then
      let cleanToken : Token := { cleanToken with GroupPriorities := "" }
      if cleanToken.Group ≠ "" then
        match ensureUserGroupsAccessible env c [cleanToken.Group] with
        | some err => reject err
        | none => callUpdate st cleanToken
      else callUpdate st cleanToken
    else callUpdate st cleanToken

/-- The handler `UpdateToken`; `statusOnly` is the query parameter `status_only`
and `body` the outcome of `c.ShouldBindJSON`. -/
def UpdateToken (env : Env) (st : TokenStore) (c : Context) (statusOnly : String)
    (body : Except String TokenRequest) : Outcome :=
  let userId := c.GetInt "id"
  match body with
  | Except.error err => { response := ApiError err, writes := [] }
  | Except.ok tokenReq =>
    if len tokenReq.Name > 30 then reject "令牌名称过长"
    else
      match st.GetTokenByIds tokenReq.Id userId with
      | Except.error err => { response := ApiError err, writes := [] }
      | Except.ok cleanToken =>
        match enableGuards st.GetTimestamp tokenReq.Status cleanToken with
        | some message => reject message
        | none => updateTokenBody env st c statusOnly tokenReq cleanToken

/-- The token store of the examples: key generation succeeds, the time is 1000,
user 1 owns an expired token (7, expired at 500), an expired token that never
expires (8), an exhausted token without quota (9) and an enabled token (10);
`Insert` and `Update` succeed. -/
def demoTokenStore : TokenStore where
  GenerateKey := Except.ok "sk-demo"
  GetTimestamp := 1000
  GetTokenByIds := fun id userId =>
    if userId ≠ 1 then Except.error "record not found"
    else if id = 7 then
      Except.ok { Id := 7, UserId := 1, Name := "old", Status := TokenStatusExpired,
                  ExpiredTime := 500, Group := "vip" }
    else if id = 8 then
      Except.ok { Id := 8, UserId := 1, Name := "forever", Status := TokenStatusExpired,
                  ExpiredTime := -1, Group := "vip" }
    else if id = 9 then
      Except.ok { Id := 9, UserId := 1, Name := "spent", Status := TokenStatusExhausted,
                  ExpiredTime := -1, RemainQuota := 0, Group := "vip" }
    else if id = 10 then
      Except.ok { Id := 10, UserId := 1, Name := "live", Status := TokenStatusEnabled,
                  ExpiredTime := -1, RemainQuota := 50, Group := "vip" }
    else Except.error "record not found"
  Insert := fun _ => none
  Update := fun _ => none

/-- The request context of user 1, of group `default`, as the handlers see it. -/
def demoRequestCtx : Context := (demoCtx "default").Set "id" (CtxValue.int 1)

/-- The token name of the repository's own length test: 29 characters, 87 bytes. -/
def longChineseName : String :=
  "这是一个非常非常非常非常非常非常长的令牌名称超过三十个字符"

/-- The request of the repository's test of an unauthorized array: the group
`unknown-group` alone. -/
def unknownGroupRequest : TokenRequest :=
  { Name := "test-token", GroupPrioritiesArray := [{ Group := "unknown-group", Priority := 1 }] }

/-- The request of the repository's test of an unauthorized single group. -/
def legacyRequest : TokenRequest := { Name := "legacy-token", Group := "unknown-group" }

/-- A request whose array names `vip` (allowed), a blank entry, `ghost` with
surrounding blanks and `phantom` (both not allowed). -/
def ghostRequest : TokenRequest :=
  { Name := "test-token",
    GroupPrioritiesArray :=
      [{ Group := "vip", Priority := 1 }, { Group := "  ", Priority := 2 },
       { Group := " ghost ", Priority := 3 }, { Group := "phantom", Priority := 4 }] }

/-- The context keys written by a run, in order, read off its effects. -/
def ctxWrites (t : List Event) : List String :=
  t.filterMap fun e =>
    match e with
    | Event.ctxSet key _ => some key
    | _ => none

/-- Go's `strings.HasPrefix`: the message `s` begins with `pre`. -/
def beginsWith (s pre : String) : Prop := pre.data <+: s.data

instance (s pre : String) : Decidable (beginsWith s pre) :=
  inferInstanceAs (Decidable (pre.data <+: s.data))

/-- The request of the repository's validation test with priority 0, for the
group `vip`. -/
def zeroPriorityRequest : TokenRequest :=
  { Name := "test-token", GroupPrioritiesArray := [{ Group := "vip", Priority := 0 }] }

/-- A request whose array is invalid (priority 0) and names a group the user may
not use. -/
def zeroPriorityUnknownRequest : TokenRequest :=
  { Name := "test-token", GroupPrioritiesArray := [{ Group := "unknown-group", Priority := 0 }] }

/-- The groups a token names: its `group`, and the groups of its priority list as
`GetGroupPriorities` reads it (an unreadable list names none). -/
def Token.namedGroups (env : Env) (t : Token) : List String :=
  match t.GetGroupPriorities env with
  | Except.ok l => t.Group :: l.map GroupPriority.Group
  | Except.error _ => [t.Group]

/-- An update of token 10 that names the group `premium`, which a user of group
`default` may not use, and sends a non-empty `group_priorities` string without an
array. -/
def premiumRequest : TokenRequest :=
  { Id := 10, Name := "live", Group := "premium", GroupPriorities := "[]" }

/-- The same update with an empty `group_priorities` string (the clearing form). -/
def premiumClearRequest : TokenRequest := { Id := 10, Name := "live", Group := "premium" }

/-- Token 10 of the example store after the update `premiumRequest`. -/
def premiumWritten : Token :=
  { Id := 10, UserId := 1, Name := "live", Status := TokenStatusEnabled, Group := "premium" }

/-- The unauthorized-array request under the 87-byte name of the length test. -/
def longNameUnknownRequest : TokenRequest :=
  { Name := longChineseName,
    GroupPrioritiesArray := [{ Group := "unknown-group", Priority := 1 }] }

/-- The example token store with a failing key generation. -/
def noKeyTokenStore : TokenStore :=
  { demoTokenStore with GenerateKey := Except.error "no entropy" }

/-! ## Lemmas on the selector -/

theorem autoGroupLoop_err (env : Env) (c : Context) (m : String) (retry : Int) (l : List String) :
    (autoGroupLoop env c m retry l).err = none := by
  induction l with
  | nil => rfl
  | cons g rest ih =>
    simp only [autoGroupLoop]
    split
    · simpa [Result.after] using ih
    · rfl

theorem autoGroupLoop_ctx_of_none (env : Env) (c : Context) (m : String) (retry : Int)
    (l : List String) (h : (autoGroupLoop env c m retry l).channel = none) :
    (autoGroupLoop env c m retry l).ctx = c := by
  induction l with
  | nil => rfl
  | cons g rest ih =>
    cases hs : (env.randomChannelSelector g m retry).1 with
    | none =>
      simp only [autoGroupLoop, hs, Result.after] at h ⊢
      exact ih h
    | some ch => simp [autoGroupLoop, hs] at h

theorem CacheGet_auto_disabled (env : Env) (c : Context) (m : String) (retry : Int)
    (h : env.GetAutoGroups = []) :
    CacheGetRandomSatisfiedChannel env c "auto" m retry =
      { channel := none, group := "auto", err := some Error.autoGroupsNotEnabled, ctx := c,
        trace := [Event.getAutoGroups] } := by
  simp [CacheGetRandomSatisfiedChannel, h]

theorem CacheGet_auto (env : Env) (c : Context) (m : String) (retry : Int)
    (h : env.GetAutoGroups ≠ []) :
    CacheGetRandomSatisfiedChannel env c "auto" m retry =
      (autoGroupLoop env c m retry
          (env.GetUserAutoGroup (GetContextKeyString c ContextKeyUserGroup))).after
        [Event.getAutoGroups,
         Event.getUserAutoGroup (GetContextKeyString c ContextKeyUserGroup)] := by
  simp [CacheGetRandomSatisfiedChannel, h]

theorem CacheGet_plain (env : Env) (c : Context) (g m : String) (retry : Int)
    (h : g ≠ "auto") :
    CacheGetRandomSatisfiedChannel env c g m retry =
      { channel := if (env.randomChannelSelector g m retry).2 = none
                   then (env.randomChannelSelector g m retry).1 else none,
        group := g,
        err := (env.randomChannelSelector g m retry).2.map Error.store,
        ctx := c
        trace := [Event.storeQuery g m retry] } := by
  simp only [CacheGetRandomSatisfiedChannel, h, if_false]
  rcases hs : env.randomChannelSelector g m retry with ⟨ch, _ | e⟩ <;> simp

theorem CacheGet_ctx_of_not_succeeded (env : Env) (c : Context) (g m : String) (retry : Int)
    (h : ¬ (CacheGetRandomSatisfiedChannel env c g m retry).succeeded) :
    (CacheGetRandomSatisfiedChannel env c g m retry).ctx = c := by
  by_cases hg : g = "auto"
  · subst hg
    by_cases ha : env.GetAutoGroups = []
    · rw [CacheGet_auto_disabled env c m retry ha]
    · rw [CacheGet_auto env c m retry ha] at h ⊢
      simp only [Result.after]
      apply autoGroupLoop_ctx_of_none
      by_contra hc
      exact h ⟨by simp [Result.after, autoGroupLoop_err], by simpa [Result.after] using hc⟩
  · rw [CacheGet_plain env c g m retry hg]

theorem groupLoop_cons_ok (env : Env) (m : String) (retry : Int) (a : Bool) (c : Context)
    (g : String) (rest : List String)
    (h : (CacheGetRandomSatisfiedChannel env c g m retry).succeeded) :
    groupLoop env m retry a c (g :: rest) =
      LoopExit.returned (selected (CacheGetRandomSatisfiedChannel env c g m retry) a) := by
  obtain ⟨he, hc⟩ := h
  obtain ⟨ch, hch⟩ := Option.ne_none_iff_exists'.mp hc
  simp [groupLoop, he, hch, selected]

theorem groupLoop_cons_fail (env : Env) (m : String) (retry : Int) (a : Bool) (c : Context)
    (g : String) (rest : List String)
    (h : ¬ (CacheGetRandomSatisfiedChannel env c g m retry).succeeded) :
    groupLoop env m retry a c (g :: rest) =
      match groupLoop env m retry a c rest with
      | LoopExit.returned r2 =>
        LoopExit.returned (r2.after (CacheGetRandomSatisfiedChannel env c g m retry).trace)
      | LoopExit.exhausted c2 t2 =>
        LoopExit.exhausted c2 ((CacheGetRandomSatisfiedChannel env c g m retry).trace ++ t2) := by
  have hctx := CacheGet_ctx_of_not_succeeded env c g m retry h
  by_cases he : (CacheGetRandomSatisfiedChannel env c g m retry).err = none
  · have hc : (CacheGetRandomSatisfiedChannel env c g m retry).channel = none := by
      by_contra hc
      exact h ⟨he, hc⟩
    simp [groupLoop, he, hc, hctx]
  · simp [groupLoop, he, hctx]

theorem groupLoop_all_fail (env : Env) (m : String) (retry : Int) (a : Bool) (c : Context)
    (gs : List String)
    (h : ∀ g ∈ gs, ¬ (CacheGetRandomSatisfiedChannel env c g m retry).succeeded) :
    groupLoop env m retry a c gs = LoopExit.exhausted c (attemptsTrace env c m retry gs) := by
  induction gs with
  | nil => simp [groupLoop, attemptsTrace]
  | cons g rest ih =>
    rw [groupLoop_cons_fail env m retry a c g rest (h g (List.mem_cons_self g rest)),
      ih (fun q hq => h q (List.mem_cons_of_mem g hq))]
    simp [attemptsTrace]

theorem groupLoop_first_success (env : Env) (m : String) (retry : Int) (a : Bool) (c : Context)
    (pre : List String) (g : String) (post : List String)
    (hpre : ∀ q ∈ pre, ¬ (CacheGetRandomSatisfiedChannel env c q m retry).succeeded)
    (hg : (CacheGetRandomSatisfiedChannel env c g m retry).succeeded) :
    groupLoop env m retry a c (pre ++ g :: post) =
      LoopExit.returned
        ((selected (CacheGetRandomSatisfiedChannel env c g m retry) a).after
          (attemptsTrace env c m retry pre)) := by
  induction pre with
  | nil =>
    rw [List.nil_append, groupLoop_cons_ok env m retry a c g post hg]
    simp [attemptsTrace, Result.after]
  | cons q rest ih =>
    rw [List.cons_append, groupLoop_cons_fail env m retry a c q _ (hpre q
        (List.mem_cons_self q rest)),
      ih (fun x hx => hpre x (List.mem_cons_of_mem q hx))]
    simp [attemptsTrace, Result.after]

/-- Every list in which some element satisfies `P` splits at the first such element. -/
theorem exists_first_split {α : Type} (P : α → Prop) [DecidablePred P] (l : List α)
    (h : ∃ x ∈ l, P x) :
    ∃ pre x post, l = pre ++ x :: post ∧ (∀ y ∈ pre, ¬ P y) ∧ P x := by
  induction l with
  | nil => simp at h
  | cons a rest ih =>
    by_cases ha : P a
    · exact ⟨[], a, rest, rfl, by simp, ha⟩
    · have h2 : ∃ x ∈ rest, P x := by
        obtain ⟨x, hx, hp⟩ := h
        rcases List.mem_cons.mp hx with rfl | hx
        · exact absurd hp ha
        · exact ⟨x, hx, hp⟩
      obtain ⟨pre, x, post, hl, hpre, hx⟩ := ih h2
      refine ⟨a :: pre, x, post, by simp [hl], ?_, hx⟩
      intro y hy
      rcases List.mem_cons.mp hy with rfl | hy
      · exact ha
      · exact hpre y hy

theorem storeGroups_append (a b : List Event) :
    storeGroups (a ++ b) = storeGroups a ++ storeGroups b := by
  simp [storeGroups]

theorem storeGroups_setGroupSelectionContext (c : Context) (g : String) (a : Bool) :
    storeGroups (setGroupSelectionContext c g a).2 = [] := by
  unfold setGroupSelectionContext
  split
  · rfl
  · cases a <;> simp [storeGroups, SetContextKey]

theorem storeGroups_CacheGet_plain (env : Env) (c : Context) (g m : String) (retry : Int)
    (h : g ≠ "auto") :
    storeGroups (CacheGetRandomSatisfiedChannel env c g m retry).trace = [g] := by
  rw [CacheGet_plain env c g m retry h]
  simp [storeGroups]

theorem storeGroups_attemptsTrace_plain (env : Env) (c : Context) (m : String) (retry : Int)
    (gs : List String) (h : ∀ g ∈ gs, g ≠ "auto") :
    storeGroups (attemptsTrace env c m retry gs) = gs := by
  induction gs with
  | nil => simp [attemptsTrace, storeGroups]
  | cons g rest ih =>
    have h1 := storeGroups_CacheGet_plain env c g m retry (h g (List.mem_cons_self g rest))
    have h2 := ih (fun q hq => h q (List.mem_cons_of_mem g hq))
    simp only [attemptsTrace, List.flatMap_cons] at h2 ⊢
    rw [storeGroups_append, h1, h2]
    rfl

theorem setGroupSelectionContext_keys (c : Context) (g : String) (a : Bool) (h : g ≠ "") :
    (setGroupSelectionContext c g a).1 ContextKeySelectedGroup = some (CtxValue.str g) ∧
    (setGroupSelectionContext c g a).1 ContextKeyUsingGroup = some (CtxValue.str g) ∧
    (setGroupSelectionContext c g a).1 ContextKeyAutoSmartGroupUsed = some (CtxValue.bool a) ∧
    (setGroupSelectionContext c g a).2 =
      [Event.ctxSet ContextKeySelectedGroup (CtxValue.str g),
       Event.ctxSet ContextKeyUsingGroup (CtxValue.str g),
       Event.ctxSet ContextKeyAutoSmartGroupUsed (CtxValue.bool a)] := by
  have h1 : ContextKeySelectedGroup ≠ ContextKeyUsingGroup := by decide
  have h2 : ContextKeySelectedGroup ≠ ContextKeyAutoSmartGroupUsed := by decide
  have h3 : ContextKeyUsingGroup ≠ ContextKeyAutoSmartGroupUsed := by decide
  cases a <;> simp [setGroupSelectionContext, h, SetContextKey, Context.Set, h1, h2, h3]

theorem setGroupSelectionContext_empty (c : Context) (a : Bool) :
    setGroupSelectionContext c "" a = (c, []) := by
  simp [setGroupSelectionContext]

theorem autoGroupLoop_group_mem (env : Env) (c : Context) (m : String) (retry : Int)
    (l : List String) (h : (autoGroupLoop env c m retry l).channel ≠ none) :
    (autoGroupLoop env c m retry l).group ∈ l := by
  induction l with
  | nil => simp [autoGroupLoop] at h
  | cons g rest ih =>
    cases hs : (env.randomChannelSelector g m retry).1 with
    | none =>
      simp only [autoGroupLoop, hs, Result.after] at h ⊢
      exact List.mem_cons_of_mem g (ih h)
    | some ch => simp [autoGroupLoop, hs]

theorem CacheGet_group (env : Env) (c : Context) (g m : String) (retry : Int)
    (h : (CacheGetRandomSatisfiedChannel env c g m retry).succeeded) :
    (g ≠ "auto" → (CacheGetRandomSatisfiedChannel env c g m retry).group = g) ∧
    (g = "auto" → (CacheGetRandomSatisfiedChannel env c g m retry).group ∈
      env.GetUserAutoGroup (GetContextKeyString c ContextKeyUserGroup)) := by
  constructor
  · intro hg
    rw [CacheGet_plain env c g m retry hg]
  · intro hg
    subst hg
    by_cases ha : env.GetAutoGroups = []
    · rw [CacheGet_auto_disabled env c m retry ha] at h
      simp [Result.succeeded] at h
    · rw [CacheGet_auto env c m retry ha] at h ⊢
      simp only [Result.after]
      exact autoGroupLoop_group_mem env c m retry _
          (by simpa [Result.succeeded, Result.after] using h.2)

theorem SelectChannelWithPriority_walk (env : Env) (c : Context) (token : Token) (m : String)
    (retry : Int) (ps : List GroupPriority)
    (hps : token.GetGroupPriorities env = Except.ok ps) (hne : ps ≠ []) :
    SelectChannelWithPriority env c token m retry =
      match groupLoop env m retry false c (ps.map GroupPriority.Group) with
      | LoopExit.returned r => r
      | LoopExit.exhausted c2 t2 =>
        if token.AutoSmartGroup then
          (selectChannelByRatio env c2 m retry ps).after t2
        else
          { channel := none, group := "", err := some Error.ErrAllGroupsFailed, ctx := c2,
            trace := t2 } := by
  unfold SelectChannelWithPriority
  rw [hps]
  simp [hne]

theorem CacheGet_plain_store (env : Env) (c : Context) (g m : String) (retry : Int)
    (hg : g ≠ "auto") (h : (CacheGetRandomSatisfiedChannel env c g m retry).succeeded) :
    env.randomChannelSelector g m retry =
      ((CacheGetRandomSatisfiedChannel env c g m retry).channel, none) := by
  rw [CacheGet_plain env c g m retry hg] at h ⊢
  obtain ⟨he, _⟩ := h
  simp only [Option.map_eq_none'] at he
  simp only [he, if_true]
  rw [← he]

theorem autoGroupLoop_trace_mem (env : Env) (c : Context) (m : String) (retry : Int)
    (l : List String) (e : Event) (h : e ∈ (autoGroupLoop env c m retry l).trace) :
    (∃ g ∈ l, e = Event.storeQuery g m retry) ∨
      (∃ g ∈ l, e = Event.ctxSet "auto_group" (CtxValue.str g)) := by
  induction l with
  | nil => simp [autoGroupLoop] at h
  | cons g rest ih =>
    cases hs : (env.randomChannelSelector g m retry).1 with
    | none =>
      simp only [autoGroupLoop, hs, Result.after, List.singleton_append, List.mem_cons] at h
      rcases h with rfl | h
      · exact Or.inl ⟨g, List.mem_cons_self g rest, rfl⟩
      · rcases ih h with ⟨x, hx, rfl⟩ | ⟨x, hx, rfl⟩
        · exact Or.inl ⟨x, List.mem_cons_of_mem g hx, rfl⟩
        · exact Or.inr ⟨x, List.mem_cons_of_mem g hx, rfl⟩
    | some ch =>
      simp only [autoGroupLoop, hs, List.mem_cons, List.mem_singleton, List.not_mem_nil,
        or_false] at h
      rcases h with rfl | rfl
      · exact Or.inl ⟨g, List.mem_cons_self g rest, rfl⟩
      · exact Or.inr ⟨g, List.mem_cons_self g rest, rfl⟩

/-- An attempt on one group reads neither the usable groups nor the ratio table. -/
theorem CacheGet_trace_no_fallback_read (env : Env) (c : Context) (g m : String) (retry : Int)
    (e : Event) (h : e ∈ (CacheGetRandomSatisfiedChannel env c g m retry).trace) :
    e ≠ Event.getGroupRatioCopy ∧ ∀ ug, e ≠ Event.getUserUsableGroups ug := by
  by_cases hg : g = "auto"
  · subst hg
    by_cases ha : env.GetAutoGroups = []
    · rw [CacheGet_auto_disabled env c m retry ha] at h
      simp only [List.mem_singleton] at h
      subst h
      exact ⟨by simp, by simp⟩
    · rw [CacheGet_auto env c m retry ha] at h
      simp only [Result.after, List.cons_append, List.nil_append, List.mem_cons] at h
      rcases h with rfl | rfl | h
      · exact ⟨by simp, by simp⟩
      · exact ⟨by simp, by simp⟩
      · rcases autoGroupLoop_trace_mem env c m retry _ e h with ⟨x, _, rfl⟩ | ⟨x, _, rfl⟩
        · exact ⟨by simp, by simp⟩
        · exact ⟨by simp, by simp⟩
  · rw [CacheGet_plain env c g m retry hg] at h
    simp only [List.mem_singleton] at h
    subst h
    exact ⟨by simp, by simp⟩

theorem attemptsTrace_no_fallback_read (env : Env) (c : Context) (m : String) (retry : Int)
    (gs : List String) (e : Event) (h : e ∈ attemptsTrace env c m retry gs) :
    e ≠ Event.getGroupRatioCopy ∧ ∀ ug, e ≠ Event.getUserUsableGroups ug := by
  simp only [attemptsTrace, List.mem_flatMap] at h
  obtain ⟨g, _, hg⟩ := h
  exact CacheGet_trace_no_fallback_read env c g m retry e hg

theorem groupLoop_returned_succeeded (env : Env) (m : String) (retry : Int) (a : Bool)
    (gs : List String) (c : Context) (r : Result)
    (h : groupLoop env m retry a c gs = LoopExit.returned r) : r.succeeded := by
  induction gs generalizing r with
  | nil => simp [groupLoop] at h
  | cons g rest ih =>
    by_cases hg : (CacheGetRandomSatisfiedChannel env c g m retry).succeeded
    · rw [groupLoop_cons_ok env m retry a c g rest hg] at h
      injection h with h
      subst h
      exact ⟨rfl, hg.2⟩
    · rw [groupLoop_cons_fail env m retry a c g rest hg] at h
      cases hr : groupLoop env m retry a c rest with
      | returned r2 =>
        rw [hr] at h
        injection h with h
        subst h
        exact ih r2 hr
      | exhausted c2 t2 =>
        rw [hr] at h
        exact absurd h (by simp)

theorem selectChannelByRatio_channel_of_no_error (env : Env) (c : Context) (m : String)
    (retry : Int) (ps : List GroupPriority)
    (h : (selectChannelByRatio env c m retry ps).err = none) :
    (selectChannelByRatio env c m retry ps).channel ≠ none := by
  unfold selectChannelByRatio at h ⊢
  simp only at h ⊢
  split
  · rename_i h0
    simp [h0] at h
  · rename_i h0
    simp only [h0, if_false] at h
    cases hr : groupLoop env m retry true c
        ((sortedCandidates env (GetContextKeyString c ContextKeyUserGroup) ps).map
          groupWithRatio.group) with
    | returned r =>
      simp only [hr, Result.after] at h ⊢
      exact (groupLoop_returned_succeeded env m retry true _ c r hr).2
    | exhausted c2 t2 =>
      simp [hr] at h

theorem selectChannelFromSingleGroup_outcome (env : Env) (c : Context) (g m : String)
    (retry : Int) :
    (selectChannelFromSingleGroup env c g m retry).channel =
      (CacheGetRandomSatisfiedChannel env c g m retry).channel ∧
    (selectChannelFromSingleGroup env c g m retry).group =
      (CacheGetRandomSatisfiedChannel env c g m retry).group ∧
    (selectChannelFromSingleGroup env c g m retry).err =
      (CacheGetRandomSatisfiedChannel env c g m retry).err ∧
    storeGroups (selectChannelFromSingleGroup env c g m retry).trace =
      storeGroups (CacheGetRandomSatisfiedChannel env c g m retry).trace := by
  unfold selectChannelFromSingleGroup
  simp only
  split
  · refine ⟨rfl, rfl, rfl, ?_⟩
    simp only
    rw [storeGroups_append, storeGroups_setGroupSelectionContext, List.append_nil]
  · exact ⟨rfl, rfl, rfl, rfl⟩

theorem selectChannelFromSingleGroup_ctx (env : Env) (c : Context) (g m : String)
    (retry : Int) (h : (CacheGetRandomSatisfiedChannel env c g m retry).succeeded) :
    (selectChannelFromSingleGroup env c g m retry).ctx =
      (setGroupSelectionContext (CacheGetRandomSatisfiedChannel env c g m retry).ctx
        (CacheGetRandomSatisfiedChannel env c g m retry).group false).1 := by
  unfold selectChannelFromSingleGroup
  simp only
  rw [if_pos (show _ ∧ _ from h)]

theorem autoGroupLoop_first (env : Env) (c : Context) (m : String) (retry : Int)
    (pre : List String) (g : String) (post : List String) (ch : Channel)
    (hpre : ∀ x ∈ pre, (env.randomChannelSelector x m retry).1 = none)
    (hg : (env.randomChannelSelector g m retry).1 = some ch) :
    autoGroupLoop env c m retry (pre ++ g :: post) =
      { channel := some ch, group := g, err := none,
        ctx := c.Set "auto_group" (CtxValue.str g),
        trace := (pre ++ [g]).map (fun x => Event.storeQuery x m retry) ++
          [Event.ctxSet "auto_group" (CtxValue.str g)] } := by
  induction pre with
  | nil => simp [autoGroupLoop, hg]
  | cons x rest ih =>
    have hx := hpre x (List.mem_cons_self x rest)
    have ih2 := ih (fun y hy => hpre y (List.mem_cons_of_mem x hy))
    rw [List.cons_append, autoGroupLoop]
    simp only [hx]
    rw [ih2]
    simp [Result.after]

theorem storeGroups_map_storeQuery (l : List String) (m : String) (retry : Int) :
    storeGroups (l.map (fun x => Event.storeQuery x m retry)) = l := by
  induction l with
  | nil => rfl
  | cons x rest ih =>
    simp only [storeGroups, List.map_cons, List.filterMap_cons] at ih ⊢
    rw [ih]

/-- The `auto` attempt when some group of the expansion has a channel: it stops at
the first such group. -/
theorem auto_first_of_exists
    (env : Env) (c : Context) (m : String) (retry : Int)
    (hcfg : env.GetAutoGroups ≠ [])
    (hex : ∃ g ∈ env.GetUserAutoGroup (GetContextKeyString c ContextKeyUserGroup),
      (env.randomChannelSelector g m retry).1 ≠ none) :
    ∃ pre g post ch,
      env.GetUserAutoGroup (GetContextKeyString c ContextKeyUserGroup) = pre ++ g :: post ∧
      (∀ x ∈ pre, (env.randomChannelSelector x m retry).1 = none) ∧
      (env.randomChannelSelector g m retry).1 = some ch ∧
      (CacheGetRandomSatisfiedChannel env c "auto" m retry).channel = some ch ∧
      (CacheGetRandomSatisfiedChannel env c "auto" m retry).group = g ∧
      (CacheGetRandomSatisfiedChannel env c "auto" m retry).err = none ∧
      (CacheGetRandomSatisfiedChannel env c "auto" m retry).ctx =
        c.Set "auto_group" (CtxValue.str g) ∧
      (CacheGetRandomSatisfiedChannel env c "auto" m retry).ctx "auto_group" =
        some (CtxValue.str g) ∧
      storeGroups (CacheGetRandomSatisfiedChannel env c "auto" m retry).trace = pre ++ [g] ∧
      (CacheGetRandomSatisfiedChannel env c "auto" m retry).trace =
        [Event.getAutoGroups,
         Event.getUserAutoGroup (GetContextKeyString c ContextKeyUserGroup)] ++
        (pre ++ [g]).map (fun x => Event.storeQuery x m retry) ++
        [Event.ctxSet "auto_group" (CtxValue.str g)] := by
  obtain ⟨pre, g, post, hsplit, hpre, hg⟩ :=
    exists_first_split (fun x => (env.randomChannelSelector x m retry).1 ≠ none) _ hex
  obtain ⟨ch, hch⟩ := Option.ne_none_iff_exists'.mp hg
  have hpre2 : ∀ x ∈ pre, (env.randomChannelSelector x m retry).1 = none := by
    intro x hx
    simpa using hpre x hx
  have hrun := CacheGet_auto env c m retry hcfg
  rw [hsplit, autoGroupLoop_first env c m retry pre g post ch hpre2 hch] at hrun
  have htrace : (CacheGetRandomSatisfiedChannel env c "auto" m retry).trace =
      [Event.getAutoGroups,
       Event.getUserAutoGroup (GetContextKeyString c ContextKeyUserGroup)] ++
      (pre ++ [g]).map (fun x => Event.storeQuery x m retry) ++
      [Event.ctxSet "auto_group" (CtxValue.str g)] := by
    rw [hrun]
    simp [Result.after]
  refine ⟨pre, g, post, ch, hsplit, hpre2, hch, ?_, ?_, ?_, ?_, ?_, ?_, htrace⟩
  · rw [hrun]; rfl
  · rw [hrun]; rfl
  · rw [hrun]; rfl
  · rw [hrun]; rfl
  · rw [hrun]; simp [Result.after, Context.Set]
  · rw [htrace, storeGroups_append, storeGroups_append, storeGroups_map_storeQuery]
    simp [storeGroups]

theorem CacheGet_ctx_other_key (env : Env) (c : Context) (g m : String) (retry : Int)
    (k : String) (hk : k ≠ "auto_group") :
    (CacheGetRandomSatisfiedChannel env c g m retry).ctx k = c k := by
  by_cases hs : (CacheGetRandomSatisfiedChannel env c g m retry).succeeded
  · by_cases hg : g = "auto"
    · subst hg
      by_cases ha : env.GetAutoGroups = []
      · rw [CacheGet_auto_disabled env c m retry ha]
      · have hex : ∃ x ∈ env.GetUserAutoGroup (GetContextKeyString c ContextKeyUserGroup),
            (env.randomChannelSelector x m retry).1 ≠ none := by
          rw [CacheGet_auto env c m retry ha] at hs
          have hch : (autoGroupLoop env c m retry
              (env.GetUserAutoGroup (GetContextKeyString c ContextKeyUserGroup))).channel ≠
                none := by
            simpa [Result.succeeded, Result.after] using hs.2
          by_contra hno
          have hall : ∀ x ∈ env.GetUserAutoGroup (GetContextKeyString c ContextKeyUserGroup),
              (env.randomChannelSelector x m retry).1 = none := by
            intro x hx
            by_contra hx2
            exact hno ⟨x, hx, hx2⟩
          apply hch
          generalize env.GetUserAutoGroup (GetContextKeyString c ContextKeyUserGroup) = l at hall
          induction l with
          | nil => rfl
          | cons y rest ih =>
            rw [autoGroupLoop]
            simp only [hall y (List.mem_cons_self y rest), Result.after]
            exact ih (fun x hx => hall x (List.mem_cons_of_mem y hx))
        obtain ⟨pre, x, post, ch, _, _, _, _, _, _, hctx, _⟩ :=
          auto_first_of_exists env c m retry ha hex
        rw [hctx]
        simp [Context.Set, hk]
    · rw [CacheGet_plain env c g m retry hg]
  · rw [CacheGet_ctx_of_not_succeeded env c g m retry hs]

/-- How a group loop ends: at the first group whose attempt succeeds, or, when no
attempt succeeds, by running out of groups with the context untouched. -/
theorem groupLoop_cases (env : Env) (m : String) (retry : Int) (a : Bool) (c : Context)
    (gs : List String) :
    (∃ pre g post, gs = pre ++ g :: post ∧
      (∀ q ∈ pre, ¬ (CacheGetRandomSatisfiedChannel env c q m retry).succeeded) ∧
      (CacheGetRandomSatisfiedChannel env c g m retry).succeeded ∧
      groupLoop env m retry a c gs =
        LoopExit.returned
          ((selected (CacheGetRandomSatisfiedChannel env c g m retry) a).after
            (attemptsTrace env c m retry pre))) ∨
    ((∀ g ∈ gs, ¬ (CacheGetRandomSatisfiedChannel env c g m retry).succeeded) ∧
      groupLoop env m retry a c gs = LoopExit.exhausted c (attemptsTrace env c m retry gs)) := by
  by_cases hex : ∃ g ∈ gs, (CacheGetRandomSatisfiedChannel env c g m retry).succeeded
  · left
    obtain ⟨pre, g, post, hsplit, hpre, hg⟩ :=
      exists_first_split (fun g => (CacheGetRandomSatisfiedChannel env c g m retry).succeeded)
        gs hex
    refine ⟨pre, g, post, hsplit, hpre, hg, ?_⟩
    rw [hsplit]
    exact groupLoop_first_success env m retry a c pre g post hpre hg
  · right
    have hall : ∀ g ∈ gs, ¬ (CacheGetRandomSatisfiedChannel env c g m retry).succeeded := by
      intro g hg hs
      exact hex ⟨g, hg, hs⟩
    exact ⟨hall, groupLoop_all_fail env m retry a c gs hall⟩

theorem collectCandidates_mem (env : Env) (ps : List GroupPriority) (l : List String)
    (x : groupWithRatio) :
    x ∈ collectCandidates env ps l ↔
      x.group ∈ l ∧ x.group ∉ ps.map GroupPriority.Group ∧
        env.GetGroupRatioCopy x.group = some x.ratio := by
  induction l with
  | nil => simp [collectCandidates]
  | cons g rest ih =>
    rw [collectCandidates]
    by_cases hg : g ∈ ps.map GroupPriority.Group
    · rw [if_pos hg, ih]
      constructor
      · rintro ⟨h1, h2, h3⟩
        exact ⟨List.mem_cons_of_mem g h1, h2, h3⟩
      · rintro ⟨h1, h2, h3⟩
        rcases List.mem_cons.mp h1 with h | h
        · exact absurd (h ▸ hg) h2
        · exact ⟨h, h2, h3⟩
    · rw [if_neg hg]
      cases hr : env.GetGroupRatioCopy g with
      | none =>
        simp only
        rw [ih]
        constructor
        · rintro ⟨h1, h2, h3⟩
          exact ⟨List.mem_cons_of_mem g h1, h2, h3⟩
        · rintro ⟨h1, h2, h3⟩
          rcases List.mem_cons.mp h1 with h | h
          · rw [h, hr] at h3
            exact absurd h3 (by simp)
          · exact ⟨h, h2, h3⟩
      | some ratio =>
        simp only [List.mem_cons]
        rw [ih]
        constructor
        · rintro (h | ⟨h1, h2, h3⟩)
          · subst h
            exact ⟨Or.inl rfl, hg, hr⟩
          · exact ⟨Or.inr h1, h2, h3⟩
        · rintro ⟨h1 | h1, h2, h3⟩
          · left
            have : x.ratio = ratio := by
              rw [h1, hr] at h3
              exact (Option.some.inj h3).symm
            cases x
            simp_all
          · exact Or.inr ⟨h1, h2, h3⟩

theorem sortedCandidates_mem (env : Env) (ug : String) (ps : List GroupPriority)
    (x : groupWithRatio) :
    x ∈ sortedCandidates env ug ps ↔
      x.group ∈ env.GetUserUsableGroups ug ∧ x.group ∉ ps.map GroupPriority.Group ∧
        env.GetGroupRatioCopy x.group = some x.ratio := by
  unfold sortedCandidates
  rw [(List.perm_insertionSort ratioLE _).mem_iff]
  exact collectCandidates_mem env ps _ x

theorem sortedCandidates_sorted (env : Env) (ug : String) (ps : List GroupPriority) :
    List.Pairwise ratioLE (sortedCandidates env ug ps) :=
  List.sorted_insertionSort ratioLE _

theorem selectChannelByRatio_eq (env : Env) (c : Context) (m : String) (retry : Int)
    (ps : List GroupPriority) :
    selectChannelByRatio env c m retry ps =
      if sortedCandidates env (GetContextKeyString c ContextKeyUserGroup) ps = [] then
        { channel := none, group := "", err := some Error.ErrNoAvailableGroup, ctx := c,
          trace := [Event.getUserUsableGroups (GetContextKeyString c ContextKeyUserGroup),
                    Event.getGroupRatioCopy] }
      else
        match groupLoop env m retry true c
          ((sortedCandidates env (GetContextKeyString c ContextKeyUserGroup) ps).map
            groupWithRatio.group) with
        | LoopExit.returned r =>
          r.after [Event.getUserUsableGroups (GetContextKeyString c ContextKeyUserGroup),
                   Event.getGroupRatioCopy]
        | LoopExit.exhausted c2 t2 =>
          { channel := none, group := "", err := some Error.ErrAllGroupsFailed, ctx := c2,
            trace := [Event.getUserUsableGroups (GetContextKeyString c ContextKeyUserGroup),
                      Event.getGroupRatioCopy] ++ t2 } := by
  unfold selectChannelByRatio
  simp only [List.length_eq_zero]

theorem mem_storeGroups (t : List Event) (g : String) :
    g ∈ storeGroups t ↔ ∃ m retry, Event.storeQuery g m retry ∈ t := by
  unfold storeGroups
  rw [List.mem_filterMap]
  constructor
  · rintro ⟨e, he, hg⟩
    cases e <;> simp at hg
    subst hg
    exact ⟨_, _, he⟩
  · rintro ⟨m, retry, h⟩
    exact ⟨_, h, rfl⟩

theorem storeGroups_CacheGet_mem (env : Env) (c : Context) (g m : String) (retry : Int)
    (x : String) (h : x ∈ storeGroups (CacheGetRandomSatisfiedChannel env c g m retry).trace) :
    (g ≠ "auto" ∧ x = g) ∨
      (g = "auto" ∧ x ∈ env.GetUserAutoGroup (GetContextKeyString c ContextKeyUserGroup)) := by
  by_cases hg : g = "auto"
  · right
    refine ⟨hg, ?_⟩
    subst hg
    by_cases ha : env.GetAutoGroups = []
    · rw [CacheGet_auto_disabled env c m retry ha] at h
      simp [storeGroups] at h
    · rw [CacheGet_auto env c m retry ha, mem_storeGroups] at h
      obtain ⟨m2, r2, h⟩ := h
      simp only [Result.after, List.cons_append, List.nil_append, List.mem_cons] at h
      rcases h with h | h | h
      · exact absurd h (by simp)
      · exact absurd h (by simp)
      · rcases autoGroupLoop_trace_mem env c m retry _ _ h with ⟨y, hy, he⟩ | ⟨y, _, he⟩
        · injection he with h1
          rw [h1]
          exact hy
        · exact absurd he (by simp)
  · left
    rw [storeGroups_CacheGet_plain env c g m retry hg] at h
    exact ⟨hg, List.mem_singleton.mp h⟩

theorem storeGroups_attemptsTrace_mem (env : Env) (c : Context) (m : String) (retry : Int)
    (gs : List String) (x : String) (h : x ∈ storeGroups (attemptsTrace env c m retry gs)) :
    ∃ g ∈ gs, x ∈ storeGroups (CacheGetRandomSatisfiedChannel env c g m retry).trace := by
  rw [mem_storeGroups] at h
  obtain ⟨m2, r2, h⟩ := h
  simp only [attemptsTrace, List.mem_flatMap] at h
  obtain ⟨g, hg, he⟩ := h
  exact ⟨g, hg, (mem_storeGroups _ x).mpr ⟨m2, r2, he⟩⟩

theorem isCandidate_of_mem (env : Env) (ug : String) (ps : List GroupPriority) (g : String)
    (h : g ∈ (sortedCandidates env ug ps).map groupWithRatio.group) :
    isCandidate env ug ps g := by
  obtain ⟨x, hx, rfl⟩ := List.mem_map.mp h
  obtain ⟨h1, h2, h3⟩ := (sortedCandidates_mem env ug ps x).mp hx
  exact ⟨h1, h2, by rw [h3]; simp⟩

theorem autoGroupLoop_none (env : Env) (c : Context) (m : String) (retry : Int)
    (l : List String) (h : ∀ x ∈ l, (env.randomChannelSelector x m retry).1 = none) :
    autoGroupLoop env c m retry l =
      { channel := none, group := "auto", err := none, ctx := c,
        trace := l.map (fun x => Event.storeQuery x m retry) } := by
  induction l with
  | nil => rfl
  | cons x rest ih =>
    rw [autoGroupLoop]
    simp only [h x (List.mem_cons_self x rest)]
    rw [ih (fun y hy => h y (List.mem_cons_of_mem x hy))]
    simp [Result.after]

theorem SelectChannelWithPriority_of_malformed (env : Env) (c : Context) (token : Token)
    (m : String) (retry : Int) (e : TokenError)
    (hps : token.GetGroupPriorities env = Except.error e) :
    SelectChannelWithPriority env c token m retry =
      selectChannelFromSingleGroup env c
        (firstNonEmpty [GetContextKeyString c ContextKeyUsingGroup, token.Group]) m retry := by
  unfold SelectChannelWithPriority
  rw [hps]
  simp only [firstNonEmpty]
  by_cases h1 : GetContextKeyString c ContextKeyUsingGroup = ""
  · by_cases h2 : token.Group = "" <;> simp [h1, h2]
  · simp [h1]

theorem SelectChannelWithPriority_of_empty (env : Env) (c : Context) (token : Token)
    (m : String) (retry : Int) (hps : token.GetGroupPriorities env = Except.ok []) :
    SelectChannelWithPriority env c token m retry =
      selectChannelFromSingleGroup env c
        (firstNonEmpty [GetContextKeyString c ContextKeyUsingGroup, token.Group,
          GetContextKeyString c ContextKeyUserGroup]) m retry := by
  unfold SelectChannelWithPriority
  rw [hps]
  simp only [List.length_nil, if_true, firstNonEmpty]
  by_cases h1 : GetContextKeyString c ContextKeyUsingGroup = ""
  · by_cases h2 : token.Group = ""
    · by_cases h3 : GetContextKeyString c ContextKeyUserGroup = "" <;> simp [h1, h2, h3]
    · simp [h1, h2]
  · simp [h1]

/-! ## C1: the walk returns at the first entry with a channel -/

/-- The walk when some entry's attempt succeeds: it returns at the first such
entry, after the failed attempts on the entries before it. -/
theorem first_success_of_exists
    (env : Env) (c : Context) (token : Token) (m : String) (retry : Int)
    (ps : List GroupPriority)
    (hps : token.GetGroupPriorities env = Except.ok ps)
    (hex : ∃ p ∈ ps, (CacheGetRandomSatisfiedChannel env c p.Group m retry).succeeded) :
    ∃ pre p post, ps = pre ++ p :: post ∧
      (∀ q ∈ pre, ¬ (CacheGetRandomSatisfiedChannel env c q.Group m retry).succeeded) ∧
      (CacheGetRandomSatisfiedChannel env c p.Group m retry).succeeded ∧
      (SelectChannelWithPriority env c token m retry).channel =
        (CacheGetRandomSatisfiedChannel env c p.Group m retry).channel ∧
      (SelectChannelWithPriority env c token m retry).channel ≠ none ∧
      (SelectChannelWithPriority env c token m retry).err = none ∧
      (SelectChannelWithPriority env c token m retry).group =
        (CacheGetRandomSatisfiedChannel env c p.Group m retry).group ∧
      (p.Group ≠ "auto" → (SelectChannelWithPriority env c token m retry).group = p.Group) ∧
      (p.Group ≠ "auto" → env.randomChannelSelector p.Group m retry =
        ((SelectChannelWithPriority env c token m retry).channel, none)) ∧
      (p.Group = "auto" → (SelectChannelWithPriority env c token m retry).group ∈
        env.GetUserAutoGroup (GetContextKeyString c ContextKeyUserGroup)) ∧
      (SelectChannelWithPriority env c token m retry).trace =
        attemptsTrace env c m retry ((pre ++ [p]).map GroupPriority.Group) ++
          (setGroupSelectionContext (CacheGetRandomSatisfiedChannel env c p.Group m retry).ctx
            (CacheGetRandomSatisfiedChannel env c p.Group m retry).group false).2 ∧
      ((∀ q ∈ pre ++ [p], q.Group ≠ "auto") →
        storeGroups (SelectChannelWithPriority env c token m retry).trace =
          (pre ++ [p]).map GroupPriority.Group) := by
  obtain ⟨pre, p, post, hsplit, hpre, hp⟩ :=
    exists_first_split (fun q : GroupPriority =>
      (CacheGetRandomSatisfiedChannel env c q.Group m retry).succeeded) ps hex
  have hne : ps ≠ [] := by rw [hsplit]; simp
  have hloop := groupLoop_first_success env m retry false c (pre.map GroupPriority.Group)
    p.Group (post.map GroupPriority.Group)
    (by
      intro q hq
      obtain ⟨x, hx, rfl⟩ := List.mem_map.mp hq
      exact hpre x hx) hp
  have hsel := SelectChannelWithPriority_walk env c token m retry ps hps hne
  have hmap : ps.map GroupPriority.Group =
      pre.map GroupPriority.Group ++ p.Group :: post.map GroupPriority.Group := by
    rw [hsplit]; simp
  rw [hmap, hloop] at hsel
  have hgrp := CacheGet_group env c p.Group m retry hp
  have htrace : (SelectChannelWithPriority env c token m retry).trace =
      attemptsTrace env c m retry ((pre ++ [p]).map GroupPriority.Group) ++
        (setGroupSelectionContext (CacheGetRandomSatisfiedChannel env c p.Group m retry).ctx
          (CacheGetRandomSatisfiedChannel env c p.Group m retry).group false).2 := by
    rw [hsel]
    simp [Result.after, selected, attemptsTrace]
  have hchan : (SelectChannelWithPriority env c token m retry).channel =
      (CacheGetRandomSatisfiedChannel env c p.Group m retry).channel := by rw [hsel]; rfl
  refine ⟨pre, p, post, hsplit, hpre, hp, hchan, ?_, ?_, ?_, ?_, ?_, ?_, htrace, ?_⟩
  · rw [hchan]; exact hp.2
  · rw [hsel]; rfl
  · rw [hsel]; rfl
  · intro h; rw [hsel]; exact hgrp.1 h
  · intro h; rw [hchan]; exact CacheGet_plain_store env c p.Group m retry h hp
  · intro h; rw [hsel]; exact hgrp.2 h
  · intro h
    rw [htrace, storeGroups_append, storeGroups_setGroupSelectionContext, List.append_nil]
    apply storeGroups_attemptsTrace_plain
    intro g hg
    obtain ⟨x, hx, rfl⟩ := List.mem_map.mp hg
    exact h x hx

/-- C1 (amended).  For every token whose parsed priority list is non-empty,
`SelectChannelWithPriority` attempts the entries strictly in list order.  Either
some entry's attempt yields a channel: then the list splits as `pre ++ p :: post`
where every entry of `pre` was attempted and failed and `p` is the first entry
whose attempt yields a channel; that channel is returned without error; for an
entry other than `auto` it is the channel the store gave for `p.Group` and the
returned group is `p.Group`, for an `auto` entry the returned group is a group of
the user's auto expansion; the effects are exactly the attempts on `pre ++ [p]`,
in list order, followed by the context writes, so no entry of `post` is attempted
(when no entry up to `p` is `auto`, the store is queried once per entry, for
`pre ++ [p]` in this order).  Or every attempt fails: then the effects start with
the attempts on all the entries in list order, followed by those of the ratio
fallback when `auto_smart_group` is set. -/
theorem SelectChannelWithPriority_first_success
    (env : Env) (c : Context) (token : Token) (m : String) (retry : Int)
    (ps : List GroupPriority)
    (hps : token.GetGroupPriorities env = Except.ok ps) (hne : ps ≠ []) :
    (∃ pre p post, ps = pre ++ p :: post ∧
      (∀ q ∈ pre, ¬ (CacheGetRandomSatisfiedChannel env c q.Group m retry).succeeded) ∧
      (CacheGetRandomSatisfiedChannel env c p.Group m retry).succeeded ∧
      (SelectChannelWithPriority env c token m retry).channel =
        (CacheGetRandomSatisfiedChannel env c p.Group m retry).channel ∧
      (SelectChannelWithPriority env c token m retry).channel ≠ none ∧
      (SelectChannelWithPriority env c token m retry).err = none ∧
      (SelectChannelWithPriority env c token m retry).group =
        (CacheGetRandomSatisfiedChannel env c p.Group m retry).group ∧
      (p.Group ≠ "auto" → (SelectChannelWithPriority env c token m retry).group = p.Group) ∧
      (p.Group ≠ "auto" → env.randomChannelSelector p.Group m retry =
        ((SelectChannelWithPriority env c token m retry).channel, none)) ∧
      (p.Group = "auto" → (SelectChannelWithPriority env c token m retry).group ∈
        env.GetUserAutoGroup (GetContextKeyString c ContextKeyUserGroup)) ∧
      (SelectChannelWithPriority env c token m retry).trace =
        attemptsTrace env c m retry ((pre ++ [p]).map GroupPriority.Group) ++
          (setGroupSelectionContext (CacheGetRandomSatisfiedChannel env c p.Group m retry).ctx
            (CacheGetRandomSatisfiedChannel env c p.Group m retry).group false).2 ∧
      ((∀ q ∈ pre ++ [p], q.Group ≠ "auto") →
        storeGroups (SelectChannelWithPriority env c token m retry).trace =
          (pre ++ [p]).map GroupPriority.Group)) ∨
    ((∀ p ∈ ps, ¬ (CacheGetRandomSatisfiedChannel env c p.Group m retry).succeeded) ∧
      (SelectChannelWithPriority env c token m retry).trace =
        attemptsTrace env c m retry (ps.map GroupPriority.Group) ++
          (if token.AutoSmartGroup then (selectChannelByRatio env c m retry ps).trace
           else [])) := by
  by_cases hex : ∃ p ∈ ps, (CacheGetRandomSatisfiedChannel env c p.Group m retry).succeeded
  · exact Or.inl (first_success_of_exists env c token m retry ps hps hex)
  · right
    have hall : ∀ p ∈ ps,
        ¬ (CacheGetRandomSatisfiedChannel env c p.Group m retry).succeeded := by
      intro p hp hs
      exact hex ⟨p, hp, hs⟩
    refine ⟨hall, ?_⟩
    have hloop := groupLoop_all_fail env m retry false c (ps.map GroupPriority.Group)
      (by
        intro g hg
        obtain ⟨x, hx, rfl⟩ := List.mem_map.mp hg
        exact hall x hx)
    have hsel := SelectChannelWithPriority_walk env c token m retry ps hps hne
    rw [hloop] at hsel
    rw [hsel]
    cases token.AutoSmartGroup <;> simp [Result.after]

/-- Witness of C1: the list `primary, vip, standard` of the example, where the
store fails for `primary` and has a channel for `vip`; the selector returns the
`vip` channel after asking the store for `primary` and `vip`. -/
theorem SelectChannelWithPriority_first_success_witness :
    (demoToken.GetGroupPriorities demoEnv =
      Except.ok demoList) ∧
    demoList ≠ [] ∧
    (SelectChannelWithPriority demoEnv demoUser demoToken "gpt-4" 0).group = "vip" ∧
    storeGroups (SelectChannelWithPriority demoEnv demoUser demoToken "gpt-4" 0).trace =
        ["primary", "vip"] ∧
    ((∃ pre p post, demoList = pre ++ p :: post ∧
      (∀ q ∈ pre, ¬ (CacheGetRandomSatisfiedChannel demoEnv demoUser q.Group "gpt-4" 0).succeeded) ∧
      (CacheGetRandomSatisfiedChannel demoEnv demoUser p.Group "gpt-4" 0).succeeded ∧
      (SelectChannelWithPriority demoEnv demoUser demoToken "gpt-4" 0).channel =
        (CacheGetRandomSatisfiedChannel demoEnv demoUser p.Group "gpt-4" 0).channel ∧
      (SelectChannelWithPriority demoEnv demoUser demoToken "gpt-4" 0).channel ≠ none ∧
      (SelectChannelWithPriority demoEnv demoUser demoToken "gpt-4" 0).err = none ∧
      (SelectChannelWithPriority demoEnv demoUser demoToken "gpt-4" 0).group =
        (CacheGetRandomSatisfiedChannel demoEnv demoUser p.Group "gpt-4" 0).group ∧
      (p.Group ≠ "auto" → (SelectChannelWithPriority demoEnv demoUser demoToken "gpt-4" 0).group =
          p.Group) ∧
      (p.Group ≠ "auto" → demoEnv.randomChannelSelector p.Group "gpt-4" 0 =
        ((SelectChannelWithPriority demoEnv demoUser demoToken "gpt-4" 0).channel, none)) ∧
      (p.Group = "auto" → (SelectChannelWithPriority demoEnv demoUser demoToken "gpt-4" 0).group ∈
        demoEnv.GetUserAutoGroup (GetContextKeyString demoUser ContextKeyUserGroup)) ∧
      (SelectChannelWithPriority demoEnv demoUser demoToken "gpt-4" 0).trace =
        attemptsTrace demoEnv demoUser "gpt-4" 0 ((pre ++ [p]).map GroupPriority.Group) ++
          (setGroupSelectionContext
              (CacheGetRandomSatisfiedChannel demoEnv demoUser p.Group "gpt-4" 0).ctx
            (CacheGetRandomSatisfiedChannel demoEnv demoUser p.Group "gpt-4" 0).group false).2 ∧
      ((∀ q ∈ pre ++ [p], q.Group ≠ "auto") →
        storeGroups (SelectChannelWithPriority demoEnv demoUser demoToken "gpt-4" 0).trace =
          (pre ++ [p]).map GroupPriority.Group)) ∨
    ((∀ p ∈ demoList, ¬
        (CacheGetRandomSatisfiedChannel demoEnv demoUser p.Group "gpt-4" 0).succeeded) ∧
      (SelectChannelWithPriority demoEnv demoUser demoToken "gpt-4" 0).trace =
        attemptsTrace demoEnv demoUser "gpt-4" 0 (demoList.map GroupPriority.Group) ++
          (if demoToken.AutoSmartGroup then
              (selectChannelByRatio demoEnv demoUser "gpt-4" 0 demoList).trace
           else []))) :=
  ⟨rfl, by decide, by decide, by decide,
    SelectChannelWithPriority_first_success demoEnv demoUser demoToken "gpt-4" 0 demoList rfl
        (by decide)⟩

/-- Counterexample to C1 as stated: for the list `auto, vip` the walk succeeds at
its first entry, `auto`, and the group returned with the channel is `standard`,
the group of the auto expansion that had a channel, not the entry's group. -/
theorem SelectChannelWithPriority_auto_entry_group :
    (demoAutoToken.GetGroupPriorities demoEnv =
      Except.ok [{ Group := "auto", Priority := 1 }, { Group := "vip", Priority := 2 }]) ∧
    (CacheGetRandomSatisfiedChannel demoEnv demoUser "auto" "gpt-4" 0).succeeded ∧
    (SelectChannelWithPriority demoEnv demoUser demoAutoToken "gpt-4" 0).err = none ∧
    (SelectChannelWithPriority demoEnv demoUser demoAutoToken "gpt-4" 0).channel =
      some { Id := 2, Name := "standard-channel" } ∧
    (SelectChannelWithPriority demoEnv demoUser demoAutoToken "gpt-4" 0).group = "standard" ∧
    (SelectChannelWithPriority demoEnv demoUser demoAutoToken "gpt-4" 0).group ≠ "auto" ∧
    storeGroups (SelectChannelWithPriority demoEnv demoUser demoAutoToken "gpt-4" 0).trace =
        ["basic", "standard"] := by
  refine ⟨rfl, ?_, ?_, ?_, ?_, ?_, ?_⟩ <;> decide

/-! ## C2: the ratio fallback -/

/-- The ratio fallback when some candidate's attempt succeeds: it returns at the
first such candidate in ascending ratio order. -/
theorem ratio_fallback_of_exists
    (env : Env) (c : Context) (token : Token) (m : String) (retry : Int)
    (ps : List GroupPriority)
    (hps : token.GetGroupPriorities env = Except.ok ps) (hne : ps ≠ [])
    (hauto : token.AutoSmartGroup = true)
    (hfail : ∀ p ∈ ps, ¬ (CacheGetRandomSatisfiedChannel env c p.Group m retry).succeeded)
    (hex : ∃ x ∈ sortedCandidates env (GetContextKeyString c ContextKeyUserGroup) ps,
      (CacheGetRandomSatisfiedChannel env c x.group m retry).succeeded) :
    (∀ x, x ∈ sortedCandidates env (GetContextKeyString c ContextKeyUserGroup) ps ↔
      x.group ∈ env.GetUserUsableGroups (GetContextKeyString c ContextKeyUserGroup) ∧
      x.group ∉ ps.map GroupPriority.Group ∧
      env.GetGroupRatioCopy x.group = some x.ratio) ∧
    List.Pairwise ratioLE (sortedCandidates env (GetContextKeyString c ContextKeyUserGroup) ps) ∧
    ∃ pre x post,
      sortedCandidates env (GetContextKeyString c ContextKeyUserGroup) ps = pre ++ x :: post ∧
      (∀ y ∈ pre, ¬ (CacheGetRandomSatisfiedChannel env c y.group m retry).succeeded) ∧
      (CacheGetRandomSatisfiedChannel env c x.group m retry).succeeded ∧
      (∀ y ∈ sortedCandidates env (GetContextKeyString c ContextKeyUserGroup) ps,
        (CacheGetRandomSatisfiedChannel env c y.group m retry).succeeded → x.ratio ≤ y.ratio) ∧
      (SelectChannelWithPriority env c token m retry).channel =
        (CacheGetRandomSatisfiedChannel env c x.group m retry).channel ∧
      (SelectChannelWithPriority env c token m retry).err = none ∧
      (SelectChannelWithPriority env c token m retry).group =
        (CacheGetRandomSatisfiedChannel env c x.group m retry).group ∧
      (x.group ≠ "auto" → (SelectChannelWithPriority env c token m retry).group = x.group) ∧
      ((SelectChannelWithPriority env c token m retry).group ≠ "" →
        (SelectChannelWithPriority env c token m retry).ctx ContextKeySelectedGroup =
          some (CtxValue.str (SelectChannelWithPriority env c token m retry).group) ∧
        (SelectChannelWithPriority env c token m retry).ctx ContextKeyUsingGroup =
          some (CtxValue.str (SelectChannelWithPriority env c token m retry).group) ∧
        (SelectChannelWithPriority env c token m retry).ctx ContextKeyAutoSmartGroupUsed =
          some (CtxValue.bool true)) ∧
      (SelectChannelWithPriority env c token m retry).trace =
        attemptsTrace env c m retry (ps.map GroupPriority.Group) ++
        [Event.getUserUsableGroups (GetContextKeyString c ContextKeyUserGroup),
         Event.getGroupRatioCopy] ++
        attemptsTrace env c m retry ((pre ++ [x]).map groupWithRatio.group) ++
        (setGroupSelectionContext (CacheGetRandomSatisfiedChannel env c x.group m retry).ctx
          (CacheGetRandomSatisfiedChannel env c x.group m retry).group true).2 := by
  refine ⟨sortedCandidates_mem env _ ps, sortedCandidates_sorted env _ ps, ?_⟩
  obtain ⟨pre, x, post, hsplit, hpre, hx⟩ :=
    exists_first_split (fun y : groupWithRatio =>
      (CacheGetRandomSatisfiedChannel env c y.group m retry).succeeded) _ hex
  have hsorted := sortedCandidates_sorted env (GetContextKeyString c ContextKeyUserGroup) ps
  have hmin : ∀ y ∈ sortedCandidates env (GetContextKeyString c ContextKeyUserGroup) ps,
      (CacheGetRandomSatisfiedChannel env c y.group m retry).succeeded → x.ratio ≤ y.ratio := by
    intro y hy hys
    rw [hsplit] at hy hsorted
    rcases List.mem_append.mp hy with h | h
    · exact absurd hys (hpre y h)
    · rcases List.mem_cons.mp h with h | h
      · rw [h]
      · have h2 := (List.pairwise_append.mp hsorted).2.1
        exact (List.pairwise_cons.mp h2).1 y h
  have hwalk := groupLoop_all_fail env m retry false c (ps.map GroupPriority.Group)
    (by
      intro g hg
      obtain ⟨q, hq, rfl⟩ := List.mem_map.mp hg
      exact hfail q hq)
  have hloop := groupLoop_first_success env m retry true c (pre.map groupWithRatio.group)
    x.group (post.map groupWithRatio.group)
    (by
      intro q hq
      obtain ⟨y, hy, rfl⟩ := List.mem_map.mp hq
      exact hpre y hy) hx
  have hcne : sortedCandidates env (GetContextKeyString c ContextKeyUserGroup) ps ≠ [] := by
    rw [hsplit]; simp
  have hmap : (sortedCandidates env (GetContextKeyString c ContextKeyUserGroup) ps).map
      groupWithRatio.group =
      pre.map groupWithRatio.group ++ x.group :: post.map groupWithRatio.group := by
    rw [hsplit]; simp
  have hratio := selectChannelByRatio_eq env c m retry ps
  rw [if_neg hcne, hmap, hloop] at hratio
  simp only at hratio
  have hsel := SelectChannelWithPriority_walk env c token m retry ps hps hne
  rw [hwalk] at hsel
  simp only [hauto, if_true] at hsel
  rw [hratio] at hsel
  have hgroup : (SelectChannelWithPriority env c token m retry).group =
      (CacheGetRandomSatisfiedChannel env c x.group m retry).group := by rw [hsel]; rfl
  have hctx : (SelectChannelWithPriority env c token m retry).ctx =
      (setGroupSelectionContext (CacheGetRandomSatisfiedChannel env c x.group m retry).ctx
        (CacheGetRandomSatisfiedChannel env c x.group m retry).group true).1 := by
    rw [hsel]; rfl
  refine ⟨pre, x, post, hsplit, hpre, hx, hmin, by rw [hsel]; rfl, by rw [hsel]; rfl,
    hgroup, ?_, ?_, ?_⟩
  · intro h
    rw [hgroup]
    exact (CacheGet_group env c x.group m retry hx).1 h
  · intro h
    rw [hgroup] at h ⊢
    rw [hctx]
    have hk := setGroupSelectionContext_keys
      (CacheGetRandomSatisfiedChannel env c x.group m retry).ctx _ true h
    exact ⟨hk.1, hk.2.1, hk.2.2.1⟩
  · rw [hsel]
    simp [Result.after, selected, attemptsTrace]

/-- C2 (amended).  When `auto_smart_group` is true and every entry of the
non-empty priority list fails, the ratio fallback runs: its candidates are exactly
the usable groups outside the priority list that have a ratio entry, sorted by
ascending ratio, and they are attempted in that order.  Either some candidate's
attempt succeeds: then the result is that of the first such candidate `x`, no
later one being tried, and `x` has the smallest ratio among the candidates whose
attempt succeeds; the returned group is `x` itself unless `x` is the `auto`
sentinel (then it is the group of the auto expansion that had the channel), and
when the returned group is non-empty, `selected_group` and `using_group` hold it
and `auto_smart_group_used` is true.  Or no candidate's attempt succeeds: then all
candidates were attempted in order and an error is returned with no channel. -/
theorem SelectChannelWithPriority_ratio_fallback
    (env : Env) (c : Context) (token : Token) (m : String) (retry : Int)
    (ps : List GroupPriority)
    (hps : token.GetGroupPriorities env = Except.ok ps) (hne : ps ≠ [])
    (hauto : token.AutoSmartGroup = true)
    (hfail : ∀ p ∈ ps, ¬ (CacheGetRandomSatisfiedChannel env c p.Group m retry).succeeded) :
    (∀ x, x ∈ sortedCandidates env (GetContextKeyString c ContextKeyUserGroup) ps ↔
      x.group ∈ env.GetUserUsableGroups (GetContextKeyString c ContextKeyUserGroup) ∧
      x.group ∉ ps.map GroupPriority.Group ∧
      env.GetGroupRatioCopy x.group = some x.ratio) ∧
    List.Pairwise ratioLE (sortedCandidates env (GetContextKeyString c ContextKeyUserGroup) ps) ∧
    ((∃ pre x post,
      sortedCandidates env (GetContextKeyString c ContextKeyUserGroup) ps = pre ++ x :: post ∧
      (∀ y ∈ pre, ¬ (CacheGetRandomSatisfiedChannel env c y.group m retry).succeeded) ∧
      (CacheGetRandomSatisfiedChannel env c x.group m retry).succeeded ∧
      (∀ y ∈ sortedCandidates env (GetContextKeyString c ContextKeyUserGroup) ps,
        (CacheGetRandomSatisfiedChannel env c y.group m retry).succeeded → x.ratio ≤ y.ratio) ∧
      (SelectChannelWithPriority env c token m retry).channel =
        (CacheGetRandomSatisfiedChannel env c x.group m retry).channel ∧
      (SelectChannelWithPriority env c token m retry).err = none ∧
      (SelectChannelWithPriority env c token m retry).group =
        (CacheGetRandomSatisfiedChannel env c x.group m retry).group ∧
      (x.group ≠ "auto" → (SelectChannelWithPriority env c token m retry).group = x.group) ∧
      ((SelectChannelWithPriority env c token m retry).group ≠ "" →
        (SelectChannelWithPriority env c token m retry).ctx ContextKeySelectedGroup =
          some (CtxValue.str (SelectChannelWithPriority env c token m retry).group) ∧
        (SelectChannelWithPriority env c token m retry).ctx ContextKeyUsingGroup =
          some (CtxValue.str (SelectChannelWithPriority env c token m retry).group) ∧
        (SelectChannelWithPriority env c token m retry).ctx ContextKeyAutoSmartGroupUsed =
          some (CtxValue.bool true)) ∧
      (SelectChannelWithPriority env c token m retry).trace =
        attemptsTrace env c m retry (ps.map GroupPriority.Group) ++
        [Event.getUserUsableGroups (GetContextKeyString c ContextKeyUserGroup),
         Event.getGroupRatioCopy] ++
        attemptsTrace env c m retry ((pre ++ [x]).map groupWithRatio.group) ++
        (setGroupSelectionContext (CacheGetRandomSatisfiedChannel env c x.group m retry).ctx
          (CacheGetRandomSatisfiedChannel env c x.group m retry).group true).2) ∨
    ((∀ x ∈ sortedCandidates env (GetContextKeyString c ContextKeyUserGroup) ps,
        ¬ (CacheGetRandomSatisfiedChannel env c x.group m retry).succeeded) ∧
      (SelectChannelWithPriority env c token m retry).channel = none ∧
      (SelectChannelWithPriority env c token m retry).err =
        some (if sortedCandidates env (GetContextKeyString c ContextKeyUserGroup) ps = []
              then Error.ErrNoAvailableGroup else Error.ErrAllGroupsFailed) ∧
      (SelectChannelWithPriority env c token m retry).trace =
        attemptsTrace env c m retry (ps.map GroupPriority.Group) ++
        [Event.getUserUsableGroups (GetContextKeyString c ContextKeyUserGroup),
         Event.getGroupRatioCopy] ++
        attemptsTrace env c m retry
          ((sortedCandidates env (GetContextKeyString c ContextKeyUserGroup) ps).map
            groupWithRatio.group))) := by
  refine ⟨sortedCandidates_mem env _ ps, sortedCandidates_sorted env _ ps, ?_⟩
  by_cases hex : ∃ x ∈ sortedCandidates env (GetContextKeyString c ContextKeyUserGroup) ps,
      (CacheGetRandomSatisfiedChannel env c x.group m retry).succeeded
  · exact Or.inl (ratio_fallback_of_exists env c token m retry ps hps hne hauto hfail hex).2.2
  · right
    have hall : ∀ x ∈ sortedCandidates env (GetContextKeyString c ContextKeyUserGroup) ps,
        ¬ (CacheGetRandomSatisfiedChannel env c x.group m retry).succeeded := by
      intro x hx hs
      exact hex ⟨x, hx, hs⟩
    have hwalk := groupLoop_all_fail env m retry false c (ps.map GroupPriority.Group)
      (by
        intro g hg
        obtain ⟨q, hq, rfl⟩ := List.mem_map.mp hg
        exact hfail q hq)
    have hloop := groupLoop_all_fail env m retry true c
      ((sortedCandidates env (GetContextKeyString c ContextKeyUserGroup) ps).map
        groupWithRatio.group)
      (by
        intro g hg
        obtain ⟨y, hy, rfl⟩ := List.mem_map.mp hg
        exact hall y hy)
    have hratio := selectChannelByRatio_eq env c m retry ps
    rw [hloop] at hratio
    have hsel := SelectChannelWithPriority_walk env c token m retry ps hps hne
    rw [hwalk] at hsel
    simp only [hauto, if_true] at hsel
    rw [hratio] at hsel
    refine ⟨hall, ?_, ?_, ?_⟩
    · rw [hsel]
      by_cases hc : sortedCandidates env (GetContextKeyString c ContextKeyUserGroup) ps = []
      · simp [hc, Result.after]
      · simp [hc, Result.after]
    · rw [hsel]
      by_cases hc : sortedCandidates env (GetContextKeyString c ContextKeyUserGroup) ps = []
      · simp [hc, Result.after]
      · simp [hc, Result.after]
    · rw [hsel]
      by_cases hc : sortedCandidates env (GetContextKeyString c ContextKeyUserGroup) ps = []
      · simp [hc, Result.after, attemptsTrace]
      · simp [hc, Result.after]

/-- Witness of C2 (amended): the list `primary` alone on a token with
`auto_smart_group`; the candidates of the user group `default` are `standard`
(ratio 1), `vip` (ratio 2) and `basic` (ratio 4), and `standard` has a channel. -/
theorem SelectChannelWithPriority_ratio_fallback_witness :
    (demoSmartToken.GetGroupPriorities demoEnv =
      Except.ok [{ Group := "primary", Priority := 1 }]) ∧
    [({ Group := "primary", Priority := 1 } : GroupPriority)] ≠ [] ∧
    demoSmartToken.AutoSmartGroup = true ∧
    (∀ p ∈ [({ Group := "primary", Priority := 1 } : GroupPriority)],
      ¬ (CacheGetRandomSatisfiedChannel demoEnv demoUser p.Group "gpt-4" 0).succeeded) ∧
    ((sortedCandidates demoEnv "default" [{ Group := "primary", Priority := 1 }]).map
      groupWithRatio.group = ["standard", "vip", "basic"]) ∧
    (SelectChannelWithPriority demoEnv demoUser demoSmartToken "gpt-4" 0).group =
      "standard" ∧
    ((∀ x, x ∈ sortedCandidates demoEnv (GetContextKeyString demoUser ContextKeyUserGroup)
        [{ Group := "primary", Priority := 1 }] ↔
      x.group ∈ demoEnv.GetUserUsableGroups (GetContextKeyString demoUser ContextKeyUserGroup) ∧
      x.group ∉ [({ Group := "primary", Priority := 1 } : GroupPriority)].map GroupPriority.Group ∧
      demoEnv.GetGroupRatioCopy x.group = some x.ratio) ∧
    List.Pairwise ratioLE (sortedCandidates demoEnv
        (GetContextKeyString demoUser ContextKeyUserGroup)
        [{ Group := "primary", Priority := 1 }]) ∧
    ((∃ pre x post,
      sortedCandidates demoEnv (GetContextKeyString demoUser ContextKeyUserGroup)
        [{ Group := "primary", Priority := 1 }] = pre ++ x :: post ∧
      (∀ y ∈ pre, ¬ (CacheGetRandomSatisfiedChannel demoEnv demoUser y.group "gpt-4" 0).succeeded) ∧
      (CacheGetRandomSatisfiedChannel demoEnv demoUser x.group "gpt-4" 0).succeeded ∧
      (∀ y ∈ sortedCandidates demoEnv (GetContextKeyString demoUser ContextKeyUserGroup)
        [{ Group := "primary", Priority := 1 }],
        (CacheGetRandomSatisfiedChannel demoEnv demoUser y.group "gpt-4" 0).succeeded →
            x.ratio ≤ y.ratio) ∧
      (SelectChannelWithPriority demoEnv demoUser demoSmartToken "gpt-4" 0).channel =
        (CacheGetRandomSatisfiedChannel demoEnv demoUser x.group "gpt-4" 0).channel ∧
      (SelectChannelWithPriority demoEnv demoUser demoSmartToken "gpt-4" 0).err = none ∧
      (SelectChannelWithPriority demoEnv demoUser demoSmartToken "gpt-4" 0).group =
        (CacheGetRandomSatisfiedChannel demoEnv demoUser x.group "gpt-4" 0).group ∧
      (x.group ≠ "auto" →
          (SelectChannelWithPriority demoEnv demoUser demoSmartToken "gpt-4" 0).group = x.group) ∧
      ((SelectChannelWithPriority demoEnv demoUser demoSmartToken "gpt-4" 0).group ≠ "" →
        (SelectChannelWithPriority demoEnv demoUser demoSmartToken "gpt-4" 0).ctx
            ContextKeySelectedGroup =
          some (CtxValue.str
              (SelectChannelWithPriority demoEnv demoUser demoSmartToken "gpt-4" 0).group) ∧
        (SelectChannelWithPriority demoEnv demoUser demoSmartToken "gpt-4" 0).ctx
            ContextKeyUsingGroup =
          some (CtxValue.str
              (SelectChannelWithPriority demoEnv demoUser demoSmartToken "gpt-4" 0).group) ∧
        (SelectChannelWithPriority demoEnv demoUser demoSmartToken "gpt-4" 0).ctx
            ContextKeyAutoSmartGroupUsed =
          some (CtxValue.bool true)) ∧
      (SelectChannelWithPriority demoEnv demoUser demoSmartToken "gpt-4" 0).trace =
        attemptsTrace demoEnv demoUser "gpt-4" 0 ([({ Group := "primary", Priority :=
            1 } : GroupPriority)].map GroupPriority.Group) ++
        [Event.getUserUsableGroups (GetContextKeyString demoUser ContextKeyUserGroup),
         Event.getGroupRatioCopy] ++
        attemptsTrace demoEnv demoUser "gpt-4" 0 ((pre ++ [x]).map groupWithRatio.group) ++
        (setGroupSelectionContext
            (CacheGetRandomSatisfiedChannel demoEnv demoUser x.group "gpt-4" 0).ctx
          (CacheGetRandomSatisfiedChannel demoEnv demoUser x.group "gpt-4" 0).group true).2) ∨
    ((∀ x ∈ sortedCandidates demoEnv (GetContextKeyString demoUser ContextKeyUserGroup)
        [{ Group := "primary", Priority := 1 }],
        ¬ (CacheGetRandomSatisfiedChannel demoEnv demoUser x.group "gpt-4" 0).succeeded) ∧
      (SelectChannelWithPriority demoEnv demoUser demoSmartToken "gpt-4" 0).channel = none ∧
      (SelectChannelWithPriority demoEnv demoUser demoSmartToken "gpt-4" 0).err =
        some (if sortedCandidates demoEnv (GetContextKeyString demoUser ContextKeyUserGroup)
        [{ Group := "primary", Priority := 1 }] = []
              then Error.ErrNoAvailableGroup else Error.ErrAllGroupsFailed) ∧
      (SelectChannelWithPriority demoEnv demoUser demoSmartToken "gpt-4" 0).trace =
        attemptsTrace demoEnv demoUser "gpt-4" 0 ([({ Group := "primary", Priority :=
            1 } : GroupPriority)].map GroupPriority.Group) ++
        [Event.getUserUsableGroups (GetContextKeyString demoUser ContextKeyUserGroup),
         Event.getGroupRatioCopy] ++
        attemptsTrace demoEnv demoUser "gpt-4" 0
          ((sortedCandidates demoEnv (GetContextKeyString demoUser ContextKeyUserGroup)
        [{ Group := "primary", Priority := 1 }]).map
            groupWithRatio.group)))) :=
  ⟨rfl, by decide, rfl, by decide, by decide, by decide,
    SelectChannelWithPriority_ratio_fallback demoEnv demoUser demoSmartToken
      "gpt-4" 0 _ rfl (by decide) rfl (by decide)⟩

/-- Counterexample to C2 as stated: for the user group `trial` the only candidate
of the fallback is the sentinel `auto` (usable, with a ratio entry, not in the
list).  Its attempt succeeds through the auto expansion, and the group returned
and written to the context is `vip`, which is no candidate at all, so it is not
the cheapest candidate with a channel. -/
theorem SelectChannelWithPriority_fallback_auto_candidate :
    (demoSmartToken.GetGroupPriorities
        demoEnv = Except.ok [{ Group := "primary", Priority := 1 }]) ∧
    (∀ p ∈ [({ Group := "primary", Priority := 1 } : GroupPriority)],
      ¬ (CacheGetRandomSatisfiedChannel demoEnv (demoCtx "trial") p.Group "gpt-4" 0).succeeded) ∧
    (sortedCandidates demoEnv "trial" [{ Group := "primary", Priority := 1 }]).map
      groupWithRatio.group = ["auto"] ∧
    (SelectChannelWithPriority demoEnv (demoCtx "trial") demoSmartToken "gpt-4" 0).err = none ∧
    (SelectChannelWithPriority demoEnv (demoCtx "trial") demoSmartToken "gpt-4" 0).group = "vip" ∧
    "vip" ∉ (sortedCandidates demoEnv "trial" [{ Group := "primary", Priority := 1 }]).map
      groupWithRatio.group ∧
    (SelectChannelWithPriority demoEnv (demoCtx "trial") demoSmartToken "gpt-4" 0).ctx
        ContextKeySelectedGroup = some (CtxValue.str "vip") ∧
    (SelectChannelWithPriority demoEnv (demoCtx "trial") demoSmartToken "gpt-4" 0).ctx
        ContextKeyAutoSmartGroupUsed = some (CtxValue.bool true) := by
  refine ⟨rfl, ?_, ?_, ?_, ?_, ?_, ?_, ?_⟩ <;> decide

/-! ## C3: all groups failed, no fallback -/

/-- C3.  For every token with a non-empty parsed priority list and
`auto_smart_group = false`, if the attempt on every entry fails then
`SelectChannelWithPriority` returns `ErrAllGroupsFailed` with no channel and an
empty group; its effects are the attempts on the entries and nothing else, so
neither the group-ratio table nor the usable-group resolver is consulted. -/
theorem SelectChannelWithPriority_all_failed_no_fallback
    (env : Env) (c : Context) (token : Token) (m : String) (retry : Int)
    (ps : List GroupPriority)
    (hps : token.GetGroupPriorities env = Except.ok ps) (hne : ps ≠ [])
    (hauto : token.AutoSmartGroup = false)
    (hfail : ∀ p ∈ ps, ¬ (CacheGetRandomSatisfiedChannel env c p.Group m retry).succeeded) :
    (SelectChannelWithPriority env c token m retry).err = some Error.ErrAllGroupsFailed ∧
    (SelectChannelWithPriority env c token m retry).channel = none ∧
    (SelectChannelWithPriority env c token m retry).group = "" ∧
    (SelectChannelWithPriority env c token m retry).trace =
      attemptsTrace env c m retry (ps.map GroupPriority.Group) ∧
    Event.getGroupRatioCopy ∉ (SelectChannelWithPriority env c token m retry).trace ∧
    (∀ ug, Event.getUserUsableGroups ug ∉ (SelectChannelWithPriority env c token m retry).trace) :=
        by
  have hloop := groupLoop_all_fail env m retry false c (ps.map GroupPriority.Group)
    (by
      intro g hg
      obtain ⟨x, hx, rfl⟩ := List.mem_map.mp hg
      exact hfail x hx)
  have hsel := SelectChannelWithPriority_walk env c token m retry ps hps hne
  rw [hloop] at hsel
  simp only [hauto] at hsel
  have htrace : (SelectChannelWithPriority env c token m retry).trace =
      attemptsTrace env c m retry (ps.map GroupPriority.Group) := by rw [hsel]; rfl
  refine ⟨by rw [hsel]; rfl, by rw [hsel]; rfl, by rw [hsel]; rfl, htrace, ?_, ?_⟩
  · rw [htrace]
    intro h
    exact (attemptsTrace_no_fallback_read env c m retry _ _ h).1 rfl
  · intro ug
    rw [htrace]
    intro h
    exact (attemptsTrace_no_fallback_read env c m retry _ _ h).2 ug rfl

/-- Witness of C3: the list `primary` alone, whose only group has no channel, on
a token without `auto_smart_group`. -/
theorem SelectChannelWithPriority_all_failed_no_fallback_witness :
    (({ GroupPriorities := "[primary:1]" } : Token).GetGroupPriorities demoEnv =
      Except.ok [{ Group := "primary", Priority := 1 }]) ∧
    (∀ p ∈ [({ Group := "primary", Priority := 1 } : GroupPriority)],
      ¬ (CacheGetRandomSatisfiedChannel demoEnv demoUser p.Group "gpt-4" 0).succeeded) ∧
    ((SelectChannelWithPriority demoEnv demoUser
        { GroupPriorities := "[primary:1]" } "gpt-4" 0).err = some Error.ErrAllGroupsFailed ∧
    (SelectChannelWithPriority demoEnv demoUser
        { GroupPriorities := "[primary:1]" } "gpt-4" 0).channel = none ∧
    (SelectChannelWithPriority demoEnv demoUser
        { GroupPriorities := "[primary:1]" } "gpt-4" 0).group = "" ∧
    (SelectChannelWithPriority demoEnv demoUser
        { GroupPriorities := "[primary:1]" } "gpt-4" 0).trace =
      attemptsTrace demoEnv demoUser "gpt-4" 0
        ([({ Group := "primary", Priority := 1 } : GroupPriority)].map GroupPriority.Group) ∧
    Event.getGroupRatioCopy ∉ (SelectChannelWithPriority demoEnv demoUser
        { GroupPriorities := "[primary:1]" } "gpt-4" 0).trace ∧
    (∀ ug, Event.getUserUsableGroups ug ∉ (SelectChannelWithPriority demoEnv demoUser
        { GroupPriorities := "[primary:1]" } "gpt-4" 0).trace)) :=
  ⟨rfl, by decide,
    SelectChannelWithPriority_all_failed_no_fallback demoEnv demoUser
      { GroupPriorities := "[primary:1]" } "gpt-4" 0 _ rfl (by decide) rfl (by decide)⟩

/-! ## C4: groups queried by the fallback -/

/-- C4 (amended).  During the ratio fallback every group for which
`selectChannelByRatio` queries the store is a candidate, hence outside the parsed
priority list, or, when the `auto` sentinel is a candidate, a group of the user's
auto expansion; the same holds for the group returned on success.  In particular,
when `auto` is no candidate, no group of the priority list is queried again or
returned. -/
theorem selectChannelByRatio_store_groups
    (env : Env) (c : Context) (m : String) (retry : Int) (ps : List GroupPriority) :
    (∀ g ∈ storeGroups (selectChannelByRatio env c m retry ps).trace,
      isCandidate env (GetContextKeyString c ContextKeyUserGroup) ps g ∨
      (isCandidate env (GetContextKeyString c ContextKeyUserGroup) ps "auto" ∧
        g ∈ env.GetUserAutoGroup (GetContextKeyString c ContextKeyUserGroup))) ∧
    ((selectChannelByRatio env c m retry ps).err = none →
      isCandidate env (GetContextKeyString c ContextKeyUserGroup) ps
        (selectChannelByRatio env c m retry ps).group ∨
      (isCandidate env (GetContextKeyString c ContextKeyUserGroup) ps "auto" ∧
        (selectChannelByRatio env c m retry ps).group ∈
          env.GetUserAutoGroup (GetContextKeyString c ContextKeyUserGroup))) ∧
    (¬ isCandidate env (GetContextKeyString c ContextKeyUserGroup) ps "auto" →
      (∀ g ∈ storeGroups (selectChannelByRatio env c m retry ps).trace,
        g ∉ ps.map GroupPriority.Group) ∧
      ((selectChannelByRatio env c m retry ps).err = none →
        (selectChannelByRatio env c m retry ps).group ∉ ps.map GroupPriority.Group)) := by
  have hattempt : ∀ g ∈ (sortedCandidates env (GetContextKeyString c ContextKeyUserGroup) ps).map
      groupWithRatio.group,
      ∀ x ∈ storeGroups (CacheGetRandomSatisfiedChannel env c g m retry).trace,
      isCandidate env (GetContextKeyString c ContextKeyUserGroup) ps x ∨
      (isCandidate env (GetContextKeyString c ContextKeyUserGroup) ps "auto" ∧
        x ∈ env.GetUserAutoGroup (GetContextKeyString c ContextKeyUserGroup)) := by
    intro g hg x hx
    have hc := isCandidate_of_mem env _ ps g hg
    rcases storeGroups_CacheGet_mem env c g m retry x hx with ⟨_, rfl⟩ | ⟨rfl, hx2⟩
    · exact Or.inl hc
    · exact Or.inr ⟨hc, hx2⟩
  have hreads : storeGroups
      [Event.getUserUsableGroups (GetContextKeyString c ContextKeyUserGroup),
       Event.getGroupRatioCopy] = [] := rfl
  have h12 : (∀ g ∈ storeGroups (selectChannelByRatio env c m retry ps).trace,
      isCandidate env (GetContextKeyString c ContextKeyUserGroup) ps g ∨
      (isCandidate env (GetContextKeyString c ContextKeyUserGroup) ps "auto" ∧
        g ∈ env.GetUserAutoGroup (GetContextKeyString c ContextKeyUserGroup))) ∧
    ((selectChannelByRatio env c m retry ps).err = none →
      isCandidate env (GetContextKeyString c ContextKeyUserGroup) ps
        (selectChannelByRatio env c m retry ps).group ∨
      (isCandidate env (GetContextKeyString c ContextKeyUserGroup) ps "auto" ∧
        (selectChannelByRatio env c m retry ps).group ∈
          env.GetUserAutoGroup (GetContextKeyString c ContextKeyUserGroup))) := by
    rw [selectChannelByRatio_eq]
    by_cases hc : sortedCandidates env (GetContextKeyString c ContextKeyUserGroup) ps = []
    · rw [if_pos hc]
      exact ⟨by intro g hg; simp [storeGroups] at hg, by intro h; simp at h⟩
    · rw [if_neg hc]
      rcases groupLoop_cases env m retry true c
          ((sortedCandidates env (GetContextKeyString c ContextKeyUserGroup) ps).map
            groupWithRatio.group) with
        ⟨pre, g, post, hsplit, _, hg, hloop⟩ | ⟨_, hloop⟩
      · rw [hloop]
        simp only [Result.after, selected]
        have hgmem : g ∈ (sortedCandidates env (GetContextKeyString c ContextKeyUserGroup)
            ps).map groupWithRatio.group := by rw [hsplit]; simp
        constructor
        · intro x hx
          rw [storeGroups_append, storeGroups_append, storeGroups_append, hreads,
            storeGroups_setGroupSelectionContext, List.nil_append, List.append_nil,
            List.mem_append] at hx
          rcases hx with hx | hx
          · obtain ⟨q, hq, hx2⟩ := storeGroups_attemptsTrace_mem env c m retry pre x hx
            exact hattempt q (by rw [hsplit]; simp [hq]) x hx2
          · exact hattempt g hgmem x hx
        · intro _
          have hc2 := isCandidate_of_mem env _ ps g hgmem
          by_cases ha : g = "auto"
          · right
            exact ⟨ha ▸ hc2, (CacheGet_group env c g m retry hg).2 ha⟩
          · left
            rw [(CacheGet_group env c g m retry hg).1 ha]
            exact hc2
      · rw [hloop]
        simp only
        constructor
        · intro x hx
          rw [storeGroups_append, hreads, List.nil_append] at hx
          obtain ⟨q, hq, hx2⟩ := storeGroups_attemptsTrace_mem env c m retry _ x hx
          exact hattempt q hq x hx2
        · intro h
          simp at h
  refine ⟨h12.1, h12.2, ?_⟩
  intro hno
  constructor
  · intro g hg
    rcases h12.1 g hg with h | h
    · exact h.2.1
    · exact absurd h.1 hno
  · intro he
    rcases h12.2 he with h | h
    · exact h.2.1
    · exact absurd h.1 hno

/-- Counterexample to C4 as stated: the priority list is `basic` and the user
group `guest` may use `auto` and `basic`.  The fallback excludes `basic`, keeps
the candidate `auto`, and the expansion of `auto` for `guest` is `basic`: the store
is asked for `basic`, a group of the priority list, once more. -/
theorem selectChannelByRatio_requeries_listed_group :
    (sortedCandidates demoEnv "guest" [{ Group := "basic", Priority := 1 }]).map
      groupWithRatio.group = ["auto"] ∧
    storeGroups (selectChannelByRatio demoEnv (demoCtx "guest") "gpt-4" 0
      [{ Group := "basic", Priority := 1 }]).trace = ["basic"] ∧
    "basic" ∈ [({ Group := "basic", Priority := 1 } : GroupPriority)].map GroupPriority.Group ∧
    (selectChannelByRatio demoEnv (demoCtx "guest") "gpt-4" 0
      [{ Group := "basic", Priority := 1 }]).err = some Error.ErrAllGroupsFailed ∧
    (({ GroupPriorities := "[basic:1]", AutoSmartGroup := true } : Token).GetGroupPriorities
        demoEnv = Except.ok [{ Group := "basic", Priority := 1 }]) ∧
    storeGroups (SelectChannelWithPriority demoEnv (demoCtx "guest")
      { GroupPriorities := "[basic:1]", AutoSmartGroup := true } "gpt-4" 0).trace =
        ["basic", "basic"] := by
  refine ⟨?_, ?_, ?_, ?_, rfl, ?_⟩ <;> decide

/-! ## C5: nil error and channel -/

/-- C5 (amended).  For every token whose parsed priority list is non-empty,
whenever `SelectChannelWithPriority` returns a nil error it returns a non-nil
channel, whether it comes from the walk or from the ratio fallback.  (On the
malformed-list and empty-list paths the outcome of the single attempt is handed
back as it is, and a nil channel with a nil error is possible.) -/
theorem SelectChannelWithPriority_channel_of_no_error
    (env : Env) (c : Context) (token : Token) (m : String) (retry : Int)
    (ps : List GroupPriority)
    (hps : token.GetGroupPriorities env = Except.ok ps) (hne : ps ≠ [])
    (herr : (SelectChannelWithPriority env c token m retry).err = none) :
    (SelectChannelWithPriority env c token m retry).channel ≠ none := by
  have hsel := SelectChannelWithPriority_walk env c token m retry ps hps hne
  cases hr : groupLoop env m retry false c (ps.map GroupPriority.Group) with
  | returned r =>
    rw [hr] at hsel
    simp only at hsel
    rw [hsel]
    exact (groupLoop_returned_succeeded env m retry false _ c r hr).2
  | exhausted c2 t2 =>
    rw [hr] at hsel
    simp only at hsel
    cases ha : token.AutoSmartGroup with
    | false =>
      rw [ha] at hsel
      rw [hsel] at herr
      simp at herr
    | true =>
      rw [ha] at hsel
      simp only [if_true] at hsel
      rw [hsel] at herr ⊢
      simp only [Result.after] at herr ⊢
      exact selectChannelByRatio_channel_of_no_error env c2 m retry ps herr

/-- Witness of C5 (amended): the list `primary, vip, standard`, for which the
selector returns without error. -/
theorem SelectChannelWithPriority_channel_of_no_error_witness :
    (demoToken.GetGroupPriorities demoEnv =
      Except.ok demoList) ∧
    (SelectChannelWithPriority demoEnv demoUser demoToken "gpt-4" 0).err = none ∧
    (SelectChannelWithPriority demoEnv demoUser demoToken "gpt-4" 0).channel ≠ none :=
  ⟨rfl, by decide,
    SelectChannelWithPriority_channel_of_no_error demoEnv demoUser demoToken "gpt-4" 0 _ rfl
        (by decide)
      (by decide)⟩

/-- Counterexample to C5 as stated: a nil error with a nil channel, on each of the
three paths the claim names.  Empty list, base group `auto` whose expansion
(`basic`) has no channel; empty list, base group `idle` for which the store
answers `(nil, nil)`; malformed list with `token.group = idle`. -/
theorem SelectChannelWithPriority_nil_channel_nil_error :
    ((({} : Token).GetGroupPriorities demoEnv = Except.ok []) ∧
      (SelectChannelWithPriority demoEnv (demoCtxUsing "guest" "auto") {} "gpt-4" 0).err = none ∧
      (SelectChannelWithPriority demoEnv (demoCtxUsing "guest" "auto") {} "gpt-4" 0).channel =
        none ∧
      (SelectChannelWithPriority demoEnv (demoCtxUsing "guest" "auto") {} "gpt-4" 0).group =
        "auto") ∧
    ((SelectChannelWithPriority demoEnv (demoCtx "idle") {} "gpt-4" 0).err = none ∧
      (SelectChannelWithPriority demoEnv (demoCtx "idle") {} "gpt-4" 0).channel = none ∧
      (SelectChannelWithPriority demoEnv (demoCtx "idle") {} "gpt-4" 0).group = "idle") ∧
    ((({ GroupPriorities := "not json", Group := "idle" } : Token).GetGroupPriorities demoEnv =
        Except.error TokenError.MalformedPriorityList) ∧
      (SelectChannelWithPriority demoEnv demoUser
        { GroupPriorities := "not json", Group := "idle" } "gpt-4" 0).err = none ∧
      (SelectChannelWithPriority demoEnv demoUser
        { GroupPriorities := "not json", Group := "idle" } "gpt-4" 0).channel = none) := by
  refine ⟨⟨rfl, ?_, ?_, ?_⟩, ⟨?_, ?_, ?_⟩, ⟨rfl, ?_, ?_⟩⟩ <;> decide

/-! ## C6: context written by the walk -/

/-- C6 (amended).  Whenever the walk over the priority list succeeds at an entry
`p` (every entry before it failed), the returned group is the group under which
the attempt on `p` found its channel: `p.Group` itself unless `p` is the `auto`
sentinel.  When that group is non-empty, `selected_group` and `using_group` hold
it and `auto_smart_group_used` is false; when it is empty, the three keys are
left as they were. -/
theorem SelectChannelWithPriority_walk_context
    (env : Env) (c : Context) (token : Token) (m : String) (retry : Int)
    (ps pre : List GroupPriority) (p : GroupPriority) (post : List GroupPriority)
    (hps : token.GetGroupPriorities env = Except.ok ps)
    (hsplit : ps = pre ++ p :: post)
    (hpre : ∀ q ∈ pre, ¬ (CacheGetRandomSatisfiedChannel env c q.Group m retry).succeeded)
    (hp : (CacheGetRandomSatisfiedChannel env c p.Group m retry).succeeded) :
    (SelectChannelWithPriority env c token m retry).group =
      (CacheGetRandomSatisfiedChannel env c p.Group m retry).group ∧
    (p.Group ≠ "auto" → (SelectChannelWithPriority env c token m retry).group = p.Group) ∧
    ((SelectChannelWithPriority env c token m retry).group ≠ "" →
      (SelectChannelWithPriority env c token m retry).ctx ContextKeySelectedGroup =
        some (CtxValue.str (SelectChannelWithPriority env c token m retry).group) ∧
      (SelectChannelWithPriority env c token m retry).ctx ContextKeyUsingGroup =
        some (CtxValue.str (SelectChannelWithPriority env c token m retry).group) ∧
      (SelectChannelWithPriority env c token m retry).ctx ContextKeyAutoSmartGroupUsed =
        some (CtxValue.bool false)) ∧
    ((SelectChannelWithPriority env c token m retry).group = "" →
      (SelectChannelWithPriority env c token m retry).ctx ContextKeySelectedGroup =
        c ContextKeySelectedGroup ∧
      (SelectChannelWithPriority env c token m retry).ctx ContextKeyUsingGroup =
        c ContextKeyUsingGroup ∧
      (SelectChannelWithPriority env c token m retry).ctx ContextKeyAutoSmartGroupUsed =
        c ContextKeyAutoSmartGroupUsed) := by
  have hne : ps ≠ [] := by rw [hsplit]; simp
  have hloop := groupLoop_first_success env m retry false c (pre.map GroupPriority.Group)
    p.Group (post.map GroupPriority.Group)
    (by
      intro q hq
      obtain ⟨x, hx, rfl⟩ := List.mem_map.mp hq
      exact hpre x hx) hp
  have hsel := SelectChannelWithPriority_walk env c token m retry ps hps hne
  have hmap : ps.map GroupPriority.Group =
      pre.map GroupPriority.Group ++ p.Group :: post.map GroupPriority.Group := by
    rw [hsplit]; simp
  rw [hmap, hloop] at hsel
  simp only at hsel
  have hgroup : (SelectChannelWithPriority env c token m retry).group =
      (CacheGetRandomSatisfiedChannel env c p.Group m retry).group := by rw [hsel]; rfl
  have hctx : (SelectChannelWithPriority env c token m retry).ctx =
      (setGroupSelectionContext (CacheGetRandomSatisfiedChannel env c p.Group m retry).ctx
        (CacheGetRandomSatisfiedChannel env c p.Group m retry).group false).1 := by
    rw [hsel]; rfl
  refine ⟨hgroup, ?_, ?_, ?_⟩
  · intro h
    rw [hgroup]
    exact (CacheGet_group env c p.Group m retry hp).1 h
  · intro h
    rw [hgroup] at h ⊢
    rw [hctx]
    have hk := setGroupSelectionContext_keys
      (CacheGetRandomSatisfiedChannel env c p.Group m retry).ctx _ false h
    exact ⟨hk.1, hk.2.1, hk.2.2.1⟩
  · intro h
    rw [hgroup] at h
    rw [hctx, h, setGroupSelectionContext_empty]
    exact ⟨CacheGet_ctx_other_key env c p.Group m retry _ (by decide),
      CacheGet_ctx_other_key env c p.Group m retry _ (by decide),
      CacheGet_ctx_other_key env c p.Group m retry _ (by decide)⟩

/-- Witness of C6 (amended): the list `primary, vip, standard`, where the walk
succeeds at `vip` after `primary` failed. -/
theorem SelectChannelWithPriority_walk_context_witness :
    (demoToken.GetGroupPriorities demoEnv =
      Except.ok demoList) ∧
    (∀ q ∈ [({ Group := "primary", Priority := 1 } : GroupPriority)],
      ¬ (CacheGetRandomSatisfiedChannel demoEnv demoUser q.Group "gpt-4" 0).succeeded) ∧
    (CacheGetRandomSatisfiedChannel demoEnv demoUser "vip" "gpt-4" 0).succeeded ∧
    ((SelectChannelWithPriority demoEnv demoUser demoToken "gpt-4" 0).group =
      (CacheGetRandomSatisfiedChannel demoEnv demoUser "vip" "gpt-4" 0).group ∧
    ("vip" ≠ "auto" → (SelectChannelWithPriority demoEnv demoUser demoToken "gpt-4" 0).group =
        "vip") ∧
    ((SelectChannelWithPriority demoEnv demoUser demoToken "gpt-4" 0).group ≠ "" →
      (SelectChannelWithPriority demoEnv demoUser demoToken "gpt-4" 0).ctx
          ContextKeySelectedGroup =
        some (CtxValue.str (SelectChannelWithPriority demoEnv demoUser demoToken "gpt-4" 0).group) ∧
      (SelectChannelWithPriority demoEnv demoUser demoToken "gpt-4" 0).ctx
          ContextKeyUsingGroup =
        some (CtxValue.str (SelectChannelWithPriority demoEnv demoUser demoToken "gpt-4" 0).group) ∧
      (SelectChannelWithPriority demoEnv demoUser demoToken "gpt-4" 0).ctx
          ContextKeyAutoSmartGroupUsed = some (CtxValue.bool false)) ∧
    ((SelectChannelWithPriority demoEnv demoUser demoToken "gpt-4" 0).group = "" →
      (SelectChannelWithPriority demoEnv demoUser demoToken "gpt-4" 0).ctx
          ContextKeySelectedGroup = demoUser ContextKeySelectedGroup ∧
      (SelectChannelWithPriority demoEnv demoUser demoToken "gpt-4" 0).ctx
          ContextKeyUsingGroup = demoUser ContextKeyUsingGroup ∧
      (SelectChannelWithPriority demoEnv demoUser demoToken "gpt-4" 0).ctx
          ContextKeyAutoSmartGroupUsed = demoUser ContextKeyAutoSmartGroupUsed)) :=
  ⟨rfl, by decide, by decide,
    SelectChannelWithPriority_walk_context demoEnv demoUser demoToken "gpt-4" 0 _
      [{ Group := "primary", Priority := 1 }] { Group := "vip", Priority := 2 }
      [{ Group := "standard", Priority := 3 }] rfl rfl (by decide) (by decide)⟩

/-- Counterexample to C6 as stated: the walk over `auto, vip` succeeds at the
entry `auto`, and `selected_group` and `using_group` hold `standard`, the group of
the auto expansion that had a channel, not the entry's group `auto`. -/
theorem SelectChannelWithPriority_auto_entry_context :
    (demoAutoToken.GetGroupPriorities demoEnv =
      Except.ok [{ Group := "auto", Priority := 1 }, { Group := "vip", Priority := 2 }]) ∧
    (CacheGetRandomSatisfiedChannel demoEnv demoUser "auto" "gpt-4" 0).succeeded ∧
    (SelectChannelWithPriority demoEnv demoUser demoAutoToken "gpt-4" 0).ctx ContextKeySelectedGroup
        =
      some (CtxValue.str "standard") ∧
    (SelectChannelWithPriority demoEnv demoUser demoAutoToken "gpt-4" 0).ctx ContextKeyUsingGroup =
      some (CtxValue.str "standard") ∧
    (SelectChannelWithPriority demoEnv demoUser demoAutoToken "gpt-4" 0).ctx ContextKeySelectedGroup
        ≠
      some (CtxValue.str "auto") ∧
    (SelectChannelWithPriority demoEnv demoUser demoAutoToken "gpt-4" 0).ctx ContextKeyUsingGroup ≠
      some (CtxValue.str "auto") := by
  refine ⟨rfl, ?_, ?_, ?_, ?_, ?_⟩ <;> decide

/-! ## C7: malformed stored list -/

/-- C7 (amended).  When the token's stored `group_priorities` is not parseable,
`SelectChannelWithPriority` is one single-group attempt on the first non-empty of
`ctx.using_group` and `token.group` (`ctx.user_group` is not consulted on this
path), and the channel, group and error of that attempt are returned; unless
that group is the `auto` sentinel, the store is queried exactly once, for that
group. -/
theorem SelectChannelWithPriority_malformed
    (env : Env) (c : Context) (token : Token) (m : String) (retry : Int) (e : TokenError)
    (hps : token.GetGroupPriorities env = Except.error e) :
    SelectChannelWithPriority env c token m retry =
      selectChannelFromSingleGroup env c
        (firstNonEmpty [GetContextKeyString c ContextKeyUsingGroup, token.Group]) m retry ∧
    (SelectChannelWithPriority env c token m retry).channel =
      (CacheGetRandomSatisfiedChannel env c
        (firstNonEmpty [GetContextKeyString c ContextKeyUsingGroup, token.Group]) m retry).channel ∧
    (SelectChannelWithPriority env c token m retry).group =
      (CacheGetRandomSatisfiedChannel env c
        (firstNonEmpty [GetContextKeyString c ContextKeyUsingGroup, token.Group]) m retry).group ∧
    (SelectChannelWithPriority env c token m retry).err =
      (CacheGetRandomSatisfiedChannel env c
        (firstNonEmpty [GetContextKeyString c ContextKeyUsingGroup, token.Group]) m retry).err ∧
    (firstNonEmpty [GetContextKeyString c ContextKeyUsingGroup, token.Group] ≠ "auto" →
      storeGroups (SelectChannelWithPriority env c token m retry).trace =
        [firstNonEmpty [GetContextKeyString c ContextKeyUsingGroup, token.Group]]) := by
  have hsel := SelectChannelWithPriority_of_malformed env c token m retry e hps
  have hout := selectChannelFromSingleGroup_outcome env c
    (firstNonEmpty [GetContextKeyString c ContextKeyUsingGroup, token.Group]) m retry
  refine ⟨hsel, ?_, ?_, ?_, ?_⟩
  · rw [hsel]; exact hout.1
  · rw [hsel]; exact hout.2.1
  · rw [hsel]; exact hout.2.2.1
  · intro hg
    rw [hsel, hout.2.2.2]
    exact storeGroups_CacheGet_plain env c _ m retry hg

/-- Witness of C7 (amended): a token whose stored list is not parseable and whose
`group` is `vip`. -/
theorem SelectChannelWithPriority_malformed_witness :
    (({ GroupPriorities := "not json", Group := "vip" } : Token).GetGroupPriorities demoEnv =
      Except.error TokenError.MalformedPriorityList) ∧
    (SelectChannelWithPriority demoEnv demoUser
        { GroupPriorities := "not json", Group := "vip" } "gpt-4" 0 =
      selectChannelFromSingleGroup demoEnv demoUser
        (firstNonEmpty [GetContextKeyString demoUser ContextKeyUsingGroup, "vip"])
        "gpt-4" 0 ∧
    (SelectChannelWithPriority demoEnv demoUser
        { GroupPriorities := "not json", Group := "vip" } "gpt-4" 0).channel =
      (CacheGetRandomSatisfiedChannel demoEnv demoUser
        (firstNonEmpty [GetContextKeyString demoUser ContextKeyUsingGroup, "vip"])
        "gpt-4" 0).channel ∧
    (SelectChannelWithPriority demoEnv demoUser
        { GroupPriorities := "not json", Group := "vip" } "gpt-4" 0).group =
      (CacheGetRandomSatisfiedChannel demoEnv demoUser
        (firstNonEmpty [GetContextKeyString demoUser ContextKeyUsingGroup, "vip"])
        "gpt-4" 0).group ∧
    (SelectChannelWithPriority demoEnv demoUser
        { GroupPriorities := "not json", Group := "vip" } "gpt-4" 0).err =
      (CacheGetRandomSatisfiedChannel demoEnv demoUser
        (firstNonEmpty [GetContextKeyString demoUser ContextKeyUsingGroup, "vip"])
        "gpt-4" 0).err ∧
    (firstNonEmpty [GetContextKeyString demoUser ContextKeyUsingGroup, "vip"] ≠
        "auto" →
      storeGroups (SelectChannelWithPriority demoEnv demoUser
        { GroupPriorities := "not json", Group := "vip" } "gpt-4" 0).trace =
        [firstNonEmpty [GetContextKeyString demoUser ContextKeyUsingGroup,
          "vip"]])) :=
  ⟨rfl,
    SelectChannelWithPriority_malformed demoEnv demoUser
      { GroupPriorities := "not json", Group := "vip" } "gpt-4" 0 _ rfl⟩

/-- Counterexample to C7 as stated: the stored list is not parseable, `using_group`
and `token.group` are empty and `user_group` is `vip`.  The first non-empty of the
three is `vip`, for which the store has a channel, but the only group the selector
asks the store for is the empty one, and the store's error comes back. -/
theorem SelectChannelWithPriority_malformed_skips_user_group :
    (({ GroupPriorities := "not json" } : Token).GetGroupPriorities demoEnv =
      Except.error TokenError.MalformedPriorityList) ∧
    firstNonEmpty [GetContextKeyString (demoCtx "vip") ContextKeyUsingGroup,
      ({ GroupPriorities := "not json" } : Token).Group,
      GetContextKeyString (demoCtx "vip") ContextKeyUserGroup] = "vip" ∧
    storeGroups (SelectChannelWithPriority demoEnv (demoCtx "vip")
      { GroupPriorities := "not json" } "gpt-4" 0).trace = [""] ∧
    (SelectChannelWithPriority demoEnv (demoCtx "vip")
      { GroupPriorities := "not json" } "gpt-4" 0).channel = none ∧
    (SelectChannelWithPriority demoEnv (demoCtx "vip")
      { GroupPriorities := "not json" } "gpt-4" 0).err = some (Error.store "no channel") ∧
    (selectChannelFromSingleGroup demoEnv (demoCtx "vip") "vip" "gpt-4" 0).channel =
      some { Id := 1, Name := "vip-channel" } := by
  refine ⟨rfl, ?_, ?_, ?_, ?_, ?_⟩ <;> decide

/-! ## C8: empty parsed list -/

/-- C8.  When the parsed priority list is empty, `SelectChannelWithPriority` is one
single-group attempt on the base group, the first non-empty of `ctx.using_group`,
`token.group` and `ctx.user_group`, and returns that attempt's channel, group and
error unchanged; on success with a non-empty group, `selected_group` and
`using_group` hold that group and `auto_smart_group_used` is false. -/
theorem SelectChannelWithPriority_empty_list
    (env : Env) (c : Context) (token : Token) (m : String) (retry : Int)
    (hps : token.GetGroupPriorities env = Except.ok []) :
    SelectChannelWithPriority env c token m retry =
      selectChannelFromSingleGroup env c
        (firstNonEmpty [GetContextKeyString c ContextKeyUsingGroup, token.Group,
          GetContextKeyString c ContextKeyUserGroup]) m retry ∧
    (SelectChannelWithPriority env c token m retry).channel =
      (CacheGetRandomSatisfiedChannel env c
        (firstNonEmpty [GetContextKeyString c ContextKeyUsingGroup, token.Group,
          GetContextKeyString c ContextKeyUserGroup]) m retry).channel ∧
    (SelectChannelWithPriority env c token m retry).group =
      (CacheGetRandomSatisfiedChannel env c
        (firstNonEmpty [GetContextKeyString c ContextKeyUsingGroup, token.Group,
          GetContextKeyString c ContextKeyUserGroup]) m retry).group ∧
    (SelectChannelWithPriority env c token m retry).err =
      (CacheGetRandomSatisfiedChannel env c
        (firstNonEmpty [GetContextKeyString c ContextKeyUsingGroup, token.Group,
          GetContextKeyString c ContextKeyUserGroup]) m retry).err ∧
    ((SelectChannelWithPriority env c token m retry).err = none →
      (SelectChannelWithPriority env c token m retry).channel ≠ none →
      (SelectChannelWithPriority env c token m retry).group ≠ "" →
        (SelectChannelWithPriority env c token m retry).ctx ContextKeySelectedGroup =
          some (CtxValue.str (SelectChannelWithPriority env c token m retry).group) ∧
        (SelectChannelWithPriority env c token m retry).ctx ContextKeyUsingGroup =
          some (CtxValue.str (SelectChannelWithPriority env c token m retry).group) ∧
        (SelectChannelWithPriority env c token m retry).ctx ContextKeyAutoSmartGroupUsed =
          some (CtxValue.bool false)) := by
  have hsel := SelectChannelWithPriority_of_empty env c token m retry hps
  have hout := selectChannelFromSingleGroup_outcome env c
    (firstNonEmpty [GetContextKeyString c ContextKeyUsingGroup, token.Group,
      GetContextKeyString c ContextKeyUserGroup]) m retry
  refine ⟨hsel, ?_, ?_, ?_, ?_⟩
  · rw [hsel]; exact hout.1
  · rw [hsel]; exact hout.2.1
  · rw [hsel]; exact hout.2.2.1
  · rw [hsel, hout.1, hout.2.1, hout.2.2.1]
    intro he hc hg
    rw [selectChannelFromSingleGroup_ctx env c _ m retry ⟨he, hc⟩]
    have hk := setGroupSelectionContext_keys
      (CacheGetRandomSatisfiedChannel env c
        (firstNonEmpty [GetContextKeyString c ContextKeyUsingGroup, token.Group,
          GetContextKeyString c ContextKeyUserGroup]) m retry).ctx _ false hg
    exact ⟨hk.1, hk.2.1, hk.2.2.1⟩

/-- Witness of C8: a token with no list and no group, for a user of group `vip`. -/
theorem SelectChannelWithPriority_empty_list_witness :
    ((({} : Token).GetGroupPriorities demoEnv = Except.ok []) ∧
    (SelectChannelWithPriority demoEnv (demoCtx "vip") {} "gpt-4" 0).group = "vip" ∧
    (SelectChannelWithPriority demoEnv (demoCtx "vip") {} "gpt-4" 0).channel =
      some { Id := 1, Name := "vip-channel" }) ∧
    (SelectChannelWithPriority demoEnv (demoCtx "vip") {} "gpt-4" 0 =
      selectChannelFromSingleGroup demoEnv (demoCtx "vip")
        (firstNonEmpty [GetContextKeyString (demoCtx "vip") ContextKeyUsingGroup,
          ({} : Token).Group, GetContextKeyString (demoCtx "vip") ContextKeyUserGroup])
        "gpt-4" 0 ∧
    (SelectChannelWithPriority demoEnv (demoCtx "vip") {} "gpt-4" 0).channel =
      (CacheGetRandomSatisfiedChannel demoEnv (demoCtx "vip")
        (firstNonEmpty [GetContextKeyString (demoCtx "vip") ContextKeyUsingGroup,
          ({} : Token).Group, GetContextKeyString (demoCtx "vip") ContextKeyUserGroup])
        "gpt-4" 0).channel ∧
    (SelectChannelWithPriority demoEnv (demoCtx "vip") {} "gpt-4" 0).group =
      (CacheGetRandomSatisfiedChannel demoEnv (demoCtx "vip")
        (firstNonEmpty [GetContextKeyString (demoCtx "vip") ContextKeyUsingGroup,
          ({} : Token).Group, GetContextKeyString (demoCtx "vip") ContextKeyUserGroup])
        "gpt-4" 0).group ∧
    (SelectChannelWithPriority demoEnv (demoCtx "vip") {} "gpt-4" 0).err =
      (CacheGetRandomSatisfiedChannel demoEnv (demoCtx "vip")
        (firstNonEmpty [GetContextKeyString (demoCtx "vip") ContextKeyUsingGroup,
          ({} : Token).Group, GetContextKeyString (demoCtx "vip") ContextKeyUserGroup])
        "gpt-4" 0).err ∧
    ((SelectChannelWithPriority demoEnv (demoCtx "vip") {} "gpt-4" 0).err = none →
      (SelectChannelWithPriority demoEnv (demoCtx "vip") {} "gpt-4" 0).channel ≠ none →
      (SelectChannelWithPriority demoEnv (demoCtx "vip") {} "gpt-4" 0).group ≠ "" →
        (SelectChannelWithPriority demoEnv (demoCtx "vip") {} "gpt-4" 0).ctx
            ContextKeySelectedGroup =
          some (CtxValue.str (SelectChannelWithPriority demoEnv (demoCtx "vip") {}
            "gpt-4" 0).group) ∧
        (SelectChannelWithPriority demoEnv (demoCtx "vip") {} "gpt-4" 0).ctx
            ContextKeyUsingGroup =
          some (CtxValue.str (SelectChannelWithPriority demoEnv (demoCtx "vip") {}
            "gpt-4" 0).group) ∧
        (SelectChannelWithPriority demoEnv (demoCtx "vip") {} "gpt-4" 0).ctx
            ContextKeyAutoSmartGroupUsed = some (CtxValue.bool false))) :=
  ⟨⟨rfl, by decide, by decide⟩,
    SelectChannelWithPriority_empty_list demoEnv (demoCtx "vip") {} "gpt-4" 0 rfl⟩

/-! ## C9: the `auto` sentinel -/

/-- C9.  For the group name `auto` with a non-empty auto-groups configuration,
`CacheGetRandomSatisfiedChannel` queries the store for the groups of the user's
auto expansion in order.  Either the store has a channel for some group of the
expansion: then the queries stop at the first such group `g`, no group after it
being queried, that channel is returned without error, `g` (the concrete group)
is reported as the selected group and is recorded under the context key
`auto_group`.  Or the store has a channel for none of them: then every group of
the expansion was queried in order, and the result is no channel, the group
`auto`, no error and an unchanged context. -/
theorem CacheGetRandomSatisfiedChannel_auto_first
    (env : Env) (c : Context) (m : String) (retry : Int)
    (hcfg : env.GetAutoGroups ≠ []) :
    (∃ pre g post ch,
      env.GetUserAutoGroup (GetContextKeyString c ContextKeyUserGroup) = pre ++ g :: post ∧
      (∀ x ∈ pre, (env.randomChannelSelector x m retry).1 = none) ∧
      (env.randomChannelSelector g m retry).1 = some ch ∧
      (CacheGetRandomSatisfiedChannel env c "auto" m retry).channel = some ch ∧
      (CacheGetRandomSatisfiedChannel env c "auto" m retry).group = g ∧
      (CacheGetRandomSatisfiedChannel env c "auto" m retry).err = none ∧
      (CacheGetRandomSatisfiedChannel env c "auto" m retry).ctx =
        c.Set "auto_group" (CtxValue.str g) ∧
      (CacheGetRandomSatisfiedChannel env c "auto" m retry).ctx "auto_group" =
        some (CtxValue.str g) ∧
      storeGroups (CacheGetRandomSatisfiedChannel env c "auto" m retry).trace = pre ++ [g] ∧
      (CacheGetRandomSatisfiedChannel env c "auto" m retry).trace =
        [Event.getAutoGroups,
         Event.getUserAutoGroup (GetContextKeyString c ContextKeyUserGroup)] ++
        (pre ++ [g]).map (fun x => Event.storeQuery x m retry) ++
        [Event.ctxSet "auto_group" (CtxValue.str g)]) ∨
    ((∀ g ∈ env.GetUserAutoGroup (GetContextKeyString c ContextKeyUserGroup),
        (env.randomChannelSelector g m retry).1 = none) ∧
      (CacheGetRandomSatisfiedChannel env c "auto" m retry).channel = none ∧
      (CacheGetRandomSatisfiedChannel env c "auto" m retry).group = "auto" ∧
      (CacheGetRandomSatisfiedChannel env c "auto" m retry).err = none ∧
      (CacheGetRandomSatisfiedChannel env c "auto" m retry).ctx = c ∧
      storeGroups (CacheGetRandomSatisfiedChannel env c "auto" m retry).trace =
        env.GetUserAutoGroup (GetContextKeyString c ContextKeyUserGroup)) := by
  by_cases hex : ∃ g ∈ env.GetUserAutoGroup (GetContextKeyString c ContextKeyUserGroup),
      (env.randomChannelSelector g m retry).1 ≠ none
  · exact Or.inl (auto_first_of_exists env c m retry hcfg hex)
  · right
    have hall : ∀ g ∈ env.GetUserAutoGroup (GetContextKeyString c ContextKeyUserGroup),
        (env.randomChannelSelector g m retry).1 = none := by
      intro g hg
      by_contra hne
      exact hex ⟨g, hg, hne⟩
    have hrun := CacheGet_auto env c m retry hcfg
    rw [autoGroupLoop_none env c m retry _ hall] at hrun
    refine ⟨hall, ?_, ?_, ?_, ?_, ?_⟩
    · rw [hrun]; rfl
    · rw [hrun]; rfl
    · rw [hrun]; rfl
    · rw [hrun]; rfl
    · rw [hrun]
      simp only [Result.after]
      rw [storeGroups_append, storeGroups_map_storeQuery]
      rfl

/-- Witness of C9: the auto expansion `basic, standard, vip` of the user group
`default`, where `standard` is the first group with a channel. -/
theorem CacheGetRandomSatisfiedChannel_auto_first_witness :
    demoEnv.GetAutoGroups ≠ [] ∧
    (CacheGetRandomSatisfiedChannel demoEnv demoUser "auto" "gpt-4" 0).group =
      "standard" ∧
    storeGroups (CacheGetRandomSatisfiedChannel demoEnv demoUser "auto"
      "gpt-4" 0).trace = ["basic", "standard"] ∧
    ((∃ pre g post ch,
      demoEnv.GetUserAutoGroup (GetContextKeyString demoUser ContextKeyUserGroup) = pre ++
          g :: post ∧
      (∀ x ∈ pre, (demoEnv.randomChannelSelector x "gpt-4" 0).1 = none) ∧
      (demoEnv.randomChannelSelector g "gpt-4" 0).1 = some ch ∧
      (CacheGetRandomSatisfiedChannel demoEnv demoUser "auto" "gpt-4" 0).channel = some ch ∧
      (CacheGetRandomSatisfiedChannel demoEnv demoUser "auto" "gpt-4" 0).group = g ∧
      (CacheGetRandomSatisfiedChannel demoEnv demoUser "auto" "gpt-4" 0).err = none ∧
      (CacheGetRandomSatisfiedChannel demoEnv demoUser "auto" "gpt-4" 0).ctx =
        demoUser.Set "auto_group" (CtxValue.str g) ∧
      (CacheGetRandomSatisfiedChannel demoEnv demoUser "auto" "gpt-4" 0).ctx "auto_group" =
        some (CtxValue.str g) ∧
      storeGroups (CacheGetRandomSatisfiedChannel demoEnv demoUser "auto" "gpt-4" 0).trace = pre ++
          [g] ∧
      (CacheGetRandomSatisfiedChannel demoEnv demoUser "auto" "gpt-4" 0).trace =
        [Event.getAutoGroups,
         Event.getUserAutoGroup (GetContextKeyString demoUser ContextKeyUserGroup)] ++
        (pre ++ [g]).map (fun x => Event.storeQuery x "gpt-4" 0) ++
        [Event.ctxSet "auto_group" (CtxValue.str g)]) ∨
    ((∀ g ∈ demoEnv.GetUserAutoGroup (GetContextKeyString demoUser ContextKeyUserGroup),
        (demoEnv.randomChannelSelector g "gpt-4" 0).1 = none) ∧
      (CacheGetRandomSatisfiedChannel demoEnv demoUser "auto" "gpt-4" 0).channel = none ∧
      (CacheGetRandomSatisfiedChannel demoEnv demoUser "auto" "gpt-4" 0).group = "auto" ∧
      (CacheGetRandomSatisfiedChannel demoEnv demoUser "auto" "gpt-4" 0).err = none ∧
      (CacheGetRandomSatisfiedChannel demoEnv demoUser "auto" "gpt-4" 0).ctx = demoUser ∧
      storeGroups (CacheGetRandomSatisfiedChannel demoEnv demoUser "auto" "gpt-4" 0).trace =
        demoEnv.GetUserAutoGroup (GetContextKeyString demoUser ContextKeyUserGroup))) :=
  ⟨by decide, by decide, by decide,
    CacheGetRandomSatisfiedChannel_auto_first demoEnv demoUser "gpt-4" 0
      (by decide)⟩

/-! ## C10: `auto` without auto groups -/

/-- C10.  For the group name `auto` with an empty auto-groups configuration,
`CacheGetRandomSatisfiedChannel` fails with the "auto groups is not enabled"
error, returns no channel and does not query the store; so does a single-group
attempt on `auto`, and `SelectChannelWithPriority` hands that error to its caller
on both single-group paths (empty list, malformed list) when the group it
attempts is `auto`. -/
theorem CacheGetRandomSatisfiedChannel_auto_disabled
    (env : Env) (c : Context) (m : String) (retry : Int)
    (hcfg : env.GetAutoGroups = []) :
    ((CacheGetRandomSatisfiedChannel env c "auto" m retry).err =
        some Error.autoGroupsNotEnabled ∧
      (CacheGetRandomSatisfiedChannel env c "auto" m retry).channel = none ∧
      storeGroups (CacheGetRandomSatisfiedChannel env c "auto" m retry).trace = []) ∧
    ((selectChannelFromSingleGroup env c "auto" m retry).err =
        some Error.autoGroupsNotEnabled ∧
      (selectChannelFromSingleGroup env c "auto" m retry).channel = none ∧
      storeGroups (selectChannelFromSingleGroup env c "auto" m retry).trace = []) ∧
    (∀ token : Token, token.GetGroupPriorities env = Except.ok [] →
      firstNonEmpty [GetContextKeyString c ContextKeyUsingGroup, token.Group,
        GetContextKeyString c ContextKeyUserGroup] = "auto" →
      (SelectChannelWithPriority env c token m retry).err = some Error.autoGroupsNotEnabled ∧
      (SelectChannelWithPriority env c token m retry).channel = none ∧
      storeGroups (SelectChannelWithPriority env c token m retry).trace = []) ∧
    (∀ (token : Token) (e : TokenError), token.GetGroupPriorities env = Except.error e →
      firstNonEmpty [GetContextKeyString c ContextKeyUsingGroup, token.Group] = "auto" →
      (SelectChannelWithPriority env c token m retry).err = some Error.autoGroupsNotEnabled ∧
      (SelectChannelWithPriority env c token m retry).channel = none ∧
      storeGroups (SelectChannelWithPriority env c token m retry).trace = []) := by
  have h1 : (CacheGetRandomSatisfiedChannel env c "auto" m retry).err =
        some Error.autoGroupsNotEnabled ∧
      (CacheGetRandomSatisfiedChannel env c "auto" m retry).channel = none ∧
      storeGroups (CacheGetRandomSatisfiedChannel env c "auto" m retry).trace = [] := by
    rw [CacheGet_auto_disabled env c m retry hcfg]
    exact ⟨rfl, rfl, rfl⟩
  have hout := selectChannelFromSingleGroup_outcome env c "auto" m retry
  have h2 : (selectChannelFromSingleGroup env c "auto" m retry).err =
        some Error.autoGroupsNotEnabled ∧
      (selectChannelFromSingleGroup env c "auto" m retry).channel = none ∧
      storeGroups (selectChannelFromSingleGroup env c "auto" m retry).trace = [] := by
    rw [hout.1, hout.2.2.1, hout.2.2.2]
    exact h1
  refine ⟨h1, h2, ?_, ?_⟩
  · intro token hps hbase
    have hsel := SelectChannelWithPriority_of_empty env c token m retry hps
    rw [hbase] at hsel
    rw [hsel]
    exact h2
  · intro token e hps hbase
    have hsel := SelectChannelWithPriority_of_malformed env c token m retry e hps
    rw [hbase] at hsel
    rw [hsel]
    exact h2

/-- Witness of C10: the example collaborators with the auto groups emptied. -/
theorem CacheGetRandomSatisfiedChannel_auto_disabled_witness :
    demoEnvNoAuto.GetAutoGroups = [] ∧
    (((CacheGetRandomSatisfiedChannel demoEnvNoAuto demoUser "auto" "gpt-4" 0).err =
        some Error.autoGroupsNotEnabled ∧
      (CacheGetRandomSatisfiedChannel demoEnvNoAuto demoUser "auto" "gpt-4" 0).channel =
        none ∧
      storeGroups (CacheGetRandomSatisfiedChannel demoEnvNoAuto demoUser "auto"
        "gpt-4" 0).trace = []) ∧
    ((selectChannelFromSingleGroup demoEnvNoAuto demoUser "auto" "gpt-4" 0).err =
        some Error.autoGroupsNotEnabled ∧
      (selectChannelFromSingleGroup demoEnvNoAuto demoUser "auto" "gpt-4" 0).channel =
        none ∧
      storeGroups (selectChannelFromSingleGroup demoEnvNoAuto demoUser "auto"
        "gpt-4" 0).trace = []) ∧
    (∀ token : Token, token.GetGroupPriorities demoEnvNoAuto = Except.ok [] →
      firstNonEmpty [GetContextKeyString demoUser ContextKeyUsingGroup, token.Group,
        GetContextKeyString demoUser ContextKeyUserGroup] = "auto" →
      (SelectChannelWithPriority demoEnvNoAuto demoUser token "gpt-4" 0).err =
        some Error.autoGroupsNotEnabled ∧
      (SelectChannelWithPriority demoEnvNoAuto demoUser token "gpt-4" 0).channel =
        none ∧
      storeGroups (SelectChannelWithPriority demoEnvNoAuto demoUser token
        "gpt-4" 0).trace = []) ∧
    (∀ (token : Token) (e : TokenError),
      token.GetGroupPriorities demoEnvNoAuto = Except.error e →
      firstNonEmpty [GetContextKeyString demoUser ContextKeyUsingGroup,
        token.Group] = "auto" →
      (SelectChannelWithPriority demoEnvNoAuto demoUser token "gpt-4" 0).err =
        some Error.autoGroupsNotEnabled ∧
      (SelectChannelWithPriority demoEnvNoAuto demoUser token "gpt-4" 0).channel =
        none ∧
      storeGroups (SelectChannelWithPriority demoEnvNoAuto demoUser token
        "gpt-4" 0).trace = [])) :=
  ⟨rfl,
    CacheGetRandomSatisfiedChannel_auto_disabled demoEnvNoAuto demoUser "gpt-4" 0 rfl⟩

/-! ## C11: no fallback candidate -/

theorem sortedCandidates_eq_nil_iff (env : Env) (ug : String) (ps : List GroupPriority) :
    sortedCandidates env ug ps = [] ↔
      ∀ g ∈ env.GetUserUsableGroups ug, g ∉ ps.map GroupPriority.Group →
        env.GetGroupRatioCopy g = none := by
  constructor
  · intro h g hg hns
    cases hr : env.GetGroupRatioCopy g with
    | none => rfl
    | some ratio =>
      have hmem : ({ group := g, ratio := ratio } : groupWithRatio) ∈ sortedCandidates env ug ps :=
        (sortedCandidates_mem env ug ps _).mpr ⟨hg, hns, hr⟩
      rw [h] at hmem
      exact absurd hmem (List.not_mem_nil _)
  · intro h
    apply List.eq_nil_iff_forall_not_mem.mpr
    intro x hx
    obtain ⟨h1, h2, h3⟩ := (sortedCandidates_mem env ug ps x).mp hx
    rw [h x.group h1 h2] at h3
    exact absurd h3 (by simp)

theorem selectChannelByRatio_err_cases (env : Env) (c : Context) (m : String) (retry : Int)
    (ps : List GroupPriority)
    (hc : sortedCandidates env (GetContextKeyString c ContextKeyUserGroup) ps ≠ []) :
    (selectChannelByRatio env c m retry ps).err = none ∨
      (selectChannelByRatio env c m retry ps).err = some Error.ErrAllGroupsFailed := by
  rw [selectChannelByRatio_eq, if_neg hc]
  rcases groupLoop_cases env m retry true c
      ((sortedCandidates env (GetContextKeyString c ContextKeyUserGroup) ps).map
        groupWithRatio.group) with
    ⟨pre, g, post, _, _, _, hloop⟩ | ⟨_, hloop⟩
  · left
    rw [hloop]
    rfl
  · right
    rw [hloop]

/-- C11.  When `auto_smart_group` is true and every entry of the non-empty parsed
priority list fails, `SelectChannelWithPriority` returns `ErrNoAvailableGroup`
if and only if no group of the user's usable set is both outside the priority
list and present in the group-ratio table; in that case no channel is returned
and the fallback reads the usable groups and the ratio table and does not query
the store. -/
theorem SelectChannelWithPriority_no_available_group
    (env : Env) (c : Context) (token : Token) (m : String) (retry : Int)
    (ps : List GroupPriority)
    (hps : token.GetGroupPriorities env = Except.ok ps) (hne : ps ≠ [])
    (hauto : token.AutoSmartGroup = true)
    (hfail : ∀ p ∈ ps, ¬ (CacheGetRandomSatisfiedChannel env c p.Group m retry).succeeded) :
    ((SelectChannelWithPriority env c token m retry).err = some Error.ErrNoAvailableGroup ↔
      ∀ g ∈ env.GetUserUsableGroups (GetContextKeyString c ContextKeyUserGroup),
        g ∉ ps.map GroupPriority.Group → env.GetGroupRatioCopy g = none) ∧
    ((SelectChannelWithPriority env c token m retry).err = some Error.ErrNoAvailableGroup →
      (SelectChannelWithPriority env c token m retry).channel = none ∧
      (selectChannelByRatio env c m retry ps).trace =
        [Event.getUserUsableGroups (GetContextKeyString c ContextKeyUserGroup),
         Event.getGroupRatioCopy] ∧
      storeGroups (selectChannelByRatio env c m retry ps).trace = [] ∧
      (SelectChannelWithPriority env c token m retry).trace =
        attemptsTrace env c m retry (ps.map GroupPriority.Group) ++
          (selectChannelByRatio env c m retry ps).trace) := by
  have hwalk := groupLoop_all_fail env m retry false c (ps.map GroupPriority.Group)
    (by
      intro g hg
      obtain ⟨q, hq, rfl⟩ := List.mem_map.mp hg
      exact hfail q hq)
  have hsel := SelectChannelWithPriority_walk env c token m retry ps hps hne
  rw [hwalk] at hsel
  simp only [hauto, if_true] at hsel
  have herr : (SelectChannelWithPriority env c token m retry).err =
      (selectChannelByRatio env c m retry ps).err := by rw [hsel]; rfl
  have hiff : (SelectChannelWithPriority env c token m retry).err =
      some Error.ErrNoAvailableGroup ↔
      sortedCandidates env (GetContextKeyString c ContextKeyUserGroup) ps = [] := by
    rw [herr]
    constructor
    · intro h
      by_contra hc
      rcases selectChannelByRatio_err_cases env c m retry ps hc with h2 | h2
      · rw [h2] at h
        exact absurd h (by simp)
      · rw [h2] at h
        exact absurd h (by simp)
    · intro h
      rw [selectChannelByRatio_eq, if_pos h]
  refine ⟨hiff.trans (sortedCandidates_eq_nil_iff env _ ps), ?_⟩
  intro h
  have hc := hiff.mp h
  have hratio := selectChannelByRatio_eq env c m retry ps
  rw [if_pos hc] at hratio
  refine ⟨?_, ?_, ?_, ?_⟩
  · rw [hsel, hratio]; rfl
  · rw [hratio]
  · rw [hratio]; rfl
  · rw [hsel]; rfl

/-- Witness of C11: the user group `nobody` has no usable group, so the fallback
of the list `primary` has no candidate. -/
theorem SelectChannelWithPriority_no_available_group_witness :
    (demoSmartToken.GetGroupPriorities demoEnv =
      Except.ok [{ Group := "primary", Priority := 1 }]) ∧
    [({ Group := "primary", Priority := 1 } : GroupPriority)] ≠ [] ∧
    demoSmartToken.AutoSmartGroup = true ∧
    (∀ p ∈ [({ Group := "primary", Priority := 1 } : GroupPriority)],
      ¬ (CacheGetRandomSatisfiedChannel demoEnv (demoCtx "nobody") p.Group "gpt-4" 0).succeeded) ∧
    (SelectChannelWithPriority demoEnv (demoCtx "nobody") demoSmartToken "gpt-4" 0).err =
      some Error.ErrNoAvailableGroup ∧
    (SelectChannelWithPriority demoEnv demoUser demoSmartToken "gpt-4" 0).err ≠
      some Error.ErrNoAvailableGroup ∧
    (((SelectChannelWithPriority demoEnv (demoCtx "nobody") demoSmartToken "gpt-4" 0).err =
        some Error.ErrNoAvailableGroup ↔
      ∀ g ∈ demoEnv.GetUserUsableGroups
          (GetContextKeyString (demoCtx "nobody") ContextKeyUserGroup),
        g ∉ [({ Group := "primary", Priority := 1 } : GroupPriority)].map GroupPriority.Group →
          demoEnv.GetGroupRatioCopy g = none) ∧
    ((SelectChannelWithPriority demoEnv (demoCtx "nobody") demoSmartToken "gpt-4" 0).err =
        some Error.ErrNoAvailableGroup →
      (SelectChannelWithPriority demoEnv (demoCtx "nobody") demoSmartToken "gpt-4" 0).channel =
        none ∧
      (selectChannelByRatio demoEnv (demoCtx "nobody") "gpt-4" 0
        [{ Group := "primary", Priority := 1 }]).trace =
        [Event.getUserUsableGroups (GetContextKeyString (demoCtx "nobody") ContextKeyUserGroup),
         Event.getGroupRatioCopy] ∧
      storeGroups (selectChannelByRatio demoEnv (demoCtx "nobody") "gpt-4" 0
        [{ Group := "primary", Priority := 1 }]).trace = [] ∧
      (SelectChannelWithPriority demoEnv (demoCtx "nobody") demoSmartToken "gpt-4" 0).trace =
        attemptsTrace demoEnv (demoCtx "nobody") "gpt-4" 0
          ([({ Group := "primary", Priority := 1 } : GroupPriority)].map GroupPriority.Group) ++
          (selectChannelByRatio demoEnv (demoCtx "nobody") "gpt-4" 0
            [{ Group := "primary", Priority := 1 }]).trace)) :=
  ⟨rfl, by decide, rfl, by decide, by decide, by decide,
    SelectChannelWithPriority_no_available_group demoEnv (demoCtx "nobody") demoSmartToken
      "gpt-4" 0 _ rfl (by decide) rfl (by decide)⟩

/-! ## Lemmas on the codec -/

theorem trimEach_length (l : List GroupPriority) : (trimEach l).length = l.length := by
  simp [trimEach]

theorem normalizePriorities_length (l : List GroupPriority) :
    (normalizePriorities l).length = l.length := by
  unfold normalizePriorities
  rw [List.length_insertionSort, trimEach_length]

theorem normalizePriorities_sorted (l : List GroupPriority) :
    List.Pairwise priorityLE (normalizePriorities l) :=
  List.sorted_insertionSort priorityLE _

theorem normalizePriorities_perm (l : List GroupPriority) :
    List.Perm (normalizePriorities l) (trimEach l) :=
  List.perm_insertionSort priorityLE _

theorem filter_orderedInsert (k : Int) (a : GroupPriority) (l : List GroupPriority) :
    (l.orderedInsert priorityLE a).filter (fun p => p.Priority = k) =
      (a :: l).filter (fun p => p.Priority = k) := by
  induction l with
  | nil => rfl
  | cons b rest ih =>
    rw [List.orderedInsert]
    by_cases hab : priorityLE a b
    · rw [if_pos hab]
    · rw [if_neg hab]
      have hlt : b.Priority < a.Priority := by
        unfold priorityLE at hab
        omega
      rw [List.filter_cons, ih]
      by_cases hb : b.Priority = k
      · have ha : a.Priority ≠ k := by omega
        simp [List.filter_cons, hb, ha]
      · simp [List.filter_cons, hb]

/-- The sort keeps, for every priority, the entries of that priority in their input
order: it is stable. -/
theorem filter_insertionSort (k : Int) (l : List GroupPriority) :
    (l.insertionSort priorityLE).filter (fun p => p.Priority = k) =
      l.filter (fun p => p.Priority = k) := by
  induction l with
  | nil => rfl
  | cons a rest ih =>
    rw [List.insertionSort, filter_orderedInsert, List.filter_cons, List.filter_cons, ih]

theorem validatePriorities_eq_none_iff (env : Env) (l : List GroupPriority) :
    validatePriorities env l = none ↔
      l.length ≤ env.MaxGroupPriorities ∧ (∀ p ∈ l, TrimSpace p.Group ≠ "") ∧
      (∀ p ∈ l, 1 ≤ p.Priority) ∧ (l.map fun p => TrimSpace p.Group).Nodup := by
  unfold validatePriorities
  constructor
  · intro h
    split at h
    · simp at h
    · rename_i h1
      split at h
      · simp at h
      · rename_i h2
        split at h
        · simp at h
        · rename_i h3
          split at h
          · simp at h
          · rename_i h4
            refine ⟨by omega, ?_, ?_, by simpa using h4⟩
            · intro p hp hg
              exact h2 (List.any_eq_true.mpr ⟨p, hp, by simpa using hg⟩)
            · intro p hp
              by_contra hlt
              exact h3 (List.any_eq_true.mpr ⟨p, hp, by simpa using hlt⟩)
  · rintro ⟨h1, h2, h3, h4⟩
    have g1 : ¬ l.length > env.MaxGroupPriorities := by omega
    have g2 : ¬ (l.any (fun p => TrimSpace p.Group = "") = true) := by
      intro h
      obtain ⟨p, hp, hg⟩ := List.any_eq_true.mp h
      exact h2 p hp (by simpa using hg)
    have g3 : ¬ (l.any (fun p => p.Priority < 1) = true) := by
      intro h
      obtain ⟨p, hp, hg⟩ := List.any_eq_true.mp h
      have := h3 p hp
      have hg2 : p.Priority < 1 := by simpa using hg
      omega
    rw [if_neg g1, if_neg g2, if_neg g3, if_neg (by simpa using h4)]

theorem SetGroupPriorities_of_valid (env : Env) (t : Token) (l : List GroupPriority)
    (hne : l ≠ []) (hv : validatePriorities env l = none) :
    ∃ first rest, normalizePriorities l = first :: rest ∧
      t.SetGroupPriorities env l =
        ({ t with GroupPriorities := env.Marshal (normalizePriorities l),
                  Group := first.Group }, none) := by
  have hlen : (normalizePriorities l).length ≠ 0 := by
    rw [normalizePriorities_length]
    exact fun h => hne (List.length_eq_zero.mp h)
  cases hn : normalizePriorities l with
  | nil => rw [hn] at hlen; exact absurd rfl hlen
  | cons first rest =>
    refine ⟨first, rest, rfl, ?_⟩
    unfold Token.SetGroupPriorities
    rw [if_neg (fun h => hne (List.length_eq_zero.mp h)), hv]
    simp only [hn]

theorem SetGroupPriorities_of_invalid (env : Env) (t : Token) (l : List GroupPriority)
    (hne : l ≠ []) (reason : String) (hv : validatePriorities env l = some reason) :
    t.SetGroupPriorities env l = (t, some (TokenError.InvalidPriorityList reason)) := by
  unfold Token.SetGroupPriorities
  rw [if_neg (fun h => hne (List.length_eq_zero.mp h)), hv]

theorem SetGroupPriorities_nil (env : Env) (t : Token) :
    t.SetGroupPriorities env [] = ({ t with GroupPriorities := "" }, none) := by
  simp [Token.SetGroupPriorities]

theorem SetGroupPriorities_ok_valid (env : Env) (t : Token) (l : List GroupPriority)
    (hne : l ≠ []) (hok : (t.SetGroupPriorities env l).2 = none) :
    validatePriorities env l = none := by
  cases hv : validatePriorities env l with
  | none => rfl
  | some reason =>
    rw [SetGroupPriorities_of_invalid env t l hne reason hv] at hok
    exact absurd hok (by simp)

theorem normalizePriorities_first (l : List GroupPriority) (hne : l ≠ []) :
    ∃ pre p post, l = pre ++ p :: post ∧
      (∀ q ∈ pre, p.Priority < q.Priority) ∧ (∀ q ∈ post, p.Priority ≤ q.Priority) ∧
      (normalizePriorities l).head? =
        some { Group := TrimSpace p.Group, Priority := p.Priority } := by
  induction l with
  | nil => exact absurd rfl hne
  | cons a rest ih =>
    by_cases hrest : rest = []
    · subst hrest
      exact ⟨[], a, [], rfl, by simp, by simp, rfl⟩
    · obtain ⟨pre, p, post, hsplit, hpre, hpost, hhead⟩ := ih hrest
      have hsort : normalizePriorities (a :: rest) =
          (normalizePriorities rest).orderedInsert priorityLE
            { Group := TrimSpace a.Group, Priority := a.Priority } := rfl
      cases hn : normalizePriorities rest with
      | nil => rw [hn] at hhead; simp at hhead
      | cons b tail =>
        rw [hn] at hhead hsort
        simp only [List.head?_cons, Option.some.injEq] at hhead
        subst hhead
        rw [List.orderedInsert] at hsort
        by_cases hab : a.Priority ≤ p.Priority
        · refine ⟨[], a, rest, rfl, by simp, ?_, ?_⟩
          · intro q hq
            rw [hsplit] at hq
            rcases List.mem_append.mp hq with h | h
            · have := hpre q h
              omega
            · rcases List.mem_cons.mp h with h | h
              · rw [h]; exact hab
              · have := hpost q h
                omega
          · rw [hsort, if_pos (show priorityLE
              { Group := TrimSpace a.Group, Priority := a.Priority }
              { Group := TrimSpace p.Group, Priority := p.Priority } from hab)]
            rfl
        · refine ⟨a :: pre, p, post, by rw [hsplit]; rfl, ?_, hpost, ?_⟩
          · intro q hq
            rcases List.mem_cons.mp hq with h | h
            · rw [h]; omega
            · exact hpre q h
          · rw [hsort, if_neg (show ¬ priorityLE
              { Group := TrimSpace a.Group, Priority := a.Priority }
              { Group := TrimSpace p.Group, Priority := p.Priority } from hab)]
            rfl

/-! ## C12: round trip of the codec -/

/-- C12 (amended).  For every non-empty list `L` accepted by `SetGroupPriorities`
(with an encoder that yields a non-empty string which the decoder reads back),
`GetGroupPriorities` afterwards returns exactly `sort_stable(trim_each(L))`: the
entries of `L` with trimmed names and the caller's priorities, sorted ascending by
priority, entries of equal priority in input order; the result has the length of
`L`.  (For the empty list the stored field is cleared and the read falls back to
`token.group`, see C15.) -/
theorem GetGroupPriorities_SetGroupPriorities
    (env : Env) (t : Token) (l : List GroupPriority)
    (hne : l ≠ [])
    (hok : (t.SetGroupPriorities env l).2 = none)
    (hstored : env.Marshal (normalizePriorities l) ≠ "")
    (hread : env.Unmarshal (env.Marshal (normalizePriorities l)) =
      some (normalizePriorities l)) :
    (t.SetGroupPriorities env l).1.GetGroupPriorities env =
      Except.ok (normalizePriorities l) ∧
    normalizePriorities l = (trimEach l).insertionSort priorityLE ∧
    (normalizePriorities l).length = l.length ∧
    List.Pairwise priorityLE (normalizePriorities l) ∧
    List.Perm (normalizePriorities l) (trimEach l) ∧
    (∀ k : Int, (normalizePriorities l).filter (fun p => p.Priority = k) =
      (trimEach l).filter (fun p => p.Priority = k)) := by
  have hv := SetGroupPriorities_ok_valid env t l hne hok
  obtain ⟨first, rest, _, hset⟩ := SetGroupPriorities_of_valid env t l hne hv
  refine ⟨?_, rfl, normalizePriorities_length l, normalizePriorities_sorted l,
    normalizePriorities_perm l, fun k => filter_insertionSort k (trimEach l)⟩
  rw [hset]
  unfold Token.GetGroupPriorities
  simp only
  rw [if_neg hstored, hread]
  simp only
  rw [List.Sorted.insertionSort_eq (normalizePriorities_sorted l)]

/-- Witness of C12 (amended): the round-trip scenario of the spec, `standard` (3),
`vip` (1), `basic` (2), read back as `vip`, `basic`, `standard`. -/
theorem GetGroupPriorities_SetGroupPriorities_witness :
    scenarioList ≠ [] ∧
    (({} : Token).SetGroupPriorities codecEnv scenarioList).2 = none ∧
    codecEnv.Marshal (normalizePriorities scenarioList) ≠ "" ∧
    codecEnv.Unmarshal (codecEnv.Marshal (normalizePriorities scenarioList)) =
      some (normalizePriorities scenarioList) ∧
    normalizePriorities scenarioList =
      [{ Group := "vip", Priority := 1 }, { Group := "basic", Priority := 2 },
       { Group := "standard", Priority := 3 }] ∧
    ((({} : Token).SetGroupPriorities codecEnv scenarioList).1.GetGroupPriorities codecEnv =
      Except.ok (normalizePriorities scenarioList) ∧
    normalizePriorities scenarioList = (trimEach scenarioList).insertionSort priorityLE ∧
    (normalizePriorities scenarioList).length = scenarioList.length ∧
    List.Pairwise priorityLE (normalizePriorities scenarioList) ∧
    List.Perm (normalizePriorities scenarioList) (trimEach scenarioList) ∧
    (∀ k : Int, (normalizePriorities scenarioList).filter (fun p => p.Priority = k) =
      (trimEach scenarioList).filter (fun p => p.Priority = k))) :=
  ⟨by decide, by decide, by decide, by decide, by decide,
    GetGroupPriorities_SetGroupPriorities codecEnv {} scenarioList (by decide) (by decide)
      (by decide) (by decide)⟩

/-- Counterexample to C12 as stated: the empty list is accepted, and on a token
whose `group` is `default` the read afterwards returns the one-entry fallback
`[(default, 1)]`, not the empty list, so the lengths differ. -/
theorem GetGroupPriorities_SetGroupPriorities_empty :
    (({ Group := "default" } : Token).SetGroupPriorities codecEnv []).2 = none ∧
    (({ Group := "default" } : Token).SetGroupPriorities codecEnv []).1.GetGroupPriorities
      codecEnv = Except.ok [{ Group := "default", Priority := 1 }] ∧
    normalizePriorities [] = [] ∧
    [({ Group := "default", Priority := 1 } : GroupPriority)].length ≠
      ([] : List GroupPriority).length := by
  refine ⟨by decide, rfl, rfl, by decide⟩

/-! ## C13: rejected lists -/

/-- C13.  `SetGroupPriorities` returns an error exactly when the list has a group
name that is empty after trimming, a priority below 1, a trimmed group name that
occurs twice, or more than `MaxGroupPriorities` entries; the error is an
`InvalidPriorityList`, and the token after the call equals the token before it in
every field. -/
theorem SetGroupPriorities_error_iff (env : Env) (t : Token) (l : List GroupPriority) :
    ((t.SetGroupPriorities env l).2 ≠ none ↔
      (∃ p ∈ l, TrimSpace p.Group = "") ∨ (∃ p ∈ l, p.Priority < 1) ∨
      ¬ (l.map fun p => TrimSpace p.Group).Nodup ∨ env.MaxGroupPriorities < l.length) ∧
    ((t.SetGroupPriorities env l).2 ≠ none →
      (t.SetGroupPriorities env l).1 = t ∧
      ∃ reason, (t.SetGroupPriorities env l).2 = some (TokenError.InvalidPriorityList reason)) := by
  by_cases hne : l = []
  · subst hne
    rw [SetGroupPriorities_nil]
    simp
  · cases hv : validatePriorities env l with
    | none =>
      obtain ⟨first, rest, _, hset⟩ := SetGroupPriorities_of_valid env t l hne hv
      obtain ⟨h1, h2, h3, h4⟩ := (validatePriorities_eq_none_iff env l).mp hv
      rw [hset]
      refine ⟨?_, by simp⟩
      constructor
      · intro h
        exact absurd rfl h
      · rintro (⟨p, hp, hg⟩ | ⟨p, hp, hlt⟩ | hd | hlen)
        · exact absurd hg (h2 p hp)
        · have := h3 p hp
          omega
        · exact absurd h4 hd
        · omega
    | some reason =>
      rw [SetGroupPriorities_of_invalid env t l hne reason hv]
      refine ⟨?_, fun _ => ⟨rfl, reason, rfl⟩⟩
      constructor
      · intro _
        by_contra hno
        have hvalid : validatePriorities env l = none := by
          apply (validatePriorities_eq_none_iff env l).mpr
          refine ⟨?_, ?_, ?_, ?_⟩
          · by_contra h
            exact hno (Or.inr (Or.inr (Or.inr (by omega))))
          · intro p hp hg
            exact hno (Or.inl ⟨p, hp, hg⟩)
          · intro p hp
            by_contra h
            exact hno (Or.inr (Or.inl ⟨p, hp, by omega⟩))
          · by_contra h
            exact hno (Or.inr (Or.inr (Or.inl h)))
        rw [hvalid] at hv
        exact absurd hv (by simp)
      · intro _
        simp

/-- Examples for C13: the four rejections of the spec's validation scenario (an
empty group, priority 0, a group named twice, 33 groups for a bound of 32), each
leaving the token as it was, and an accepted list. -/
theorem SetGroupPriorities_error_iff_witness :
    (({ Group := "default" } : Token).SetGroupPriorities demoEnv
      [{ Group := "", Priority := 1 }]).2 ≠ none ∧
    (({ Group := "default" } : Token).SetGroupPriorities demoEnv
      [{ Group := "vip", Priority := 0 }]).2 ≠ none ∧
    (({ Group := "default" } : Token).SetGroupPriorities demoEnv
      [{ Group := "vip", Priority := 1 }, { Group := " vip", Priority := 2 }]).2 ≠ none ∧
    (({ Group := "default" } : Token).SetGroupPriorities demoEnv tooLongList).2 ≠ none ∧
    (({ Group := "default" } : Token).SetGroupPriorities demoEnv tooLongList).1 =
      { Group := "default" } ∧
    (({ Group := "default" } : Token).SetGroupPriorities demoEnv
      [{ Group := "vip", Priority := 1 }, { Group := "standard", Priority := 2 }]).2 = none ∧
    (((({ Group := "default" } : Token).SetGroupPriorities demoEnv
        [{ Group := "vip", Priority := 0 }]).2 ≠ none ↔
      (∃ p ∈ [({ Group := "vip", Priority := 0 } : GroupPriority)], TrimSpace p.Group = "") ∨
      (∃ p ∈ [({ Group := "vip", Priority := 0 } : GroupPriority)], p.Priority < 1) ∨
      ¬ ([({ Group := "vip", Priority := 0 } : GroupPriority)].map
        fun p => TrimSpace p.Group).Nodup ∨
      demoEnv.MaxGroupPriorities <
        [({ Group := "vip", Priority := 0 } : GroupPriority)].length) ∧
    ((({ Group := "default" } : Token).SetGroupPriorities demoEnv
        [{ Group := "vip", Priority := 0 }]).2 ≠ none →
      (({ Group := "default" } : Token).SetGroupPriorities demoEnv
        [{ Group := "vip", Priority := 0 }]).1 = { Group := "default" } ∧
      ∃ reason, (({ Group := "default" } : Token).SetGroupPriorities demoEnv
        [{ Group := "vip", Priority := 0 }]).2 =
          some (TokenError.InvalidPriorityList reason))) :=
  ⟨by decide, by decide, by decide, by decide, by decide, by decide,
    SetGroupPriorities_error_iff demoEnv { Group := "default" }
      [{ Group := "vip", Priority := 0 }]⟩

/-! ## C14: the primary group -/

/-- C14.  For every non-empty list `L` accepted by `SetGroupPriorities`,
`token.group` afterwards is the trimmed group name of the entry of `L` with the
numerically smallest priority, the first such entry in input order: every entry
before it has a strictly larger priority and every entry after it a priority at
least as large.  That entry, trimmed, is the first element of the stable-sorted
list. -/
theorem SetGroupPriorities_group
    (env : Env) (t : Token) (l : List GroupPriority)
    (hne : l ≠ [])
    (hok : (t.SetGroupPriorities env l).2 = none) :
    ∃ pre p post, l = pre ++ p :: post ∧
      (∀ q ∈ pre, p.Priority < q.Priority) ∧ (∀ q ∈ post, p.Priority ≤ q.Priority) ∧
      (t.SetGroupPriorities env l).1.Group = TrimSpace p.Group ∧
      (normalizePriorities l).head? =
        some { Group := TrimSpace p.Group, Priority := p.Priority } := by
  have hv := SetGroupPriorities_ok_valid env t l hne hok
  obtain ⟨first, rest, hn, hset⟩ := SetGroupPriorities_of_valid env t l hne hv
  obtain ⟨pre, p, post, hsplit, hpre, hpost, hhead⟩ := normalizePriorities_first l hne
  refine ⟨pre, p, post, hsplit, hpre, hpost, ?_, hhead⟩
  rw [hn] at hhead
  simp only [List.head?_cons, Option.some.injEq] at hhead
  rw [hset, hhead]

/-- Witness of C14: the round-trip scenario of the spec, after which `token.group`
is `vip`; and a tie, `b` and `a` both of priority 1, after which it is `b`. -/
theorem SetGroupPriorities_group_witness :
    scenarioList ≠ [] ∧
    (({} : Token).SetGroupPriorities codecEnv scenarioList).2 = none ∧
    (({} : Token).SetGroupPriorities codecEnv scenarioList).1.Group = "vip" ∧
    (({} : Token).SetGroupPriorities codecEnv
      [{ Group := "c", Priority := 2 }, { Group := "b", Priority := 1 },
       { Group := "a", Priority := 1 }]).1.Group = "b" ∧
    (∃ pre p post, scenarioList = pre ++ p :: post ∧
      (∀ q ∈ pre, p.Priority < q.Priority) ∧ (∀ q ∈ post, p.Priority ≤ q.Priority) ∧
      (({} : Token).SetGroupPriorities codecEnv scenarioList).1.Group = TrimSpace p.Group ∧
      (normalizePriorities scenarioList).head? =
        some { Group := TrimSpace p.Group, Priority := p.Priority }) :=
  ⟨by decide, by decide, by decide, by decide,
    SetGroupPriorities_group codecEnv {} scenarioList (by decide) (by decide)⟩

/-! ## C15: the empty list and the read fallbacks -/

/-- C15.  `SetGroupPriorities` on the empty list succeeds and sets `group_priorities`
to the empty string, every other field staying as it was.  For a token whose
`group_priorities` is empty, `GetGroupPriorities` returns the one-element list
`[(token.group, 1)]` when `token.group` is non-empty and the empty list when it
is empty; when `group_priorities` is non-empty and not parseable it returns the
error `MalformedPriorityList` and no list. -/
theorem SetGroupPriorities_empty_GetGroupPriorities (env : Env) (t : Token) :
    ((t.SetGroupPriorities env []).2 = none ∧
      (t.SetGroupPriorities env []).1 = { t with GroupPriorities := "" } ∧
      (t.SetGroupPriorities env []).1.GroupPriorities = "") ∧
    (t.GroupPriorities = "" → t.Group ≠ "" →
      t.GetGroupPriorities env = Except.ok [{ Group := t.Group, Priority := 1 }]) ∧
    (t.GroupPriorities = "" → t.Group = "" → t.GetGroupPriorities env = Except.ok []) ∧
    (t.GroupPriorities ≠ "" → env.Unmarshal t.GroupPriorities = none →
      t.GetGroupPriorities env = Except.error TokenError.MalformedPriorityList) := by
  refine ⟨?_, ?_, ?_, ?_⟩
  · rw [SetGroupPriorities_nil]
    exact ⟨rfl, rfl, rfl⟩
  · intro h1 h2
    unfold Token.GetGroupPriorities
    rw [if_pos h1, if_pos h2]
  · intro h1 h2
    unfold Token.GetGroupPriorities
    rw [if_pos h1, if_neg (by simpa using h2)]
  · intro h1 h2
    unfold Token.GetGroupPriorities
    rw [if_neg h1, h2]

/-- Examples for C15: a token of group `default` with the list `vip` stored.  The
empty list clears the stored list, the read then falls back to `default`; a token
without list and group reads as the empty list; a stored `invalid json` is
malformed. -/
theorem SetGroupPriorities_empty_GetGroupPriorities_witness :
    (({ Group := "default", GroupPriorities := "[vip:1]" } : Token).SetGroupPriorities
      codecEnv []).1 = { Group := "default", GroupPriorities := "" } ∧
    (({ Group := "default", GroupPriorities := "[vip:1]" } : Token).SetGroupPriorities
      codecEnv []).1.GetGroupPriorities codecEnv =
        Except.ok [{ Group := "default", Priority := 1 }] ∧
    ({} : Token).GetGroupPriorities codecEnv = Except.ok [] ∧
    ({ GroupPriorities := "invalid json" } : Token).GetGroupPriorities codecEnv =
      Except.error TokenError.MalformedPriorityList ∧
    ((({ Group := "default" } : Token).SetGroupPriorities codecEnv []).2 = none ∧
      (({ Group := "default" } : Token).SetGroupPriorities codecEnv []).1 =
        { ({ Group := "default" } : Token) with GroupPriorities := "" } ∧
      (({ Group := "default" } : Token).SetGroupPriorities codecEnv []).1.GroupPriorities =
        "") :=
  ⟨by decide, rfl, rfl, rfl,
    (SetGroupPriorities_empty_GetGroupPriorities codecEnv { Group := "default" }).1⟩

/-! ## Lemmas on the authorization gate -/

theorem ensureLoop_eq_none_iff (usable : List String) (groups : List String) :
    ensureLoop usable groups = none ↔ ∀ g ∈ groups, g ≠ "" → g ∈ usable := by
  induction groups with
  | nil => simp [ensureLoop]
  | cons g rest ih =>
    rw [ensureLoop]
    by_cases hg : g = ""
    · rw [if_pos hg, ih]
      constructor
      · intro h x hx hne
        rcases List.mem_cons.mp hx with rfl | hx
        · exact absurd hg hne
        · exact h x hx hne
      · intro h x hx hne
        exact h x (List.mem_cons_of_mem g hx) hne
    · rw [if_neg hg]
      by_cases hu : g ∈ usable
      · rw [if_neg (not_not.mpr hu), ih]
        constructor
        · intro h x hx hne
          rcases List.mem_cons.mp hx with rfl | hx
          · exact hu
          · exact h x hx hne
        · intro h x hx hne
          exact h x (List.mem_cons_of_mem g hx) hne
      · rw [if_pos hu]
        constructor
        · intro h
          exact absurd h (by simp)
        · intro h
          exact absurd (h g (List.mem_cons_self g rest) hg) hu

theorem ensureLoop_first_offender (usable : List String) (pre : List String) (g : String)
    (post : List String) (hpre : ∀ q ∈ pre, q = "" ∨ q ∈ usable) (hg : g ≠ "")
    (hu : g ∉ usable) :
    ensureLoop usable (pre ++ g :: post) = some ("无权访问分组: " ++ g) := by
  induction pre with
  | nil =>
    rw [List.nil_append, ensureLoop, if_neg hg, if_pos hu]
  | cons q rest ih =>
    rw [List.cons_append, ensureLoop]
    have ih2 := ih (fun x hx => hpre x (List.mem_cons_of_mem q hx))
    rcases hpre q (List.mem_cons_self q rest) with h | h
    · rw [if_pos h, ih2]
    · by_cases hq : q = ""
      · rw [if_pos hq, ih2]
      · rw [if_neg hq, if_neg (not_not.mpr h), ih2]

theorem ensureUserGroupsAccessible_eq (env : Env) (c : Context) (groups : List String) :
    ensureUserGroupsAccessible env c groups =
      ensureLoop (env.GetUserUsableGroups (getRequestUserGroup c)) groups := by
  unfold ensureUserGroupsAccessible
  cases groups with
  | nil => simp [ensureLoop]
  | cons g rest => simp

theorem collectLoop_append (a b : List GroupPriority) (acc : List String) :
    collectLoop (a ++ b) acc = collectLoop b (collectLoop a acc) := by
  induction a generalizing acc with
  | nil => rfl
  | cons p rest ih =>
    rw [List.cons_append, collectLoop, collectLoop]
    split
    · exact ih acc
    · split
      · exact ih acc
      · exact ih _

theorem collectLoop_extends (ps : List GroupPriority) (acc : List String) :
    ∃ more, collectLoop ps acc = acc ++ more := by
  induction ps generalizing acc with
  | nil => exact ⟨[], by simp [collectLoop]⟩
  | cons p rest ih =>
    rw [collectLoop]
    split
    · exact ih acc
    · split
      · exact ih acc
      · obtain ⟨more, hmore⟩ := ih (acc ++ [TrimSpace p.Group])
        exact ⟨TrimSpace p.Group :: more, by rw [hmore]; simp⟩

theorem mem_collectLoop (ps : List GroupPriority) (acc : List String) (g : String) :
    g ∈ collectLoop ps acc ↔ g ∈ acc ∨ (g ≠ "" ∧ ∃ p ∈ ps, TrimSpace p.Group = g) := by
  induction ps generalizing acc with
  | nil => simp [collectLoop]
  | cons p rest ih =>
    rw [collectLoop]
    by_cases h1 : TrimSpace p.Group = ""
    · rw [if_pos h1, ih]
      constructor
      · rintro (h | ⟨hne, q, hq, hqg⟩)
        · exact Or.inl h
        · exact Or.inr ⟨hne, q, List.mem_cons_of_mem p hq, hqg⟩
      · rintro (h | ⟨hne, q, hq, hqg⟩)
        · exact Or.inl h
        · rcases List.mem_cons.mp hq with rfl | hq
          · exact absurd (hqg ▸ h1) hne
          · exact Or.inr ⟨hne, q, hq, hqg⟩
    · rw [if_neg h1]
      by_cases h2 : TrimSpace p.Group ∈ acc
      · rw [if_pos h2, ih]
        constructor
        · rintro (h | ⟨hne, q, hq, hqg⟩)
          · exact Or.inl h
          · exact Or.inr ⟨hne, q, List.mem_cons_of_mem p hq, hqg⟩
        · rintro (h | ⟨hne, q, hq, hqg⟩)
          · exact Or.inl h
          · rcases List.mem_cons.mp hq with rfl | hq
            · exact Or.inl (hqg ▸ h2)
            · exact Or.inr ⟨hne, q, hq, hqg⟩
      · rw [if_neg h2, ih]
        constructor
        · rintro (h | ⟨hne, q, hq, hqg⟩)
          · rcases List.mem_append.mp h with h | h
            · exact Or.inl h
            · rw [List.mem_singleton] at h
              exact Or.inr ⟨h ▸ h1, p, List.mem_cons_self p rest, h.symm⟩
          · exact Or.inr ⟨hne, q, List.mem_cons_of_mem p hq, hqg⟩
        · rintro (h | ⟨hne, q, hq, hqg⟩)
          · exact Or.inl (List.mem_append_left _ h)
          · rcases List.mem_cons.mp hq with rfl | hq
            · exact Or.inl (List.mem_append_right _ (by simp [hqg]))
            · exact Or.inr ⟨hne, q, hq, hqg⟩

theorem mem_collectGroupsFromPriorities (ps : List GroupPriority) (g : String) :
    g ∈ collectGroupsFromPriorities ps ↔ g ≠ "" ∧ ∃ p ∈ ps, TrimSpace p.Group = g := by
  unfold collectGroupsFromPriorities
  rw [mem_collectLoop]
  simp

/-- The names collected from `pre ++ p :: post` when `p` is the first entry whose
trimmed name is non-empty and outside `usable`: the names collected from `pre`,
all inside `usable`, then the name of `p`. -/
theorem collectGroupsFromPriorities_first_offender (usable : List String)
    (pre : List GroupPriority) (p : GroupPriority) (post : List GroupPriority)
    (hpre : ∀ q ∈ pre, TrimSpace q.Group = "" ∨ TrimSpace q.Group ∈ usable)
    (hp : TrimSpace p.Group ≠ "") (hu : TrimSpace p.Group ∉ usable) :
    ∃ more, collectGroupsFromPriorities (pre ++ p :: post) =
        collectGroupsFromPriorities pre ++ TrimSpace p.Group :: more ∧
      ∀ g ∈ collectGroupsFromPriorities pre, g = "" ∨ g ∈ usable := by
  have hin : ∀ g ∈ collectGroupsFromPriorities pre, g = "" ∨ g ∈ usable := by
    intro g hg
    obtain ⟨_, q, hq, hqg⟩ := (mem_collectGroupsFromPriorities pre g).mp hg
    rcases hpre q hq with h | h
    · exact Or.inl (hqg ▸ h)
    · exact Or.inr (hqg ▸ h)
  have hnot : TrimSpace p.Group ∉ collectGroupsFromPriorities pre := by
    intro h
    rcases hin _ h with h2 | h2
    · exact hp h2
    · exact hu h2
  unfold collectGroupsFromPriorities at hnot ⊢
  rw [collectLoop_append, collectLoop]
  rw [if_neg hp, if_neg hnot]
  obtain ⟨more, hmore⟩ := collectLoop_extends post (collectLoop pre [] ++ [TrimSpace p.Group])
  refine ⟨more, ?_, hin⟩
  rw [hmore]
  simp

/-! ## C16: the authorization gate -/

theorem dropWhile_rdropWhile_dropWhile (p : Char → Bool) (l : List Char) :
    ((l.dropWhile p).rdropWhile p).dropWhile p = (l.dropWhile p).rdropWhile p := by
  obtain ⟨s, hs⟩ := List.rdropWhile_prefix p (l.dropWhile p)
  cases hl : (l.dropWhile p).rdropWhile p with
  | nil => rfl
  | cons b u =>
    have hhead := List.head?_dropWhile_not p l
    rw [← hs, hl] at hhead
    simp only [List.cons_append, List.head?_cons] at hhead
    rw [List.dropWhile_cons_of_neg (by simp [hhead])]

/-- Trimming a trimmed name changes nothing. -/
theorem TrimSpace_TrimSpace (s : String) : TrimSpace (TrimSpace s) = TrimSpace s := by
  unfold TrimSpace
  simp only
  rw [dropWhile_rdropWhile_dropWhile, List.rdropWhile_idempotent]

/-- The names collected from a priority array are trimmed. -/
theorem collectGroupsFromPriorities_trimmed (ps : List GroupPriority) (g : String)
    (hg : g ∈ collectGroupsFromPriorities ps) : TrimSpace g = g := by
  obtain ⟨_, p, _, rfl⟩ := (mem_collectGroupsFromPriorities ps g).mp hg
  exact TrimSpace_TrimSpace p.Group

theorem ensureLoop_filter (usable : List String) (groups : List String) :
    ensureLoop usable (groups.filter fun g => g ≠ "") = ensureLoop usable groups := by
  induction groups with
  | nil => rfl
  | cons g rest ih =>
    by_cases hg : g = ""
    · subst hg
      rw [List.filter_cons_of_neg (by simp), ih]
      simp [ensureLoop]
    · rw [List.filter_cons_of_pos (by simpa using hg)]
      rw [ensureLoop, ensureLoop, ih]

/-- C16.  For every user group and every list of group names as the gate
receives it (at each of its call sites the names are already trimmed),
`ensureUserGroupsAccessible` succeeds if and only if every non-empty trimmed name
of the list is in the user's usable set; empty entries are ignored, and the empty
list always succeeds.  The lists the handlers pass are of trimmed names: the
names collected from a priority array, for which the gate succeeds if and only if
every group of the array that is non-empty after trimming is, trimmed, in the
usable set, and the one trimmed `token.group`. -/
theorem ensureUserGroupsAccessible_iff (env : Env) (c : Context) :
    (∀ groups : List String, (∀ g ∈ groups, TrimSpace g = g) →
      (ensureUserGroupsAccessible env c groups = none ↔
        ∀ g ∈ groups, TrimSpace g ≠ "" →
          TrimSpace g ∈ env.GetUserUsableGroups (getRequestUserGroup c))) ∧
    (∀ priorities : List GroupPriority,
      (∀ g ∈ collectGroupsFromPriorities priorities, TrimSpace g = g) ∧
      (ensureUserGroupsAccessible env c (collectGroupsFromPriorities priorities) = none ↔
        ∀ p ∈ priorities, TrimSpace p.Group ≠ "" →
          TrimSpace p.Group ∈ env.GetUserUsableGroups (getRequestUserGroup c))) ∧
    (∀ group : String, TrimSpace (TrimSpace group) = TrimSpace group ∧
      (ensureUserGroupsAccessible env c [TrimSpace group] = none ↔
        (TrimSpace group ≠ "" →
          TrimSpace group ∈ env.GetUserUsableGroups (getRequestUserGroup c)))) ∧
    (∀ groups : List String,
      ensureUserGroupsAccessible env c (groups.filter fun g => g ≠ "") =
        ensureUserGroupsAccessible env c groups) ∧
    ensureUserGroupsAccessible env c [] = none := by
  refine ⟨?_, ?_, ?_, ?_, ?_⟩
  · intro groups htrim
    rw [ensureUserGroupsAccessible_eq, ensureLoop_eq_none_iff]
    constructor
    · intro h g hg hne
      rw [htrim g hg] at hne ⊢
      exact h g hg hne
    · intro h g hg hne
      have := h g hg (by rw [htrim g hg]; exact hne)
      rwa [htrim g hg] at this
  · intro priorities
    refine ⟨collectGroupsFromPriorities_trimmed priorities, ?_⟩
    rw [ensureUserGroupsAccessible_eq, ensureLoop_eq_none_iff]
    constructor
    · intro h p hp hne
      exact h _ ((mem_collectGroupsFromPriorities priorities _).mpr ⟨hne, p, hp, rfl⟩) hne
    · intro h g hg hne
      obtain ⟨_, p, hp, hpg⟩ := (mem_collectGroupsFromPriorities priorities g).mp hg
      rw [← hpg]
      exact h p hp (by rw [hpg]; exact hne)
  · intro group
    refine ⟨TrimSpace_TrimSpace group, ?_⟩
    rw [ensureUserGroupsAccessible_eq, ensureLoop_eq_none_iff]
    simp
  · intro groups
    rw [ensureUserGroupsAccessible_eq, ensureUserGroupsAccessible_eq, ensureLoop_filter]
  · rfl

/-- C16 at work, for a user of group `default`: the list `vip`, an empty entry,
`basic` passes the gate, the empty entry being ignored; a list with `ghost` does
not. -/
theorem ensureUserGroupsAccessible_iff_witness :
    (∀ g ∈ ["vip", "", "basic"], TrimSpace g = g) ∧
    ensureUserGroupsAccessible demoEnv demoRequestCtx ["vip", "", "basic"] = none ∧
    ensureUserGroupsAccessible demoEnv demoRequestCtx ["vip", "", "ghost"] =
      some "无权访问分组: ghost" ∧
    (ensureUserGroupsAccessible demoEnv demoRequestCtx ["vip", "", "basic"] = none ↔
      ∀ g ∈ ["vip", "", "basic"], TrimSpace g ≠ "" →
        TrimSpace g ∈ demoEnv.GetUserUsableGroups (getRequestUserGroup demoRequestCtx)) :=
  ⟨by decide, by decide, by decide,
   (ensureUserGroupsAccessible_iff demoEnv demoRequestCtx).1 ["vip", "", "basic"]
     (by decide)⟩

/-! ## C17: the first unauthorized group -/

theorem AddToken_of_name_ok (env : Env) (st : TokenStore) (c : Context)
    (tokenReq : TokenRequest) (hname : len tokenReq.Name ≤ 30) :
    AddToken env st c (Except.ok tokenReq) = addTokenBody env st c tokenReq := by
  unfold AddToken
  simp only
  rw [if_neg (by omega)]

/-- C17 (amended).  For an `AddToken` request that passed the name check (a name of
at most 30 bytes) and for which a key was generated: with a non-empty priority array in which some group, trimmed, is
non-empty and outside the user's usable set, the response is `success = false`
with the message "无权访问分组: " followed by the trimmed name of the first such
entry in input order, and nothing is written; with an empty array and a
`token.group` that is non-empty after trimming and outside the usable set, the
message names that group. -/
theorem AddToken_unauthorized
    (env : Env) (st : TokenStore) (c : Context) (tokenReq : TokenRequest) (key : String)
    (hname : len tokenReq.Name ≤ 30) (hkey : st.GenerateKey = Except.ok key) :
    ((∃ p ∈ tokenReq.GroupPrioritiesArray, TrimSpace p.Group ≠ "" ∧
        TrimSpace p.Group ∉ env.GetUserUsableGroups (getRequestUserGroup c)) →
      ∃ pre p post, tokenReq.GroupPrioritiesArray = pre ++ p :: post ∧
        (∀ q ∈ pre, TrimSpace q.Group = "" ∨
          TrimSpace q.Group ∈ env.GetUserUsableGroups (getRequestUserGroup c)) ∧
        TrimSpace p.Group ≠ "" ∧
        TrimSpace p.Group ∉ env.GetUserUsableGroups (getRequestUserGroup c) ∧
        AddToken env st c (Except.ok tokenReq) =
          { response := { success := false, message := "无权访问分组: " ++ TrimSpace p.Group },
            writes := [] }) ∧
    (tokenReq.GroupPrioritiesArray = [] → TrimSpace tokenReq.Group ≠ "" →
      TrimSpace tokenReq.Group ∉ env.GetUserUsableGroups (getRequestUserGroup c) →
      AddToken env st c (Except.ok tokenReq) =
        { response := { success := false,
                        message := "无权访问分组: " ++ TrimSpace tokenReq.Group },
          writes := [] }) := by
  have hbody := AddToken_of_name_ok env st c tokenReq hname
  constructor
  · intro hex
    obtain ⟨pre, p, post, hsplit, hpre, hp⟩ :=
      exists_first_split (fun p : GroupPriority => TrimSpace p.Group ≠ "" ∧
        TrimSpace p.Group ∉ env.GetUserUsableGroups (getRequestUserGroup c))
        tokenReq.GroupPrioritiesArray hex
    have hpre2 : ∀ q ∈ pre, TrimSpace q.Group = "" ∨
        TrimSpace q.Group ∈ env.GetUserUsableGroups (getRequestUserGroup c) := by
      intro q hq
      by_cases h1 : TrimSpace q.Group = ""
      · exact Or.inl h1
      · right
        by_contra h2
        exact hpre q hq ⟨h1, h2⟩
    refine ⟨pre, p, post, hsplit, hpre2, hp.1, hp.2, ?_⟩
    obtain ⟨more, hcollect, hin⟩ := collectGroupsFromPriorities_first_offender
      (env.GetUserUsableGroups (getRequestUserGroup c)) pre p post hpre2 hp.1 hp.2
    have hens : ensureUserGroupsAccessible env c
        (collectGroupsFromPriorities tokenReq.GroupPrioritiesArray) =
        some ("无权访问分组: " ++ TrimSpace p.Group) := by
      rw [ensureUserGroupsAccessible_eq, hsplit, hcollect]
      exact ensureLoop_first_offender _ _ _ _ hin hp.1 hp.2
    have hlen : tokenReq.GroupPrioritiesArray.length > 0 := by
      rw [hsplit]
      simp
    rw [hbody]
    unfold addTokenBody
    rw [hkey]
    simp only
    rw [if_pos hlen, hens]
    rfl
  · intro harr hg hu
    have hens : ensureUserGroupsAccessible env c [TrimSpace tokenReq.Group] =
        some ("无权访问分组: " ++ TrimSpace tokenReq.Group) := by
      rw [ensureUserGroupsAccessible_eq]
      exact ensureLoop_first_offender _ [] _ [] (by simp) hg hu
    rw [hbody]
    unfold addTokenBody
    rw [hkey]
    simp only
    rw [if_neg (by rw [harr]; simp), if_pos hg, hens]
    rfl

/-- Witness of C17: the two requests of the repository's tests, by a user of group
`default` (the array holding `unknown-group` alone, and no array with
`token.group = unknown-group`), and an array where `vip` is allowed, the blank
entry ignored, and `ghost`, given with surrounding blanks, the first offender. -/
theorem AddToken_unauthorized_witness :
    len ghostRequest.Name ≤ 30 ∧
    demoTokenStore.GenerateKey = Except.ok "sk-demo" ∧
    AddToken demoEnv demoTokenStore demoRequestCtx (Except.ok unknownGroupRequest) =
      { response := { success := false, message := "无权访问分组: unknown-group" },
        writes := [] } ∧
    AddToken demoEnv demoTokenStore demoRequestCtx (Except.ok legacyRequest) =
      { response := { success := false, message := "无权访问分组: unknown-group" },
        writes := [] } ∧
    AddToken demoEnv demoTokenStore demoRequestCtx (Except.ok ghostRequest) =
      { response := { success := false, message := "无权访问分组: ghost" }, writes := [] } ∧
    (((∃ p ∈ ghostRequest.GroupPrioritiesArray, TrimSpace p.Group ≠ "" ∧
        TrimSpace p.Group ∉ demoEnv.GetUserUsableGroups (getRequestUserGroup demoRequestCtx)) →
      ∃ pre p post, ghostRequest.GroupPrioritiesArray = pre ++ p :: post ∧
        (∀ q ∈ pre, TrimSpace q.Group = "" ∨
          TrimSpace q.Group ∈ demoEnv.GetUserUsableGroups (getRequestUserGroup demoRequestCtx)) ∧
        TrimSpace p.Group ≠ "" ∧
        TrimSpace p.Group ∉ demoEnv.GetUserUsableGroups (getRequestUserGroup demoRequestCtx) ∧
        AddToken demoEnv demoTokenStore demoRequestCtx (Except.ok ghostRequest) =
          { response := { success := false, message := "无权访问分组: " ++ TrimSpace p.Group },
            writes := [] }) ∧
    (ghostRequest.GroupPrioritiesArray = [] → TrimSpace ghostRequest.Group ≠ "" →
      TrimSpace ghostRequest.Group ∉
        demoEnv.GetUserUsableGroups (getRequestUserGroup demoRequestCtx) →
      AddToken demoEnv demoTokenStore demoRequestCtx (Except.ok ghostRequest) =
        { response := { success := false,
                        message := "无权访问分组: " ++ TrimSpace ghostRequest.Group },
          writes := [] })) :=
  ⟨by decide, rfl, by decide, by decide, by decide,
    AddToken_unauthorized demoEnv demoTokenStore demoRequestCtx ghostRequest "sk-demo"
      (by decide) rfl⟩

/-- C17 as stated fails: a request whose array names the unauthorized group
`unknown-group` and whose name is the 87-byte name of the repository's length
test is answered by the name check, which comes first, with "令牌名称过长"; and
the repository's unauthorized-array request, when no key can be generated, is
answered "生成令牌失败".  Neither message names the group. -/
theorem AddToken_unauthorized_after_name_check :
    (∃ p ∈ longNameUnknownRequest.GroupPrioritiesArray, TrimSpace p.Group ≠ "" ∧
      TrimSpace p.Group ∉ demoEnv.GetUserUsableGroups (getRequestUserGroup demoRequestCtx)) ∧
    AddToken demoEnv demoTokenStore demoRequestCtx (Except.ok longNameUnknownRequest) =
      reject "令牌名称过长" ∧
    (AddToken demoEnv demoTokenStore demoRequestCtx
      (Except.ok longNameUnknownRequest)).response.message ≠ "无权访问分组: unknown-group" ∧
    AddToken demoEnv noKeyTokenStore demoRequestCtx (Except.ok unknownGroupRequest) =
      reject "生成令牌失败" ∧
    (AddToken demoEnv noKeyTokenStore demoRequestCtx
      (Except.ok unknownGroupRequest)).response.message ≠ "无权访问分组: unknown-group" := by
  refine ⟨⟨{ Group := "unknown-group", Priority := 1 }, by decide, by decide, by decide⟩,
    by decide, by decide, by decide, by decide⟩

/-! ## Lemmas on the handlers -/

theorem UpdateToken_of_found (env : Env) (st : TokenStore) (c : Context) (statusOnly : String)
    (tokenReq : TokenRequest) (cleanToken : Token) (hname : len tokenReq.Name ≤ 30)
    (hfound : st.GetTokenByIds tokenReq.Id (c.GetInt "id") = Except.ok cleanToken) :
    UpdateToken env st c statusOnly (Except.ok tokenReq) =
      match enableGuards st.GetTimestamp tokenReq.Status cleanToken with
      | some message => reject message
      | none => updateTokenBody env st c statusOnly tokenReq cleanToken := by
  unfold UpdateToken
  simp only
  rw [if_neg (by omega), hfound]

theorem ensureLoop_message (usable : List String) (groups : List String) (err : String)
    (h : ensureLoop usable groups = some err) : ∃ g, err = "无权访问分组: " ++ g := by
  induction groups with
  | nil => simp [ensureLoop] at h
  | cons g rest ih =>
    rw [ensureLoop] at h
    split at h
    · exact ih h
    · split at h
      · exact ⟨g, (Option.some.inj h).symm⟩
      · exact ih h

theorem ensureUserGroupsAccessible_message (env : Env) (c : Context) (groups : List String)
    (err : String) (h : ensureUserGroupsAccessible env c groups = some err) :
    ∃ g, err = "无权访问分组: " ++ g := by
  rw [ensureUserGroupsAccessible_eq] at h
  exact ensureLoop_message _ _ _ h

theorem SetGroupPriorities_error_of_invalid (env : Env) (t : Token) (l : List GroupPriority)
    (hne : l ≠ []) (hv : validatePriorities env l ≠ none) :
    ∃ err, (t.SetGroupPriorities env l) = (t, some err) := by
  obtain ⟨reason, hr⟩ := Option.ne_none_iff_exists'.mp hv
  exact ⟨_, SetGroupPriorities_of_invalid env t l hne reason hr⟩

/-- How the part of `AddToken` after the name check ends: with a rejection that
writes nothing (no key, an unauthorized group, an invalid list), or with the call
of `Insert`. -/
theorem addTokenBody_cases (env : Env) (st : TokenStore) (c : Context)
    (tokenReq : TokenRequest) :
    addTokenBody env st c tokenReq = reject "生成令牌失败" ∨
    (∃ g, addTokenBody env st c tokenReq = reject ("无权访问分组: " ++ g)) ∨
    (∃ e, addTokenBody env st c tokenReq = reject ("分组优先级设置失败: " ++ e)) ∨
    (∃ t, addTokenBody env st c tokenReq = callInsert st t) := by
  unfold addTokenBody
  cases hk : st.GenerateKey with
  | error e => exact Or.inl rfl
  | ok key =>
    right
    simp only
    split
    · split
      · rename_i err herr
        obtain ⟨g, hg⟩ := ensureUserGroupsAccessible_message env c _ err herr
        exact Or.inl ⟨g, by rw [hg]⟩
      · split
        · rename_i err _
          exact Or.inr (Or.inl ⟨err.Error, rfl⟩)
        · rename_i t _
          exact Or.inr (Or.inr ⟨t, rfl⟩)
    · split
      · split
        · rename_i err herr
          obtain ⟨g, hg⟩ := ensureUserGroupsAccessible_message env c _ err herr
          exact Or.inl ⟨g, by rw [hg]⟩
        · exact Or.inr (Or.inr ⟨_, rfl⟩)
      · exact Or.inr (Or.inr ⟨_, rfl⟩)

/-- How the part of `UpdateToken` after the guards ends: with a rejection that
writes nothing (an unauthorized group, an invalid list), or with the call of
`Update`. -/
theorem updateTokenBody_cases (env : Env) (st : TokenStore) (c : Context)
    (statusOnly : String) (tokenReq : TokenRequest) (cleanToken : Token) :
    (∃ g, updateTokenBody env st c statusOnly tokenReq cleanToken =
      reject ("无权访问分组: " ++ g)) ∨
    (∃ e, updateTokenBody env st c statusOnly tokenReq cleanToken =
      reject ("分组优先级设置失败: " ++ e)) ∨
    (∃ t, updateTokenBody env st c statusOnly tokenReq cleanToken = callUpdate st t) := by
  unfold updateTokenBody
  split
  · exact Or.inr (Or.inr ⟨_, rfl⟩)
  · simp only
    split
    · split
      · rename_i err herr
        obtain ⟨g, hg⟩ := ensureUserGroupsAccessible_message env c _ err herr
        exact Or.inl ⟨g, by rw [hg]⟩
      · split
        · rename_i err _
          exact Or.inr (Or.inl ⟨err.Error, rfl⟩)
        · rename_i t _
          exact Or.inr (Or.inr ⟨t, rfl⟩)
    · split
      · split
        · split
          · rename_i err herr
            obtain ⟨g, hg⟩ := ensureUserGroupsAccessible_message env c _ err herr
            exact Or.inl ⟨g, by rw [hg]⟩
          · exact Or.inr (Or.inr ⟨_, rfl⟩)
        · exact Or.inr (Or.inr ⟨_, rfl⟩)
      · exact Or.inr (Or.inr ⟨_, rfl⟩)

theorem enableGuards_message (now : Int) (status : Int) (cleanToken : Token) (message : String)
    (h : enableGuards now status cleanToken = some message) :
    message = "令牌已过期，无法启用，请先修改令牌过期时间，或者设置为永不过期" ∨
    message = "令牌可用额度已用尽，无法启用，请先修改令牌剩余额度，或者设置为无限额度" := by
  unfold enableGuards at h
  split at h
  · split at h
    · exact Or.inl (Option.some.inj h).symm
    · split at h
      · exact Or.inr (Option.some.inj h).symm
      · simp at h
  · simp at h

theorem callInsert_writes (st : TokenStore) (t : Token) :
    (callInsert st t).writes = [WriteEvent.Insert t] ∧
    ((callInsert st t).response.success = false → st.Insert t ≠ none) ∧
    (∀ err, st.Insert t = some err → (callInsert st t).response.message = err) ∧
    (st.Insert t = none → (callInsert st t).response.message = "") := by
  unfold callInsert
  cases h : st.Insert t with
  | none => simp
  | some err => simp [ApiError]

theorem callUpdate_writes (st : TokenStore) (t : Token) :
    (callUpdate st t).writes = [WriteEvent.Update t] ∧
    ((callUpdate st t).response.success = false → st.Update t ≠ none) ∧
    (∀ err, st.Update t = some err → (callUpdate st t).response.message = err) ∧
    (st.Update t = none → (callUpdate st t).response.message = "") := by
  unfold callUpdate
  cases h : st.Update t with
  | none => simp
  | some err => simp [ApiError]

/-! ## C18: validation failures write nothing -/

theorem addTokenBody_validation (env : Env) (st : TokenStore) (c : Context)
    (tokenReq : TokenRequest)
    (h : (tokenReq.GroupPrioritiesArray ≠ [] ∧
        ensureUserGroupsAccessible env c
          (collectGroupsFromPriorities tokenReq.GroupPrioritiesArray) ≠ none) ∨
      (tokenReq.GroupPrioritiesArray ≠ [] ∧
        validatePriorities env tokenReq.GroupPrioritiesArray ≠ none) ∨
      (tokenReq.GroupPrioritiesArray = [] ∧ TrimSpace tokenReq.Group ≠ "" ∧
        ensureUserGroupsAccessible env c [TrimSpace tokenReq.Group] ≠ none)) :
    ∃ message, addTokenBody env st c tokenReq = reject message := by
  unfold addTokenBody
  cases hk : st.GenerateKey with
  | error e => exact ⟨_, rfl⟩
  | ok key =>
    simp only
    rcases h with ⟨hne, hens⟩ | ⟨hne, hval⟩ | ⟨hnil, hg, hens⟩
    · rw [if_pos (List.length_pos.mpr hne)]
      obtain ⟨err, herr⟩ := Option.ne_none_iff_exists'.mp hens
      rw [herr]
      exact ⟨_, rfl⟩
    · rw [if_pos (List.length_pos.mpr hne)]
      cases hens : ensureUserGroupsAccessible env c
          (collectGroupsFromPriorities tokenReq.GroupPrioritiesArray) with
      | some err => exact ⟨_, rfl⟩
      | none =>
        simp only
        obtain ⟨err, herr⟩ := SetGroupPriorities_error_of_invalid env _
          tokenReq.GroupPrioritiesArray hne hval
        rw [herr]
        exact ⟨_, rfl⟩
    · rw [if_neg (by rw [hnil]; simp), if_pos hg]
      obtain ⟨err, herr⟩ := Option.ne_none_iff_exists'.mp hens
      rw [herr]
      exact ⟨_, rfl⟩

theorem updateTokenBody_validation (env : Env) (st : TokenStore) (c : Context)
    (tokenReq : TokenRequest) (cleanToken : Token)
    (h : (tokenReq.GroupPrioritiesArray ≠ [] ∧
        ensureUserGroupsAccessible env c
          (collectGroupsFromPriorities tokenReq.GroupPrioritiesArray) ≠ none) ∨
      (tokenReq.GroupPrioritiesArray ≠ [] ∧
        validatePriorities env tokenReq.GroupPrioritiesArray ≠ none) ∨
      (tokenReq.GroupPrioritiesArray = [] ∧ tokenReq.GroupPriorities = "" ∧
        TrimSpace tokenReq.Group ≠ "" ∧
        ensureUserGroupsAccessible env c [TrimSpace tokenReq.Group] ≠ none)) :
    ∃ message, updateTokenBody env st c "" tokenReq cleanToken = reject message := by
  unfold updateTokenBody
  rw [if_neg (by simp)]
  simp only
  rcases h with ⟨hne, hens⟩ | ⟨hne, hval⟩ | ⟨hnil, hclear, hg, hens⟩
  · rw [if_pos (List.length_pos.mpr hne)]
    obtain ⟨err, herr⟩ := Option.ne_none_iff_exists'.mp hens
    rw [herr]
    exact ⟨_, rfl⟩
  · rw [if_pos (List.length_pos.mpr hne)]
    cases hens : ensureUserGroupsAccessible env c
        (collectGroupsFromPriorities tokenReq.GroupPrioritiesArray) with
    | some err => exact ⟨_, rfl⟩
    | none =>
      simp only
      obtain ⟨err, herr⟩ := SetGroupPriorities_error_of_invalid env _
        tokenReq.GroupPrioritiesArray hne hval
      rw [herr]
      exact ⟨_, rfl⟩
  · rw [if_neg (by rw [hnil]; simp), if_pos hclear, if_pos hg]
    obtain ⟨err, herr⟩ := Option.ne_none_iff_exists'.mp hens
    rw [herr]
    exact ⟨_, rfl⟩

/-- C18.  Whenever `AddToken` or `UpdateToken` answers `success = false` because of
a validation failure, nothing is written.  For `AddToken`: a name that is too
long, an unauthorized group (in the array, or `token.group` when there is no
array) or an invalid priority array gives `success = false` and no call of
`Insert`.  For `UpdateToken` on a token that was found: a name that is too long,
an enable-transition guard that rejects, or, on a full update, an unauthorized
group or an invalid priority array gives `success = false` and no call of
`Update`.  In general a response with `success = false` comes with no write at
all, or with the one call of `Insert` (of `Update`) whose own error is the
failure. -/
theorem validation_failure_writes_nothing
    (env : Env) (st : TokenStore) (c : Context) (tokenReq : TokenRequest) :
    ((len tokenReq.Name > 30 ∨
        (tokenReq.GroupPrioritiesArray ≠ [] ∧
          ensureUserGroupsAccessible env c
            (collectGroupsFromPriorities tokenReq.GroupPrioritiesArray) ≠ none) ∨
        (tokenReq.GroupPrioritiesArray ≠ [] ∧
          validatePriorities env tokenReq.GroupPrioritiesArray ≠ none) ∨
        (tokenReq.GroupPrioritiesArray = [] ∧ TrimSpace tokenReq.Group ≠ "" ∧
          ensureUserGroupsAccessible env c [TrimSpace tokenReq.Group] ≠ none)) →
      (AddToken env st c (Except.ok tokenReq)).response.success = false ∧
      (AddToken env st c (Except.ok tokenReq)).writes = []) ∧
    (∀ body, (AddToken env st c body).response.success = false →
      (AddToken env st c body).writes = [] ∨
      ∃ t, (AddToken env st c body).writes = [WriteEvent.Insert t] ∧ st.Insert t ≠ none) ∧
    (∀ statusOnly cleanToken,
      st.GetTokenByIds tokenReq.Id (c.GetInt "id") = Except.ok cleanToken →
      (len tokenReq.Name > 30 ∨
        enableGuards st.GetTimestamp tokenReq.Status cleanToken ≠ none ∨
        (statusOnly = "" ∧ tokenReq.GroupPrioritiesArray ≠ [] ∧
          ensureUserGroupsAccessible env c
            (collectGroupsFromPriorities tokenReq.GroupPrioritiesArray) ≠ none) ∨
        (statusOnly = "" ∧ tokenReq.GroupPrioritiesArray ≠ [] ∧
          validatePriorities env tokenReq.GroupPrioritiesArray ≠ none) ∨
        (statusOnly = "" ∧ tokenReq.GroupPrioritiesArray = [] ∧
          tokenReq.GroupPriorities = "" ∧ TrimSpace tokenReq.Group ≠ "" ∧
          ensureUserGroupsAccessible env c [TrimSpace tokenReq.Group] ≠ none)) →
      (UpdateToken env st c statusOnly (Except.ok tokenReq)).response.success = false ∧
      (UpdateToken env st c statusOnly (Except.ok tokenReq)).writes = []) ∧
    (∀ statusOnly body, (UpdateToken env st c statusOnly body).response.success = false →
      (UpdateToken env st c statusOnly body).writes = [] ∨
      ∃ t, (UpdateToken env st c statusOnly body).writes = [WriteEvent.Update t] ∧
        st.Update t ≠ none) := by
  refine ⟨?_, ?_, ?_, ?_⟩
  · intro h
    by_cases hlen : len tokenReq.Name > 30
    · unfold AddToken
      simp only
      rw [if_pos hlen]
      exact ⟨rfl, rfl⟩
    · rw [AddToken_of_name_ok env st c tokenReq (by omega)]
      have h2 := h.resolve_left hlen
      obtain ⟨message, hm⟩ := addTokenBody_validation env st c tokenReq h2
      rw [hm]
      exact ⟨rfl, rfl⟩
  · intro body hfail
    cases body with
    | error e => exact Or.inl rfl
    | ok req =>
      by_cases hlen : len req.Name > 30
      · left
        unfold AddToken
        simp only
        rw [if_pos hlen]
        rfl
      · rw [AddToken_of_name_ok env st c req (by omega)] at hfail ⊢
        rcases addTokenBody_cases env st c req with h | ⟨g, h⟩ | ⟨e, h⟩ | ⟨t, h⟩
        · rw [h]; exact Or.inl rfl
        · rw [h]; exact Or.inl rfl
        · rw [h]; exact Or.inl rfl
        · rw [h] at hfail ⊢
          exact Or.inr ⟨t, (callInsert_writes st t).1, (callInsert_writes st t).2.1 hfail⟩
  · intro statusOnly cleanToken hfound h
    by_cases hlen : len tokenReq.Name > 30
    · unfold UpdateToken
      simp only
      rw [if_pos hlen]
      exact ⟨rfl, rfl⟩
    · rw [UpdateToken_of_found env st c statusOnly tokenReq cleanToken (by omega) hfound]
      cases hguard : enableGuards st.GetTimestamp tokenReq.Status cleanToken with
      | some message => exact ⟨rfl, rfl⟩
      | none =>
        simp only
        rcases h with h | h | ⟨hs, h⟩ | ⟨hs, h⟩ | ⟨hs, h⟩
        · exact absurd h hlen
        · exact absurd hguard h
        · subst hs
          obtain ⟨message, hm⟩ :=
            updateTokenBody_validation env st c tokenReq cleanToken (Or.inl h)
          rw [hm]
          exact ⟨rfl, rfl⟩
        · subst hs
          obtain ⟨message, hm⟩ :=
            updateTokenBody_validation env st c tokenReq cleanToken (Or.inr (Or.inl h))
          rw [hm]
          exact ⟨rfl, rfl⟩
        · subst hs
          obtain ⟨message, hm⟩ :=
            updateTokenBody_validation env st c tokenReq cleanToken (Or.inr (Or.inr h))
          rw [hm]
          exact ⟨rfl, rfl⟩
  · intro statusOnly body hfail
    cases body with
    | error e => exact Or.inl rfl
    | ok req =>
      by_cases hlen : len req.Name > 30
      · left
        unfold UpdateToken
        simp only
        rw [if_pos hlen]
        rfl
      · cases hfound : st.GetTokenByIds req.Id (c.GetInt "id") with
        | error e =>
          left
          unfold UpdateToken
          simp only
          rw [if_neg hlen, hfound]
        | ok cleanToken =>
          rw [UpdateToken_of_found env st c statusOnly req cleanToken (by omega) hfound]
            at hfail ⊢
          cases hguard : enableGuards st.GetTimestamp req.Status cleanToken with
          | some message => exact Or.inl rfl
          | none =>
            rw [hguard] at hfail
            simp only at hfail ⊢
            rcases updateTokenBody_cases env st c statusOnly req cleanToken with
              ⟨g, h⟩ | ⟨e, h⟩ | ⟨t, h⟩
            · rw [h]; exact Or.inl rfl
            · rw [h]; exact Or.inl rfl
            · rw [h] at hfail ⊢
              exact Or.inr ⟨t, (callUpdate_writes st t).1, (callUpdate_writes st t).2.1 hfail⟩

/-- Examples for C18: the spec's authorization scenario (a user whose usable set
does not hold `unknown-group` creates a token with that group: rejected, nothing
written), an invalid array, an update stopped by the expiry guard, and an accepted
request, which is the only one that reaches `Insert`. -/
theorem validation_failure_writes_nothing_witness :
    AddToken demoEnv demoTokenStore demoRequestCtx (Except.ok unknownGroupRequest) =
      { response := { success := false, message := "无权访问分组: unknown-group" },
        writes := [] } ∧
    (AddToken demoEnv demoTokenStore demoRequestCtx
      (Except.ok { Name := "test-token",
                   GroupPrioritiesArray := [{ Group := "vip", Priority := 0 }] })).writes =
      [] ∧
    (UpdateToken demoEnv demoTokenStore demoRequestCtx ""
      (Except.ok { Id := 7, Name := "old", Status := TokenStatusEnabled })).writes = [] ∧
    (AddToken demoEnv demoTokenStore demoRequestCtx
      (Except.ok { Name := "test-token", Group := "vip" })).writes =
      [WriteEvent.Insert
        { UserId := 1, Name := "test-token", Key := "sk-demo", CreatedTime := 1000,
          AccessedTime := 1000, Group := "vip" }] ∧
    (∀ body, (AddToken demoEnv demoTokenStore demoRequestCtx body).response.success = false →
      (AddToken demoEnv demoTokenStore demoRequestCtx body).writes = [] ∨
      ∃ t, (AddToken demoEnv demoTokenStore demoRequestCtx body).writes =
          [WriteEvent.Insert t] ∧ demoTokenStore.Insert t ≠ none) :=
  ⟨by decide, by decide, by decide, by decide,
    (validation_failure_writes_nothing demoEnv demoTokenStore demoRequestCtx
      unknownGroupRequest).2.1⟩

/-! ## C19: the name length check -/

theorem unauthorized_ne_name_message (g : String) : "无权访问分组: " ++ g ≠ "令牌名称过长" := by
  intro h
  have h2 := congrArg String.data h
  simp at h2

theorem invalid_ne_name_message (e : String) : "分组优先级设置失败: " ++ e ≠ "令牌名称过长" := by
  intro h
  have h2 := congrArg String.data h
  simp at h2

/-- C19 (amended).  `AddToken` and `UpdateToken` reject a request by the name check,
with the message "令牌名称过长" and before anything else is done, exactly when the
token name is longer than 30 bytes (Go's `len` of the string, its UTF-8 encoding),
not 30 characters.  A name of at most 30 bytes is never rejected for its length:
the handlers then answer with that text only if the token store itself returned
it as the text of an error. -/
theorem name_length_check
    (env : Env) (st : TokenStore) (c : Context) (statusOnly : String)
    (tokenReq : TokenRequest) :
    (len tokenReq.Name > 30 →
      AddToken env st c (Except.ok tokenReq) = reject "令牌名称过长" ∧
      UpdateToken env st c statusOnly (Except.ok tokenReq) = reject "令牌名称过长") ∧
    (len tokenReq.Name ≤ 30 →
      ((AddToken env st c (Except.ok tokenReq)).response.message = "令牌名称过长" →
        ∃ t, (AddToken env st c (Except.ok tokenReq)).writes = [WriteEvent.Insert t] ∧
          st.Insert t = some "令牌名称过长") ∧
      ((UpdateToken env st c statusOnly (Except.ok tokenReq)).response.message =
          "令牌名称过长" →
        st.GetTokenByIds tokenReq.Id (c.GetInt "id") = Except.error "令牌名称过长" ∨
        ∃ t, (UpdateToken env st c statusOnly (Except.ok tokenReq)).writes =
            [WriteEvent.Update t] ∧ st.Update t = some "令牌名称过长")) := by
  constructor
  · intro hlen
    constructor
    · unfold AddToken
      simp only
      rw [if_pos hlen]
    · unfold UpdateToken
      simp only
      rw [if_pos hlen]
  · intro hlen
    constructor
    · rw [AddToken_of_name_ok env st c tokenReq hlen]
      intro hmsg
      rcases addTokenBody_cases env st c tokenReq with h | ⟨g, h⟩ | ⟨e, h⟩ | ⟨t, h⟩
      · rw [h] at hmsg
        exact absurd hmsg (by decide)
      · rw [h] at hmsg
        exact absurd hmsg (unauthorized_ne_name_message g)
      · rw [h] at hmsg
        exact absurd hmsg (invalid_ne_name_message e)
      · rw [h] at hmsg ⊢
        refine ⟨t, (callInsert_writes st t).1, ?_⟩
        cases hins : st.Insert t with
        | none =>
          rw [(callInsert_writes st t).2.2.2 hins] at hmsg
          exact absurd hmsg (by decide)
        | some err =>
          rw [(callInsert_writes st t).2.2.1 err hins] at hmsg
          rw [hmsg]
    · intro hmsg
      cases hfound : st.GetTokenByIds tokenReq.Id (c.GetInt "id") with
      | error e =>
        left
        unfold UpdateToken at hmsg
        simp only at hmsg
        rw [if_neg (by omega), hfound] at hmsg
        simp only [ApiError] at hmsg
        rw [hmsg]
      | ok cleanToken =>
        right
        rw [UpdateToken_of_found env st c statusOnly tokenReq cleanToken hlen hfound]
          at hmsg ⊢
        cases hguard : enableGuards st.GetTimestamp tokenReq.Status cleanToken with
        | some message =>
          rw [hguard] at hmsg
          simp only [reject] at hmsg
          rcases enableGuards_message _ _ _ _ hguard with h | h
          · rw [h] at hmsg
            exact absurd hmsg (by decide)
          · rw [h] at hmsg
            exact absurd hmsg (by decide)
        | none =>
          rw [hguard] at hmsg
          simp only at hmsg ⊢
          rcases updateTokenBody_cases env st c statusOnly tokenReq cleanToken with
            ⟨g, h⟩ | ⟨e, h⟩ | ⟨t, h⟩
          · rw [h] at hmsg
            exact absurd hmsg (unauthorized_ne_name_message g)
          · rw [h] at hmsg
            exact absurd hmsg (invalid_ne_name_message e)
          · rw [h] at hmsg ⊢
            refine ⟨t, (callUpdate_writes st t).1, ?_⟩
            cases hupd : st.Update t with
            | none =>
              rw [(callUpdate_writes st t).2.2.2 hupd] at hmsg
              exact absurd hmsg (by decide)
            | some err =>
              rw [(callUpdate_writes st t).2.2.1 err hupd] at hmsg
              rw [hmsg]

/-- Examples for C19: a name of 30 ASCII characters passes the check, a name of 31
does not, and a name of 11 Chinese characters (33 bytes) does not either. -/
theorem name_length_check_witness :
    (AddToken demoEnv demoTokenStore demoRequestCtx
      (Except.ok { Name := "123456789012345678901234567890" })).response.success = true ∧
    AddToken demoEnv demoTokenStore demoRequestCtx
      (Except.ok { Name := "1234567890123456789012345678901" }) = reject "令牌名称过长" ∧
    "令牌名称过长令牌名称过长".length = 12 ∧
    AddToken demoEnv demoTokenStore demoRequestCtx
      (Except.ok { Name := "令牌名称过长令牌名称过长" }) = reject "令牌名称过长" ∧
    (len ({ Name := "1234567890123456789012345678901" } : TokenRequest).Name > 30 →
      AddToken demoEnv demoTokenStore demoRequestCtx
        (Except.ok { Name := "1234567890123456789012345678901" }) = reject "令牌名称过长" ∧
      UpdateToken demoEnv demoTokenStore demoRequestCtx ""
        (Except.ok { Name := "1234567890123456789012345678901" }) = reject "令牌名称过长") :=
  ⟨by decide, by decide, by decide, by decide,
    (name_length_check demoEnv demoTokenStore demoRequestCtx ""
      { Name := "1234567890123456789012345678901" }).1⟩

/-- Counterexample to C19 as stated: the name of the repository's own length test
has 29 characters, at most 30, and both handlers reject it with "令牌名称过长",
because it is 87 bytes long. -/
theorem name_length_counts_bytes :
    longChineseName.length = 29 ∧
    len longChineseName = 87 ∧
    AddToken demoEnv demoTokenStore demoRequestCtx (Except.ok { Name := longChineseName }) =
      { response := { success := false, message := "令牌名称过长" }, writes := [] } ∧
    UpdateToken demoEnv demoTokenStore demoRequestCtx ""
        (Except.ok { Id := 10, Name := longChineseName }) =
      { response := { success := false, message := "令牌名称过长" }, writes := [] } := by
  refine ⟨?_, ?_, ?_, ?_⟩ <;> decide

/-! ## C20: the enable-transition guards -/

/-- C20.  For an `UpdateToken` request that passed the name check, on a token that
was found, and whose target status is enabled: the enable-transition guards reject
it if and only if the stored token is expired with `expired_time` different from
-1 and not later than the current time, or the stored token is exhausted with
`remain_quota ≤ 0` and `unlimited_quota` false.  The expiry guard comes first and
has its own message; a rejection writes nothing; without a rejection the handler
goes on to the update; and a token with `expired_time = -1` is never rejected by
the expiry guard. -/
theorem UpdateToken_enable_guards
    (env : Env) (st : TokenStore) (c : Context) (statusOnly : String)
    (tokenReq : TokenRequest) (cleanToken : Token)
    (hname : len tokenReq.Name ≤ 30)
    (hfound : st.GetTokenByIds tokenReq.Id (c.GetInt "id") = Except.ok cleanToken)
    (hstatus : tokenReq.Status = TokenStatusEnabled) :
    (enableGuards st.GetTimestamp tokenReq.Status cleanToken ≠ none ↔
      (cleanToken.Status = TokenStatusExpired ∧ cleanToken.ExpiredTime ≠ -1 ∧
        cleanToken.ExpiredTime ≤ st.GetTimestamp) ∨
      (cleanToken.Status = TokenStatusExhausted ∧ cleanToken.RemainQuota ≤ 0 ∧
        cleanToken.UnlimitedQuota = false)) ∧
    ((cleanToken.Status = TokenStatusExpired ∧ cleanToken.ExpiredTime ≠ -1 ∧
        cleanToken.ExpiredTime ≤ st.GetTimestamp) →
      UpdateToken env st c statusOnly (Except.ok tokenReq) =
        { response :=
            { success := false,
              message := "令牌已过期，无法启用，请先修改令牌过期时间，或者设置为永不过期" },
          writes := [] }) ∧
    (¬ (cleanToken.Status = TokenStatusExpired ∧ cleanToken.ExpiredTime ≠ -1 ∧
        cleanToken.ExpiredTime ≤ st.GetTimestamp) →
      (cleanToken.Status = TokenStatusExhausted ∧ cleanToken.RemainQuota ≤ 0 ∧
        cleanToken.UnlimitedQuota = false) →
      UpdateToken env st c statusOnly (Except.ok tokenReq) =
        { response :=
            { success := false,
              message := "令牌可用额度已用尽，无法启用，请先修改令牌剩余额度，或者设置为无限额度" },
          writes := [] }) ∧
    (enableGuards st.GetTimestamp tokenReq.Status cleanToken = none →
      UpdateToken env st c statusOnly (Except.ok tokenReq) =
        updateTokenBody env st c statusOnly tokenReq cleanToken) ∧
    (cleanToken.ExpiredTime = -1 →
      enableGuards st.GetTimestamp tokenReq.Status cleanToken ≠
        some "令牌已过期，无法启用，请先修改令牌过期时间，或者设置为永不过期") := by
  have hupd := UpdateToken_of_found env st c statusOnly tokenReq cleanToken hname hfound
  have hexp : (cleanToken.Status = TokenStatusExpired ∧ cleanToken.ExpiredTime ≠ -1 ∧
        cleanToken.ExpiredTime ≤ st.GetTimestamp) →
      enableGuards st.GetTimestamp tokenReq.Status cleanToken =
        some "令牌已过期，无法启用，请先修改令牌过期时间，或者设置为永不过期" := by
    rintro ⟨h1, h2, h3⟩
    unfold enableGuards
    rw [if_pos hstatus, if_pos ⟨h1, h3, h2⟩]
  have hexh : ¬ (cleanToken.Status = TokenStatusExpired ∧ cleanToken.ExpiredTime ≠ -1 ∧
        cleanToken.ExpiredTime ≤ st.GetTimestamp) →
      (cleanToken.Status = TokenStatusExhausted ∧ cleanToken.RemainQuota ≤ 0 ∧
        cleanToken.UnlimitedQuota = false) →
      enableGuards st.GetTimestamp tokenReq.Status cleanToken =
        some "令牌可用额度已用尽，无法启用，请先修改令牌剩余额度，或者设置为无限额度" := by
    rintro hno ⟨h1, h2, h3⟩
    unfold enableGuards
    rw [if_pos hstatus, if_neg (fun h => hno ⟨h.1, h.2.2, h.2.1⟩),
      if_pos ⟨h1, h2, by simp [h3]⟩]
  have hnone : ¬ (cleanToken.Status = TokenStatusExpired ∧ cleanToken.ExpiredTime ≠ -1 ∧
        cleanToken.ExpiredTime ≤ st.GetTimestamp) →
      ¬ (cleanToken.Status = TokenStatusExhausted ∧ cleanToken.RemainQuota ≤ 0 ∧
        cleanToken.UnlimitedQuota = false) →
      enableGuards st.GetTimestamp tokenReq.Status cleanToken = none := by
    intro hno1 hno2
    unfold enableGuards
    rw [if_pos hstatus, if_neg (fun h => hno1 ⟨h.1, h.2.2, h.2.1⟩),
      if_neg (fun h => hno2 ⟨h.1, h.2.1, by simpa using h.2.2⟩)]
  refine ⟨?_, ?_, ?_, ?_, ?_⟩
  · constructor
    · intro h
      by_contra hno
      exact h (hnone (fun h1 => hno (Or.inl h1)) (fun h2 => hno (Or.inr h2)))
    · rintro (h | h)
      · rw [hexp h]
        simp
      · by_cases h1 : cleanToken.Status = TokenStatusExpired ∧ cleanToken.ExpiredTime ≠ -1 ∧
            cleanToken.ExpiredTime ≤ st.GetTimestamp
        · rw [hexp h1]
          simp
        · rw [hexh h1 h]
          simp
  · intro h
    rw [hupd, hexp h]
    rfl
  · intro h1 h2
    rw [hupd, hexh h1 h2]
    rfl
  · intro h
    rw [hupd, h]
  · intro hneg h
    by_cases h1 : cleanToken.Status = TokenStatusExpired ∧ cleanToken.ExpiredTime ≠ -1 ∧
        cleanToken.ExpiredTime ≤ st.GetTimestamp
    · exact h1.2.1 hneg
    · by_cases h2 : cleanToken.Status = TokenStatusExhausted ∧ cleanToken.RemainQuota ≤ 0 ∧
          cleanToken.UnlimitedQuota = false
      · rw [hexh h1 h2] at h
        exact absurd h (by decide)
      · rw [hnone h1 h2] at h
        exact absurd h (by simp)

/-- Witness of C20: enabling token 7 (expired at 500, the time being 1000) is
rejected by the expiry guard; token 8 (expired, never expires) is enabled and
written; token 9 (exhausted, no quota left) is rejected by the quota guard. -/
theorem UpdateToken_enable_guards_witness :
    len ({ Id := 7, Name := "old", Status := TokenStatusEnabled } : TokenRequest).Name ≤ 30 ∧
    demoTokenStore.GetTokenByIds 7 (demoRequestCtx.GetInt "id") =
      Except.ok { Id := 7, UserId := 1, Name := "old", Status := TokenStatusExpired,
                  ExpiredTime := 500, Group := "vip" } ∧
    (UpdateToken demoEnv demoTokenStore demoRequestCtx "1"
      (Except.ok { Id := 8, Name := "forever", Status := TokenStatusEnabled })).response.success =
      true ∧
    (UpdateToken demoEnv demoTokenStore demoRequestCtx "1"
      (Except.ok { Id := 8, Name := "forever", Status := TokenStatusEnabled })).writes =
      [WriteEvent.Update
        { Id := 8, UserId := 1, Name := "forever", Status := TokenStatusEnabled,
          ExpiredTime := -1, Group := "vip" }] ∧
    UpdateToken demoEnv demoTokenStore demoRequestCtx "1"
        (Except.ok { Id := 9, Name := "spent", Status := TokenStatusEnabled }) =
      reject "令牌可用额度已用尽，无法启用，请先修改令牌剩余额度，或者设置为无限额度" ∧
    UpdateToken demoEnv demoTokenStore demoRequestCtx "1"
        (Except.ok { Id := 7, Name := "old", Status := TokenStatusEnabled }) =
      { response :=
          { success := false,
            message := "令牌已过期，无法启用，请先修改令牌过期时间，或者设置为永不过期" },
        writes := [] } :=
  ⟨by decide, rfl, by decide, by decide, by decide,
    (UpdateToken_enable_guards demoEnv demoTokenStore demoRequestCtx "1"
      { Id := 7, Name := "old", Status := TokenStatusEnabled }
      { Id := 7, UserId := 1, Name := "old", Status := TokenStatusExpired,
        ExpiredTime := 500, Group := "vip" }
      (by decide) rfl rfl).2.1 (by decide)⟩

/-! ## C23: an error leaves the request context alone -/

theorem ctxWrites_append (a b : List Event) : ctxWrites (a ++ b) = ctxWrites a ++ ctxWrites b := by
  simp [ctxWrites, List.filterMap_append]

theorem autoGroupLoop_ctxWrites_of_none (env : Env) (c : Context) (m : String) (retry : Int)
    (l : List String) (h : (autoGroupLoop env c m retry l).channel = none) :
    ctxWrites (autoGroupLoop env c m retry l).trace = [] := by
  induction l with
  | nil => rfl
  | cons g rest ih =>
    cases hs : (env.randomChannelSelector g m retry).1 with
    | none =>
      simp only [autoGroupLoop, hs, Result.after] at h ⊢
      rw [ctxWrites_append, ih h]
      rfl
    | some ch => simp [autoGroupLoop, hs] at h

/-- An attempt that does not produce a channel writes no context key. -/
theorem CacheGet_ctxWrites_of_not_succeeded (env : Env) (c : Context) (g m : String)
    (retry : Int) (h : ¬ (CacheGetRandomSatisfiedChannel env c g m retry).succeeded) :
    ctxWrites (CacheGetRandomSatisfiedChannel env c g m retry).trace = [] := by
  by_cases hg : g = "auto"
  · subst hg
    by_cases ha : env.GetAutoGroups = []
    · rw [CacheGet_auto_disabled env c m retry ha]
      rfl
    · rw [CacheGet_auto env c m retry ha] at h ⊢
      simp only [Result.after]
      rw [ctxWrites_append, autoGroupLoop_ctxWrites_of_none]
      · rfl
      · by_contra hc
        exact h ⟨by simp [Result.after, autoGroupLoop_err], by simpa [Result.after] using hc⟩
  · rw [CacheGet_plain env c g m retry hg]
    rfl

theorem attemptsTrace_ctxWrites (env : Env) (c : Context) (m : String) (retry : Int)
    (gs : List String)
    (h : ∀ g ∈ gs, ¬ (CacheGetRandomSatisfiedChannel env c g m retry).succeeded) :
    ctxWrites (attemptsTrace env c m retry gs) = [] := by
  induction gs with
  | nil => rfl
  | cons g rest ih =>
    have hcons : attemptsTrace env c m retry (g :: rest) =
        (CacheGetRandomSatisfiedChannel env c g m retry).trace ++
          attemptsTrace env c m retry rest := by
      simp [attemptsTrace]
    rw [hcons, ctxWrites_append,
      CacheGet_ctxWrites_of_not_succeeded env c g m retry (h g (List.mem_cons_self g rest)),
      ih (fun x hx => h x (List.mem_cons_of_mem g hx))]
    rfl

/-- A single-group selection that ends in an error is the bare attempt. -/
theorem selectChannelFromSingleGroup_of_err (env : Env) (c : Context) (g m : String)
    (retry : Int) (h : (selectChannelFromSingleGroup env c g m retry).err ≠ none) :
    (selectChannelFromSingleGroup env c g m retry).ctx = c ∧
    ctxWrites (selectChannelFromSingleGroup env c g m retry).trace = [] := by
  have herr := (selectChannelFromSingleGroup_outcome env c g m retry).2.2.1
  rw [herr] at h
  have hns : ¬ (CacheGetRandomSatisfiedChannel env c g m retry).succeeded := fun hs => h hs.1
  have heq : selectChannelFromSingleGroup env c g m retry =
      CacheGetRandomSatisfiedChannel env c g m retry := by
    unfold selectChannelFromSingleGroup
    simp only
    rw [if_neg (fun hs => h hs.1)]
  rw [heq]
  exact ⟨CacheGet_ctx_of_not_succeeded env c g m retry hns,
    CacheGet_ctxWrites_of_not_succeeded env c g m retry hns⟩

/-- A group loop either returns a success or runs out without a context write. -/
theorem groupLoop_frame (env : Env) (m : String) (retry : Int) (a : Bool) (c : Context)
    (gs : List String) :
    (∃ r, groupLoop env m retry a c gs = LoopExit.returned r ∧ r.err = none) ∨
    (∃ t, groupLoop env m retry a c gs = LoopExit.exhausted c t ∧ ctxWrites t = []) := by
  rcases groupLoop_cases env m retry a c gs with ⟨pre, g, post, _, _, _, hloop⟩ | ⟨hall, hloop⟩
  · exact Or.inl ⟨_, hloop, rfl⟩
  · exact Or.inr ⟨_, hloop, attemptsTrace_ctxWrites env c m retry gs hall⟩

/-- The ratio fallback, when it ends in an error, has written no context key. -/
theorem selectChannelByRatio_frame (env : Env) (c : Context) (m : String) (retry : Int)
    (ps : List GroupPriority) (h : (selectChannelByRatio env c m retry ps).err ≠ none) :
    (selectChannelByRatio env c m retry ps).ctx = c ∧
    ctxWrites (selectChannelByRatio env c m retry ps).trace = [] := by
  unfold selectChannelByRatio at h ⊢
  simp only at h ⊢
  split
  · exact ⟨rfl, rfl⟩
  · rename_i hlen
    rw [if_neg hlen] at h
    rcases groupLoop_frame env m retry true c
        ((sortedCandidates env (GetContextKeyString c ContextKeyUserGroup) ps).map
          groupWithRatio.group) with ⟨r, hr, hnone⟩ | ⟨t, ht, hw⟩
    · rw [hr] at h
      exact absurd hnone (by simpa [Result.after] using h)
    · rw [ht]
      refine ⟨rfl, ?_⟩
      simp only
      rw [ctxWrites_append, hw]
      rfl

/-- C23.  Whenever `SelectChannelWithPriority` returns an error, the request
context after the call is the context before it, and the call has written no
context key at all: none of `selected_group`, `using_group`,
`auto_smart_group_used` and `auto_group` is set, however many groups were
attempted; no channel is returned with the error. -/
theorem SelectChannelWithPriority_error_frame
    (env : Env) (c : Context) (token : Token) (m : String) (retry : Int)
    (herr : (SelectChannelWithPriority env c token m retry).err ≠ none) :
    (SelectChannelWithPriority env c token m retry).ctx = c ∧
    ctxWrites (SelectChannelWithPriority env c token m retry).trace = [] ∧
    (∀ key ∈ [ContextKeySelectedGroup, ContextKeyUsingGroup, ContextKeyAutoSmartGroupUsed,
        "auto_group"],
      (SelectChannelWithPriority env c token m retry).ctx key = c key ∧
      ∀ v, Event.ctxSet key v ∉ (SelectChannelWithPriority env c token m retry).trace) := by
  have hmain : (SelectChannelWithPriority env c token m retry).ctx = c ∧
      ctxWrites (SelectChannelWithPriority env c token m retry).trace = [] := by
    unfold SelectChannelWithPriority at herr ⊢
    cases hp : token.GetGroupPriorities env with
    | error e =>
      simp only [hp] at herr ⊢
      exact selectChannelFromSingleGroup_of_err env c _ m retry herr
    | ok ps =>
      simp only [hp] at herr ⊢
      by_cases hlen : ps.length = 0
      · rw [if_pos hlen] at herr ⊢
        exact selectChannelFromSingleGroup_of_err env c _ m retry herr
      · rw [if_neg hlen] at herr ⊢
        rcases groupLoop_frame env m retry false c (ps.map GroupPriority.Group) with
          ⟨r, hr, hnone⟩ | ⟨t, ht, hw⟩
        · rw [hr] at herr
          exact absurd hnone herr
        · rw [ht] at herr ⊢
          by_cases hauto : token.AutoSmartGroup = true
          · simp only [hauto, if_true, Result.after] at herr ⊢
            obtain ⟨hc, hr⟩ := selectChannelByRatio_frame env c m retry ps herr
            refine ⟨hc, ?_⟩
            rw [ctxWrites_append, hw, hr]
            rfl
          · simp only [hauto] at herr ⊢
            exact ⟨rfl, hw⟩
  refine ⟨hmain.1, hmain.2, ?_⟩
  intro key _
  refine ⟨by rw [hmain.1], ?_⟩
  intro v hv
  have hmem : key ∈ ctxWrites (SelectChannelWithPriority env c token m retry).trace := by
    unfold ctxWrites
    rw [List.mem_filterMap]
    exact ⟨Event.ctxSet key v, hv, rfl⟩
  rw [hmain.2] at hmem
  exact absurd hmem (List.not_mem_nil key)

/-- C23 at work: a `guest` whose only listed group fails and whose two fallback
candidates (`auto`, expanded to `basic`, and `basic`) fail too gets
`ErrAllGroupsFailed` after three store queries and an untouched context. -/
theorem SelectChannelWithPriority_error_frame_witness :
    (SelectChannelWithPriority demoEnv (demoCtx "guest") demoSmartToken "gpt" 0).err ≠ none ∧
    storeGroups (SelectChannelWithPriority demoEnv (demoCtx "guest") demoSmartToken "gpt" 0).trace
      = ["primary", "basic", "basic"] ∧
    ((SelectChannelWithPriority demoEnv (demoCtx "guest") demoSmartToken "gpt" 0).ctx =
        demoCtx "guest" ∧
      ctxWrites (SelectChannelWithPriority demoEnv (demoCtx "guest") demoSmartToken "gpt" 0).trace
        = [] ∧
      ∀ key ∈ [ContextKeySelectedGroup, ContextKeyUsingGroup, ContextKeyAutoSmartGroupUsed,
          "auto_group"],
        (SelectChannelWithPriority demoEnv (demoCtx "guest") demoSmartToken "gpt" 0).ctx key =
          demoCtx "guest" key ∧
        ∀ v, Event.ctxSet key v ∉
          (SelectChannelWithPriority demoEnv (demoCtx "guest") demoSmartToken "gpt" 0).trace) :=
  ⟨by decide, by decide,
   SelectChannelWithPriority_error_frame demoEnv (demoCtx "guest") demoSmartToken "gpt" 0
     (by decide)⟩

/-! ## C22: an invalid priority array -/

theorem validatePriorities_ne_none_of_invalid (env : Env) (l : List GroupPriority)
    (h : (∃ p ∈ l, TrimSpace p.Group = "") ∨ (∃ p ∈ l, p.Priority < 1) ∨
      ¬ (l.map fun p => TrimSpace p.Group).Nodup ∨ l.length > env.MaxGroupPriorities) :
    validatePriorities env l ≠ none := by
  intro hv
  obtain ⟨hlen, hgroup, hprio, hdup⟩ := (validatePriorities_eq_none_iff env l).mp hv
  rcases h with ⟨p, hp, he⟩ | ⟨p, hp, hlt⟩ | hnd | hlong
  · exact hgroup p hp he
  · have := hprio p hp
    omega
  · exact hnd hdup
  · omega

theorem ensureUserGroupsAccessible_collect_eq_none (env : Env) (c : Context)
    (ps : List GroupPriority)
    (h : ∀ p ∈ ps, TrimSpace p.Group ≠ "" →
      TrimSpace p.Group ∈ env.GetUserUsableGroups (getRequestUserGroup c)) :
    ensureUserGroupsAccessible env c (collectGroupsFromPriorities ps) = none := by
  rw [ensureUserGroupsAccessible_eq, ensureLoop_eq_none_iff]
  intro g hg _
  obtain ⟨hne, p, hp, rfl⟩ := (mem_collectGroupsFromPriorities ps g).mp hg
  exact h p hp hne

theorem beginsWith_append (pre rest : String) : beginsWith (pre ++ rest) pre := by
  unfold beginsWith
  rw [String.data_append]
  exact List.prefix_append _ _

theorem not_beginsWith_unauthorized (g : String) :
    ¬ beginsWith ("无权访问分组: " ++ g) "分组优先级设置失败" := by
  unfold beginsWith
  rw [String.data_append]
  rintro ⟨t, ht⟩
  have h1 : ("分组优先级设置失败".data ++ t).head? = some '分' := rfl
  have h2 : ("无权访问分组: ".data ++ g.data).head? = some '无' := rfl
  rw [ht, h2] at h1
  exact absurd (Option.some.inj h1) (by decide)

/-- The array branch of `AddToken` once the name is accepted, a key is generated
and the gate lets the array pass: the outcome is decided by `SetGroupPriorities`. -/
theorem addTokenBody_of_gate_ok (env : Env) (st : TokenStore) (c : Context)
    (tokenReq : TokenRequest) (key : String)
    (hkey : st.GenerateKey = Except.ok key)
    (hne : tokenReq.GroupPrioritiesArray ≠ [])
    (hgate : ensureUserGroupsAccessible env c
      (collectGroupsFromPriorities tokenReq.GroupPrioritiesArray) = none)
    (reason : String)
    (hv : validatePriorities env tokenReq.GroupPrioritiesArray = some reason) :
    addTokenBody env st c tokenReq =
      reject ("分组优先级设置失败: " ++ (TokenError.InvalidPriorityList reason).Error) := by
  unfold addTokenBody
  rw [hkey]
  simp only
  rw [if_pos (List.length_pos.mpr hne), hgate]
  simp only
  rw [SetGroupPriorities_of_invalid env _ _ hne reason hv]

/-- C22 (amended).  For an `AddToken` request that passed the name check and for
which a key was generated, and whose non-empty priority array is invalid (a group
empty after trimming, a priority below 1, a duplicate group after trimming, or
more than `MaxGroupPriorities` entries): when the authorization gate, which runs
before the validation, lets the array pass (every group of the array that is
non-empty after trimming is in the user's usable set), the response is
`success = false` with the message "分组优先级设置失败: " followed by the text of
the codec's error, and nothing is written; when the gate rejects the array, the
response is the gate's own message, which does not begin with "分组优先级设置失败". -/
theorem AddToken_invalid_priorities
    (env : Env) (st : TokenStore) (c : Context) (tokenReq : TokenRequest) (key : String)
    (hname : len tokenReq.Name ≤ 30)
    (hkey : st.GenerateKey = Except.ok key)
    (hne : tokenReq.GroupPrioritiesArray ≠ [])
    (hinvalid : (∃ p ∈ tokenReq.GroupPrioritiesArray, TrimSpace p.Group = "") ∨
      (∃ p ∈ tokenReq.GroupPrioritiesArray, p.Priority < 1) ∨
      ¬ (tokenReq.GroupPrioritiesArray.map fun p => TrimSpace p.Group).Nodup ∨
      tokenReq.GroupPrioritiesArray.length > env.MaxGroupPriorities) :
    ((∀ p ∈ tokenReq.GroupPrioritiesArray, TrimSpace p.Group ≠ "" →
        TrimSpace p.Group ∈ env.GetUserUsableGroups (getRequestUserGroup c)) →
      ∃ reason, validatePriorities env tokenReq.GroupPrioritiesArray = some reason ∧
        AddToken env st c (Except.ok tokenReq) =
          reject ("分组优先级设置失败: " ++ (TokenError.InvalidPriorityList reason).Error) ∧
        (AddToken env st c (Except.ok tokenReq)).response.success = false ∧
        beginsWith (AddToken env st c (Except.ok tokenReq)).response.message
          "分组优先级设置失败" ∧
        (AddToken env st c (Except.ok tokenReq)).writes = []) ∧
    (∀ err, ensureUserGroupsAccessible env c
        (collectGroupsFromPriorities tokenReq.GroupPrioritiesArray) = some err →
      AddToken env st c (Except.ok tokenReq) = reject err ∧
      ¬ beginsWith err "分组优先级设置失败") := by
  rw [AddToken_of_name_ok env st c tokenReq hname]
  constructor
  · intro hgate
    obtain ⟨reason, hr⟩ := Option.ne_none_iff_exists'.mp
      (validatePriorities_ne_none_of_invalid env _ hinvalid)
    have hbody := addTokenBody_of_gate_ok env st c tokenReq key hkey hne
      (ensureUserGroupsAccessible_collect_eq_none env c _ hgate) reason hr
    refine ⟨reason, hr, hbody, ?_, ?_, ?_⟩
    · rw [hbody]
      rfl
    · rw [hbody]
      have hsplit : "分组优先级设置失败: " = "分组优先级设置失败" ++ ": " := by decide
      simp only [reject]
      rw [hsplit, String.append_assoc]
      exact beginsWith_append _ _
    · rw [hbody]
      rfl
  · intro err herr
    constructor
    · unfold addTokenBody
      rw [hkey]
      simp only
      rw [if_pos (List.length_pos.mpr hne), herr]
    · obtain ⟨g, hg⟩ := ensureUserGroupsAccessible_message env c _ err herr
      rw [hg]
      exact not_beginsWith_unauthorized g

/-- C22 at work: the repository's validation test with priority 0 for the group
`vip`, sent by a user of group `default`, who may use `vip`. -/
theorem AddToken_invalid_priorities_witness :
    len zeroPriorityRequest.Name ≤ 30 ∧
    AddToken demoEnv demoTokenStore demoRequestCtx (Except.ok zeroPriorityRequest) =
      reject "分组优先级设置失败: invalid priority list: priority below 1" ∧
    (∀ p ∈ zeroPriorityRequest.GroupPrioritiesArray, TrimSpace p.Group ≠ "" →
      TrimSpace p.Group ∈ demoEnv.GetUserUsableGroups (getRequestUserGroup demoRequestCtx)) ∧
    (∃ reason, validatePriorities demoEnv zeroPriorityRequest.GroupPrioritiesArray =
        some reason ∧
      AddToken demoEnv demoTokenStore demoRequestCtx (Except.ok zeroPriorityRequest) =
        reject ("分组优先级设置失败: " ++ (TokenError.InvalidPriorityList reason).Error) ∧
      (AddToken demoEnv demoTokenStore demoRequestCtx
        (Except.ok zeroPriorityRequest)).response.success = false ∧
      beginsWith (AddToken demoEnv demoTokenStore demoRequestCtx
        (Except.ok zeroPriorityRequest)).response.message "分组优先级设置失败" ∧
      (AddToken demoEnv demoTokenStore demoRequestCtx
        (Except.ok zeroPriorityRequest)).writes = []) :=
  ⟨by decide, by decide, by decide,
   (AddToken_invalid_priorities demoEnv demoTokenStore demoRequestCtx zeroPriorityRequest
      "sk-demo" (by decide) rfl (by decide)
      (Or.inr (Or.inl ⟨{ Group := "vip", Priority := 0 }, by decide, by decide⟩))).1
     (by decide)⟩

/-- C22 as stated fails: the array `[(unknown-group, 0)]` is non-empty and invalid
(priority below 1), the request passes the name check, and the response of
`AddToken` to a user of group `default` is the authorization gate's
"无权访问分组: unknown-group", which does not begin with "分组优先级设置失败". -/
theorem AddToken_invalid_priorities_unauthorized_first :
    zeroPriorityUnknownRequest.GroupPrioritiesArray ≠ [] ∧
    (∃ p ∈ zeroPriorityUnknownRequest.GroupPrioritiesArray, p.Priority < 1) ∧
    validatePriorities demoEnv zeroPriorityUnknownRequest.GroupPrioritiesArray =
      some "priority below 1" ∧
    AddToken demoEnv demoTokenStore demoRequestCtx (Except.ok zeroPriorityUnknownRequest) =
      reject "无权访问分组: unknown-group" ∧
    ¬ ((AddToken demoEnv demoTokenStore demoRequestCtx
          (Except.ok zeroPriorityUnknownRequest)).response.success = false ∧
        beginsWith (AddToken demoEnv demoTokenStore demoRequestCtx
          (Except.ok zeroPriorityUnknownRequest)).response.message "分组优先级设置失败") := by
  refine ⟨by decide, ⟨{ Group := "unknown-group", Priority := 0 }, by decide, by decide⟩,
    by decide, by decide, ?_⟩
  decide

/-! ## C21: the groups of a written token -/

theorem mem_normalizePriorities (l : List GroupPriority) (q : GroupPriority)
    (h : q ∈ normalizePriorities l) : ∃ p ∈ l, q.Group = TrimSpace p.Group := by
  have hq := (normalizePriorities_perm l).mem_iff.mp h
  unfold trimEach at hq
  obtain ⟨p, hp, rfl⟩ := List.mem_map.mp hq
  exact ⟨p, hp, rfl⟩

/-- The groups named by a token whose list was stored by `SetGroupPriorities` from
the array `l`, given that the stored text is read back: the first group of the
normal form and the groups of the normal form. -/
theorem namedGroups_of_stored (env : Env) (t : Token) (l : List GroupPriority)
    (first : GroupPriority) (rest : List GroupPriority)
    (hn : normalizePriorities l = first :: rest)
    (hread : env.Unmarshal (env.Marshal (normalizePriorities l)) =
      some (normalizePriorities l))
    (g : String)
    (hg : g ∈ Token.namedGroups env
      { t with GroupPriorities := env.Marshal (normalizePriorities l), Group := first.Group }) :
    ∃ p ∈ l, g = TrimSpace p.Group := by
  have hfirst : ∃ p ∈ l, first.Group = TrimSpace p.Group :=
    mem_normalizePriorities l first (by rw [hn]; exact List.mem_cons_self _ _)
  unfold Token.namedGroups Token.GetGroupPriorities at hg
  simp only at hg
  by_cases hs : env.Marshal (normalizePriorities l) = ""
  · rw [if_pos hs] at hg
    by_cases hf : first.Group ≠ ""
    · rw [if_pos hf] at hg
      simp only [List.map_cons, List.map_nil, List.mem_cons, List.mem_singleton,
        List.not_mem_nil, or_false, or_self] at hg
      rw [hg]
      exact hfirst
    · rw [if_neg hf] at hg
      simp only [List.map_nil, List.mem_singleton] at hg
      rw [hg]
      exact hfirst
  · rw [if_neg hs, hread] at hg
    simp only [List.mem_cons, List.mem_map] at hg
    rcases hg with rfl | ⟨q, hq, rfl⟩
    · exact hfirst
    · exact mem_normalizePriorities l q ((List.perm_insertionSort priorityLE _).mem_iff.mp hq)

/-- The groups named by a token without a stored list: its `group`. -/
theorem namedGroups_of_cleared (env : Env) (t : Token) (h : t.GroupPriorities = "")
    (g : String) (hg : g ∈ t.namedGroups env) : g = t.Group := by
  unfold Token.namedGroups Token.GetGroupPriorities at hg
  rw [if_pos h] at hg
  by_cases hf : t.Group ≠ ""
  · rw [if_pos hf] at hg
    simpa using hg
  · rw [if_neg hf] at hg
    simpa using hg

theorem usable_of_gate_singleton (env : Env) (c : Context) (g : String) (hne : g ≠ "")
    (h : ensureUserGroupsAccessible env c [g] = none) :
    g ∈ env.GetUserUsableGroups (getRequestUserGroup c) := by
  rw [ensureUserGroupsAccessible_eq, ensureLoop_eq_none_iff] at h
  exact h g (List.mem_singleton_self g) hne

theorem usable_of_gate_array (env : Env) (c : Context) (l : List GroupPriority)
    (h : ensureUserGroupsAccessible env c (collectGroupsFromPriorities l) = none)
    (p : GroupPriority) (hp : p ∈ l) (hne : TrimSpace p.Group ≠ "") :
    TrimSpace p.Group ∈ env.GetUserUsableGroups (getRequestUserGroup c) := by
  rw [ensureUserGroupsAccessible_eq, ensureLoop_eq_none_iff] at h
  exact h _ ((mem_collectGroupsFromPriorities l _).mpr ⟨hne, p, hp, rfl⟩) hne

/-- The groups named by the token that an accepted `SetGroupPriorities` returns
are trimmed names of the array. -/
theorem namedGroups_of_SetGroupPriorities (env : Env) (t : Token) (l : List GroupPriority)
    (t2 : Token) (hne : l ≠ []) (hset : t.SetGroupPriorities env l = (t2, none))
    (hread : env.Unmarshal (env.Marshal (normalizePriorities l)) =
      some (normalizePriorities l))
    (g : String) (hg : g ∈ t2.namedGroups env) : ∃ p ∈ l, g = TrimSpace p.Group := by
  have hv := SetGroupPriorities_ok_valid env t l hne (by rw [hset])
  obtain ⟨first, rest, hn, hset2⟩ := SetGroupPriorities_of_valid env t l hne hv
  rw [hset2] at hset
  have ht := (Prod.mk.inj hset).1
  subst ht
  exact namedGroups_of_stored env t l first rest hn hread g hg

theorem insert_eq_of_writes (st : TokenStore) (x t : Token)
    (h : (callInsert st x).writes = [WriteEvent.Insert t]) : x = t := by
  rw [(callInsert_writes st x).1] at h
  injection h with h _
  injection h

theorem update_eq_of_writes (st : TokenStore) (x t : Token)
    (h : (callUpdate st x).writes = [WriteEvent.Update t]) : x = t := by
  rw [(callUpdate_writes st x).1] at h
  injection h with h _
  injection h

/-- Every token that `AddToken` hands to `Insert` names only groups of the writing
user's usable set (the stored list being read back as it was written). -/
theorem AddToken_written_groups (env : Env) (st : TokenStore) (c : Context)
    (tokenReq : TokenRequest) (t : Token)
    (hread : tokenReq.GroupPrioritiesArray ≠ [] →
      env.Unmarshal (env.Marshal (normalizePriorities tokenReq.GroupPrioritiesArray)) =
        some (normalizePriorities tokenReq.GroupPrioritiesArray))
    (hw : (AddToken env st c (Except.ok tokenReq)).writes = [WriteEvent.Insert t]) :
    ∀ g ∈ t.namedGroups env, g ≠ "" →
      g ∈ env.GetUserUsableGroups (getRequestUserGroup c) := by
  intro g hg hne
  unfold AddToken at hw
  simp only at hw
  by_cases hname : len tokenReq.Name > 30
  · rw [if_pos hname] at hw
    exact absurd hw (by simp [reject])
  rw [if_neg hname] at hw
  unfold addTokenBody at hw
  cases hk : st.GenerateKey with
  | error e =>
    rw [hk] at hw
    exact absurd hw (by simp [reject])
  | ok key =>
    rw [hk] at hw
    simp only at hw
    by_cases harr : tokenReq.GroupPrioritiesArray = []
    · rw [if_neg (by simp [harr])] at hw
      by_cases hgrp : TrimSpace tokenReq.Group ≠ ""
      · rw [if_pos hgrp] at hw
        cases hgate : ensureUserGroupsAccessible env c [TrimSpace tokenReq.Group] with
        | some err =>
          rw [hgate] at hw
          exact absurd hw (by simp [reject])
        | none =>
          rw [hgate] at hw
          simp only at hw
          have ht := insert_eq_of_writes st _ t hw
          subst ht
          have hgeq := namedGroups_of_cleared env _ rfl g hg
          simp only at hgeq
          rw [hgeq]
          exact usable_of_gate_singleton env c _ hgrp hgate
      · rw [if_neg hgrp] at hw
        have ht := insert_eq_of_writes st _ t hw
        subst ht
        have hgeq := namedGroups_of_cleared env _ rfl g hg
        simp only at hgeq
        rw [hgeq] at hne
        exact absurd hne hgrp
    · rw [if_pos (List.length_pos.mpr harr)] at hw
      cases hgate : ensureUserGroupsAccessible env c
          (collectGroupsFromPriorities tokenReq.GroupPrioritiesArray) with
      | some err =>
        rw [hgate] at hw
        exact absurd hw (by simp [reject])
      | none =>
        rw [hgate] at hw
        simp only at hw
        split at hw
        · exact absurd hw (by simp [reject])
        · rename_i t2 hset
          have ht := insert_eq_of_writes st _ t hw
          subst ht
          obtain ⟨p, hp, rfl⟩ :=
            namedGroups_of_SetGroupPriorities env _ _ _ harr hset (hread harr) g hg
          exact usable_of_gate_array env c _ hgate p hp hne

/-- A full update with a non-empty array, or with an empty `group_priorities`
string: every token handed to `Update` names only groups of the writing user's
usable set (the stored list being read back as it was written). -/
theorem UpdateToken_written_groups (env : Env) (st : TokenStore) (c : Context)
    (tokenReq : TokenRequest) (cleanToken t : Token)
    (hfound : st.GetTokenByIds tokenReq.Id (c.GetInt "id") = Except.ok cleanToken)
    (hbranch : tokenReq.GroupPrioritiesArray ≠ [] ∨ tokenReq.GroupPriorities = "")
    (hread : tokenReq.GroupPrioritiesArray ≠ [] →
      env.Unmarshal (env.Marshal (normalizePriorities tokenReq.GroupPrioritiesArray)) =
        some (normalizePriorities tokenReq.GroupPrioritiesArray))
    (hw : (UpdateToken env st c "" (Except.ok tokenReq)).writes = [WriteEvent.Update t]) :
    ∀ g ∈ t.namedGroups env, g ≠ "" →
      g ∈ env.GetUserUsableGroups (getRequestUserGroup c) := by
  intro g hg hne
  unfold UpdateToken at hw
  simp only at hw
  by_cases hname : len tokenReq.Name > 30
  · rw [if_pos hname] at hw
    exact absurd hw (by simp [reject])
  rw [if_neg hname, hfound] at hw
  simp only at hw
  cases hguard : enableGuards st.GetTimestamp tokenReq.Status cleanToken with
  | some message =>
    rw [hguard] at hw
    exact absurd hw (by simp [reject])
  | none =>
    rw [hguard] at hw
    simp only at hw
    unfold updateTokenBody at hw
    rw [if_neg (by simp)] at hw
    simp only at hw
    by_cases harr : tokenReq.GroupPrioritiesArray = []
    · have hstr : tokenReq.GroupPriorities = "" := hbranch.resolve_left (fun h => h harr)
      rw [if_neg (by simp [harr]), if_pos hstr] at hw
      by_cases hgrp : TrimSpace tokenReq.Group ≠ ""
      · rw [if_pos hgrp] at hw
        cases hgate : ensureUserGroupsAccessible env c [TrimSpace tokenReq.Group] with
        | some err =>
          rw [hgate] at hw
          exact absurd hw (by simp [reject])
        | none =>
          rw [hgate] at hw
          simp only at hw
          have ht := update_eq_of_writes st _ t hw
          subst ht
          have hgeq := namedGroups_of_cleared env _ rfl g hg
          simp only at hgeq
          rw [hgeq]
          exact usable_of_gate_singleton env c _ hgrp hgate
      · rw [if_neg hgrp] at hw
        have ht := update_eq_of_writes st _ t hw
        subst ht
        have hgeq := namedGroups_of_cleared env _ rfl g hg
        simp only at hgeq
        rw [hgeq] at hne
        exact absurd hne hgrp
    · rw [if_pos (List.length_pos.mpr harr)] at hw
      cases hgate : ensureUserGroupsAccessible env c
          (collectGroupsFromPriorities tokenReq.GroupPrioritiesArray) with
      | some err =>
        rw [hgate] at hw
        exact absurd hw (by simp [reject])
      | none =>
        rw [hgate] at hw
        simp only at hw
        split at hw
        · exact absurd hw (by simp [reject])
        · rename_i t2 hset
          have ht := update_eq_of_writes st _ t hw
          subst ht
          obtain ⟨p, hp, rfl⟩ :=
            namedGroups_of_SetGroupPriorities env _ _ _ harr hset (hread harr) g hg
          exact usable_of_gate_array env c _ hgate p hp hne

/-- A full update without an array and with a non-empty `group_priorities` string
reaches `Update` with the request's trimmed `group`, whatever it is, and without
a call of the authorization gate; the stored list is kept. -/
theorem updateTokenBody_unchecked_group (env : Env) (st : TokenStore) (c : Context)
    (tokenReq : TokenRequest) (cleanToken : Token)
    (harr : tokenReq.GroupPrioritiesArray = []) (hstr : tokenReq.GroupPriorities ≠ "") :
    ∃ t, updateTokenBody env st c "" tokenReq cleanToken = callUpdate st t ∧
      t.Group = TrimSpace tokenReq.Group ∧ t.GroupPriorities = cleanToken.GroupPriorities := by
  unfold updateTokenBody
  rw [if_neg (by simp)]
  simp only
  rw [if_neg (by simp [harr]), if_neg hstr]
  exact ⟨_, rfl, rfl, rfl⟩

/-- C21, the defect.  `UpdateToken`, full update, from a user of group `default`
(usable groups `primary`, `vip`, `standard`, `basic`) on their own token 10, with
`group = "premium"`, a non-empty `group_priorities` string and no array: the
handler answers `success = true` and hands to `Update` a token whose `group` is
`premium` and whose priority list reads `[(premium, 1)]`, although `premium` is
not in the user's usable set and the authorization gate rejects it.  The sibling
paths do reject the same group: `AddToken` with the same body, and `UpdateToken`
with the `group_priorities` string empty. -/
theorem UpdateToken_writes_unauthorized_group :
    UpdateToken demoEnv demoTokenStore demoRequestCtx "" (Except.ok premiumRequest) =
      { response := { success := true, message := "", data := some premiumWritten },
        writes := [WriteEvent.Update premiumWritten] } ∧
    premiumWritten.Group = "premium" ∧
    premiumWritten.GetGroupPriorities demoEnv =
      Except.ok [{ Group := "premium", Priority := 1 }] ∧
    "premium" ∈ premiumWritten.namedGroups demoEnv ∧
    "premium" ∉ demoEnv.GetUserUsableGroups (getRequestUserGroup demoRequestCtx) ∧
    ensureUserGroupsAccessible demoEnv demoRequestCtx ["premium"] =
      some "无权访问分组: premium" ∧
    AddToken demoEnv demoTokenStore demoRequestCtx (Except.ok premiumRequest) =
      reject "无权访问分组: premium" ∧
    UpdateToken demoEnv demoTokenStore demoRequestCtx "" (Except.ok premiumClearRequest) =
      reject "无权访问分组: premium" := by
  refine ⟨by decide, rfl, rfl, by decide, by decide, by decide, by decide, by decide⟩

end CoSphere
